import Mathlib

/-!
# Linux virtual machine resource: orchestration, connection information, IDs

A shallow embedding of `resourceLinuxVirtualMachineCreate`,
`resourceLinuxVirtualMachineRead`, `resourceLinuxVirtualMachineUpdate` and
`resourceLinuxVirtualMachineDelete`
(`azurerm/internal/services/compute/linux_virtual_machine_resource.go`), of the
connection resolver (`network_interface.go`) and of the ID parsers
(`virtual_machine.go`, `virtual_machine_extension.go`).

Remote calls are not executed: every run takes the outcome of each remote call
as an input (`Env`) and returns the ordered list of events it produced
together with the Go `error` it returns.
-/

namespace AzureRM

/-! ## Go string helpers used by the resource -/

/-- Go `strings.ToLower`, on the ASCII letters (the only letters of the literals
the resource compares with); other runes are left as they are. -/
def strings_ToLower (s : String) : String :=
  ⟨s.data.map Char.toLower⟩

/-- Go `strings.HasPrefix s p`. -/
def strings_HasPrefix (s p : String) : Bool :=
  p.data.isPrefixOf s.data

/-- Go `strings.TrimPrefix s p`. -/
def strings_TrimPrefix (s p : String) : String :=
  if strings_HasPrefix s p then ⟨s.data.drop p.data.length⟩ else s

/-- Go `strings.EqualFold`, with the case folding of the ASCII letters. -/
def strings_EqualFold (s t : String) : Bool :=
  s.data.map Char.toLower == t.data.map Char.toLower

/-! ## Instance view and power state (lines 626-652) -/

/-- SDK `compute.InstanceViewStatus`: only the `Code` pointer is read. -/
structure InstanceViewStatus where
  Code : Option String := none
deriving DecidableEq, Repr

/-- SDK `compute.VirtualMachineInstanceView`: only the `Statuses` pointer is read. -/
structure VirtualMachineInstanceView where
  Statuses : Option (List InstanceViewStatus) := none
deriving DecidableEq, Repr

/-- One iteration of the loop over `*existing.Statuses` (lines 633-651), as a
function of the current value of `shouldTurnBackOn`. The Go `switch` has no
fallthrough: the cases `deallocating` and `deallocated` have empty bodies. -/
def shouldTurnBackOnStep (shouldTurnBackOn : Bool) (status : InstanceViewStatus) : Bool :=
  match status.Code with
  | none => shouldTurnBackOn
  | some code =>
    let state := strings_ToLower code
    if !strings_HasPrefix state "PowerState/" then shouldTurnBackOn
    else
      let state := strings_TrimPrefix state "powerstate/"
      let sw := strings_ToLower state
      if sw = "deallocating" then shouldTurnBackOn
      else if sw = "deallocated" then shouldTurnBackOn
      else if sw = "stopped" then false
      else shouldTurnBackOn

/-- The value of `shouldTurnBackOn` after lines 631-652. -/
def shouldTurnBackOn (existing : VirtualMachineInstanceView) : Bool :=
  match existing.Statuses with
  | none => true
  | some statuses => statuses.foldl shouldTurnBackOnStep true

/-! ## Resource identifiers (`virtual_machine.go`) -/

/-- The fields of `azure.ResourceID` that the compute package reads. `Path` is
the Go map of path segments, kept as an association list. -/
structure ResourceID where
  SubscriptionID : String := ""
  ResourceGroup : String := ""
  Provider : String := ""
  Path : List (String × String) := []
deriving DecidableEq, Repr

/-- Go map indexing `id.Path[key]`: the zero value `""` when the key is absent. -/
def ResourceID.pathValue (id : ResourceID) (key : String) : String :=
  (id.Path.lookup key).getD ""

/-- `VirtualMachineResourceID` of `virtual_machine.go`. -/
structure VirtualMachineResourceID where
  Base : ResourceID
  Name : String
deriving DecidableEq, Repr

/-- `ParseVirtualMachineID` (`virtual_machine.go`, lines 15-31). The generic
`azure.ParseAzureResourceID` lives outside the modelled sources and is taken as
a parameter; `none` stands for a non-nil error. -/
def ParseVirtualMachineID (parseAzureResourceID : String → Option ResourceID)
    (input : String) : Option VirtualMachineResourceID :=
  match parseAzureResourceID input with
  | none => none
  | some id =>
    let vm : VirtualMachineResourceID := { Base := id, Name := id.pathValue "virtualMachines" }
    if vm.Name = "" then none else some vm

/-! ## SDK request types

Leaf values that the resource only passes through (the results of the
`expand*` helpers, which are outside the modelled sources) are kept as
uninterpreted strings. -/

abbrev DiagnosticsProfile := String
abbrev SSHPublicKey := String
abbrev VaultSecretGroup := String
abbrev VirtualMachineIdentity := String
abbrev AdditionalCapabilities := String
abbrev ComputePlan := String
abbrev OSDisk := String
abbrev DataDisk := String
abbrev ImageReference := String
abbrev Tags := List (String × String)

/-- SDK `compute.NetworkInterfaceReference`: only the `ID` pointer is read. -/
structure NetworkInterfaceReference where
  ID : Option String := none
deriving DecidableEq, Repr

/-- SDK `compute.SubResource`. -/
structure SubResource where
  ID : Option String := none
deriving DecidableEq, Repr

structure SSHConfiguration where
  PublicKeys : Option (List SSHPublicKey) := none
deriving DecidableEq, Repr

structure LinuxConfiguration where
  DisablePasswordAuthentication : Option Bool := none
  ProvisionVMAgent : Option Bool := none
  SSH : Option SSHConfiguration := none
deriving DecidableEq, Repr

structure OSProfile where
  AdminUsername : Option String := none
  AdminPassword : Option String := none
  ComputerName : Option String := none
  AllowExtensionOperations : Option Bool := none
  CustomData : Option String := none
  LinuxConfiguration : Option AzureRM.LinuxConfiguration := none
  Secrets : Option (List VaultSecretGroup) := none
deriving DecidableEq, Repr

/-- SDK `compute.BillingProfile`. `MaxPrice` is a `float64` in the source; the
resource only copies it, so it is kept as an exact number. -/
structure BillingProfile where
  MaxPrice : Option Int := none
deriving DecidableEq, Repr

structure NetworkProfile where
  NetworkInterfaces : Option (List NetworkInterfaceReference) := none
deriving DecidableEq, Repr

structure StorageProfile where
  ImageReference : Option AzureRM.ImageReference := none
  OsDisk : Option OSDisk := none
  DataDisks : Option (List DataDisk) := none
deriving DecidableEq, Repr

structure HardwareProfile where
  VMSize : String
deriving DecidableEq, Repr

/-- The fields of `compute.VirtualMachineProperties` that update, create and
the connection resolver write or read. `Priority` and `EvictionPolicy` are Go
string types, empty when unset. -/
structure VirtualMachineProperties where
  HardwareProfile : Option AzureRM.HardwareProfile := none
  StorageProfile : Option AzureRM.StorageProfile := none
  OsProfile : Option OSProfile := none
  NetworkProfile : Option AzureRM.NetworkProfile := none
  DiagnosticsProfile : Option AzureRM.DiagnosticsProfile := none
  BillingProfile : Option AzureRM.BillingProfile := none
  AdditionalCapabilities : Option AzureRM.AdditionalCapabilities := none
  AvailabilitySet : Option SubResource := none
  Host : Option SubResource := none
  ProximityPlacementGroup : Option SubResource := none
  VirtualMachineScaleSet : Option SubResource := none
  Priority : String := ""
  EvictionPolicy : String := ""
deriving DecidableEq, Repr

/-- SDK `compute.VirtualMachineUpdate`. `VirtualMachineProperties` is a
pointer that line 657 sets to a fresh empty value, so it is never nil here. -/
structure VirtualMachineUpdate where
  Identity : Option VirtualMachineIdentity := none
  VirtualMachineProperties : AzureRM.VirtualMachineProperties := {}
  Tags : Option AzureRM.Tags := none
deriving DecidableEq, Repr

/-- SDK `compute.VirtualMachine`, the parameters of `CreateOrUpdate`. -/
structure VirtualMachine where
  Name : Option String := none
  Location : Option String := none
  Identity : Option VirtualMachineIdentity := none
  Plan : Option ComputePlan := none
  VirtualMachineProperties : AzureRM.VirtualMachineProperties := {}
  Zones : Option (List String) := none
  Tags : Option AzureRM.Tags := none
deriving DecidableEq, Repr

/-- SDK `compute.VirtualMachineSize`: only the `Name` pointer is read. -/
structure VirtualMachineSize where
  Name : Option String := none
deriving DecidableEq, Repr

/-- SDK `compute.VirtualMachineSizeListResult`. -/
structure VirtualMachineSizeListResult where
  Value : Option (List VirtualMachineSize) := none
deriving DecidableEq, Repr

/-! ## SDK network types (`network_interface.go`) -/

/-- SDK `network.PublicIPAddressPropertiesFormat`: only `IPAddress` is read. -/
structure PublicIPAddressPropertiesFormat where
  IPAddress : Option String := none
deriving DecidableEq, Repr

/-- SDK `network.PublicIPAddress`, both as the reference held by an IP
configuration (its `ID`) and as the result of the public-IP `Get`. -/
structure PublicIPAddress where
  ID : Option String := none
  PublicIPAddressPropertiesFormat : Option AzureRM.PublicIPAddressPropertiesFormat := none
deriving DecidableEq, Repr

/-- SDK `network.InterfaceIPConfigurationPropertiesFormat`. -/
structure InterfaceIPConfigurationPropertiesFormat where
  PrivateIPAddress : Option String := none
  PublicIPAddress : Option AzureRM.PublicIPAddress := none
deriving DecidableEq, Repr

/-- SDK `network.InterfaceIPConfiguration`. -/
structure InterfaceIPConfiguration where
  InterfaceIPConfigurationPropertiesFormat :
    Option AzureRM.InterfaceIPConfigurationPropertiesFormat := none
deriving DecidableEq, Repr

/-- SDK `network.InterfacePropertiesFormat`. -/
structure InterfacePropertiesFormat where
  IPConfigurations : Option (List InterfaceIPConfiguration) := none
deriving DecidableEq, Repr

/-- SDK `network.Interface`. -/
structure Interface where
  InterfacePropertiesFormat : Option AzureRM.InterfacePropertiesFormat := none
deriving DecidableEq, Repr

/-- The `Get` of `network.InterfacesClient`, by resource group and name; `none`
stands for a non-nil error. The remote state is taken as fixed while one
resolution runs. -/
abbrev InterfacesClient := String → String → Option Interface

/-- The `Get` of `network.PublicIPAddressesClient`, by resource group and name;
`none` stands for a non-nil error, a not-found response included. -/
abbrev PublicIPAddressesClient := String → String → Option PublicIPAddress

/-! ## Configuration, environment and runs -/

/-- The schema keys that `resourceLinuxVirtualMachineUpdate` passes to
`d.HasChange`. -/
inductive Field
  | boot_diagnostics
  | admin_ssh_key
  | custom_data
  | disable_password_authentication
  | secret
  | identity
  | max_bid_price
  | network_interface_ids
  | os_disk
  | size
  | tags
deriving DecidableEq, Repr

/-- The part of `*schema.ResourceData` that update and delete read. Each value
field is `d.Get(key)` after the `expand*` helper the source applies to it
(those helpers are outside the modelled sources); `identity` keeps the error
that `expandVirtualMachineIdentity` may return, `source_image_reference` the
one of `expandSourceImageReference`. `priority` is part of the configuration
but is not read by update or delete. For a string key, `d.GetOk` answers ok
exactly when the value is not the empty string. -/
structure ResourceData where
  Id : String
  HasChange : Field → Bool
  boot_diagnostics : Option DiagnosticsProfile := none
  admin_ssh_key : List SSHPublicKey := []
  custom_data : String := ""
  disable_password_authentication : Bool := true
  secret : Option (List VaultSecretGroup) := none
  identity : Except String (Option VirtualMachineIdentity) := .ok none
  max_bid_price : Int := -1
  network_interface_ids : List NetworkInterfaceReference := []
  os_disk : Option OSDisk := none
  size : String := ""
  tags : Tags := []
  priority : String := ""
  name : String := ""
  resource_group_name : String := ""
  location : String := ""
  admin_username : String := ""
  admin_password : String := ""
  allow_extension_operations : Bool := true
  provision_vm_agent : Bool := true
  computer_name : String := ""
  eviction_policy : String := ""
  availability_set_id : String := ""
  dedicated_host_id : String := ""
  proximity_placement_group_id : String := ""
  zone : String := ""
  plan : Option ComputePlan := none
  additional_capabilities : Option AdditionalCapabilities := none
  source_image_reference : Except String (Option ImageReference) := .ok none

/-- Outcome of a call that returns a future which is then awaited with
`WaitForCompletionRef`. -/
inductive FutureResult
  | ok
  | sendError
  | waitError
deriving DecidableEq, Repr

/-- Outcome of `client.Get`: whether `err != nil`, what
`utils.ResponseWasNotFound(existing.Response)` answers, and the two fields of
the returned machine that create and read look at. -/
structure GetResult where
  err : Bool := false
  notFound : Bool := false
  ID : Option String := none
  VirtualMachineProperties : Option AzureRM.VirtualMachineProperties := none
deriving DecidableEq, Repr

/-- The error values the two functions can return, one per `return` site. -/
inductive Failure
  | parseID
  | retrieving
  | expandingIdentity
  | retrievingAvailableSizes
  | sendingPowerOff
  | waitingForPowerOff
  | updating
  | waitingForUpdate
  | starting
  | waitingForStart
  | deleting
  | waitingForDeletion
  | read
  | checkingForExisting
  | importAsExists
  | expandingSourceImageReference
  | extensionOperationsWithoutAgent
  | evictionPolicyWithoutSpot
  | spotWithoutEvictionPolicy
  | maxBidPriceWithoutSpot
  | sshKeyRequired
  | adminPasswordRequired
  | creating
  | waitingForCreation
  | idWasNil
  | settingAttribute
  | propertiesWasNil
deriving DecidableEq, Repr

/-- Everything outside the modelled sources that a run depends on: the generic
ID parser, the outcome of each remote call of the VM client, and whether the
final `resourceLinuxVirtualMachineRead` returns an error. Within one run every
remote operation is called at most once, so one outcome per operation covers
every behaviour of the remote API; create calls `Get` twice, once to check for
an existing machine (`ExistingGet`) and once after the creation (`CreatedGet`).
`ShouldResourcesBeImported` is the answer of `features.ShouldResourcesBeImported()`.
For `resourceLinuxVirtualMachineRead` itself, `Get` is its one VM call, the two
network clients serve the connection resolver, and the three `Fails` flags say
whether a `d.Set` of lines 495-501, a `d.Set` or flatten of lines 508-600, or
`tags.FlattenAndSet` (line 610) returns an error. -/
structure Env where
  ParseAzureResourceID : String → Option ResourceID
  InstanceView : Option VirtualMachineInstanceView := none
  ListAvailableSizes : Option VirtualMachineSizeListResult := none
  PowerOff : FutureResult := .ok
  Update : FutureResult := .ok
  Start : FutureResult := .ok
  Get : GetResult := {}
  Delete : FutureResult := .ok
  ReadFails : Bool := false
  ShouldResourcesBeImported : Bool := false
  ExistingGet : GetResult := { err := true, notFound := true }
  CreateOrUpdate : FutureResult := .ok
  CreatedGet : GetResult := {}
  NetworkInterfaces : InterfacesClient := fun _ _ => none
  PublicIPs : PublicIPAddressesClient := fun _ _ => none
  SetFailsBeforeProperties : Bool := false
  SetFailsAfterProperties : Bool := false
  FlattenAndSetTagsFails : Bool := false

/-- The operations whose future is awaited. -/
inductive Op
  | PowerOff
  | Update
  | Start
  | Delete
  | CreateOrUpdate
deriving DecidableEq, Repr

/-- What a run does, in order: lock operations, remote calls with their
arguments, waits on futures, and the final read-back. -/
inductive Event
  | ByName (name : String)
  | UnlockByName (name : String)
  | InstanceView
  | ListAvailableSizes
  | Get
  | PowerOff (skipShutdown : Bool)
  | Update (parameters : VirtualMachineUpdate)
  | Start
  | Delete
  | WaitForCompletionRef (op : Op)
  | Read
  | CreateOrUpdate (parameters : VirtualMachine)
deriving DecidableEq, Repr

/-- The remote calls that change the virtual machine. -/
def Event.isMutating : Event → Bool
  | .PowerOff _ => true
  | .Update _ => true
  | .Start => true
  | .Delete => true
  | .CreateOrUpdate _ => true
  | _ => false

/-- The mutating remote calls of a trace, in order. -/
def mutatingCalls (trace : List Event) : List Event :=
  trace.filter Event.isMutating

/-- A run: the events produced and the returned Go `error` (`none` is `nil`). -/
structure Run where
  trace : List Event
  err : Option Failure
deriving DecidableEq, Repr

/-- Sequencing with early return: the second run happens only when the first
returned no error. -/
def Run.andThen (r k : Run) : Run :=
  match r.err with
  | some _ => r
  | none => { trace := r.trace ++ k.trace, err := k.err }

/-- A call returning a future, followed by `WaitForCompletionRef`, with the two
error returns of the source. -/
def awaitFuture (call : Event) (op : Op) (result : FutureResult)
    (sendErr waitErr : Failure) : Run :=
  match result with
  | .sendError => { trace := [call], err := some sendErr }
  | .waitError => { trace := [call, .WaitForCompletionRef op], err := some waitErr }
  | .ok => { trace := [call, .WaitForCompletionRef op], err := none }

/-- The deferred unlock: `locks.ByName` before the body, `locks.UnlockByName`
when the function returns, whatever the body returned. -/
def locked (name : String) (body : Run) : Run :=
  { trace := [Event.ByName name] ++ body.trace ++ [Event.UnlockByName name], err := body.err }

/-! ## `resourceLinuxVirtualMachineUpdate`: building the request (lines 654-794) -/

/-- The three local variables that lines 654-794 fill in. -/
structure Plan where
  shouldUpdate : Bool := false
  shouldShutDown : Bool := false
  update : VirtualMachineUpdate := {}
deriving DecidableEq, Repr

/-- Lines 660-665: `boot_diagnostics`. -/
def stepBootDiagnostics (d : ResourceData) (p : Plan) : Plan :=
  if d.HasChange .boot_diagnostics then
    { p with
      shouldUpdate := true
      update := { p.update with
        VirtualMachineProperties := { p.update.VirtualMachineProperties with
          DiagnosticsProfile := d.boot_diagnostics } } }
  else p

/-- Lines 673-691: the `LinuxConfiguration` of the OS profile, present only when
`admin_ssh_key` or `disable_password_authentication` changed. -/
def updatedLinuxConfiguration (d : ResourceData) : Option LinuxConfiguration :=
  if d.HasChange .admin_ssh_key || d.HasChange .disable_password_authentication then
    some
      { SSH :=
          if d.HasChange .admin_ssh_key then
            some { PublicKeys := some d.admin_ssh_key }
          else none
        DisablePasswordAuthentication :=
          if d.HasChange .disable_password_authentication then
            some d.disable_password_authentication
          else none }
  else none

/-- Lines 671-700: the value of `profile`. -/
def updatedOsProfile (d : ResourceData) : OSProfile :=
  { LinuxConfiguration := updatedLinuxConfiguration d
    CustomData := if d.HasChange .custom_data then some d.custom_data else none
    Secrets := if d.HasChange .secret then d.secret else none }

/-- Lines 668-703: the OS profile. -/
def stepOsProfile (d : ResourceData) (p : Plan) : Plan :=
  if d.HasChange .admin_ssh_key || d.HasChange .custom_data
      || d.HasChange .disable_password_authentication || d.HasChange .secret then
    { p with
      shouldUpdate := true
      update := { p.update with
        VirtualMachineProperties := { p.update.VirtualMachineProperties with
          OsProfile := some (updatedOsProfile d) } } }
  else p

/-- Lines 705-714: `identity`; the only step of the request building that can
return without a remote call having failed. -/
def stepIdentity (d : ResourceData) (p : Plan) : Except Failure Plan :=
  if d.HasChange .identity then
    match d.identity with
    | .error _ => .error .expandingIdentity
    | .ok identity => .ok { p with shouldUpdate := true, update := { p.update with Identity := identity } }
  else .ok p

/-- Lines 716-726: `max_bid_price`. -/
def stepMaxBidPrice (d : ResourceData) (p : Plan) : Plan :=
  if d.HasChange .max_bid_price then
    { p with
      shouldUpdate := true
      shouldShutDown := true
      update := { p.update with
        VirtualMachineProperties := { p.update.VirtualMachineProperties with
          BillingProfile := some { MaxPrice := some d.max_bid_price } } } }
  else p

/-- Lines 728-738: `network_interface_ids`. -/
def stepNetworkInterfaceIds (d : ResourceData) (p : Plan) : Plan :=
  if d.HasChange .network_interface_ids then
    { p with
      shouldUpdate := true
      update := { p.update with
        VirtualMachineProperties := { p.update.VirtualMachineProperties with
          NetworkProfile := some { NetworkInterfaces := some d.network_interface_ids } } } }
  else p

/-- Lines 740-752: `os_disk`. `DataDisks` is left unset. -/
def stepOsDisk (d : ResourceData) (p : Plan) : Plan :=
  if d.HasChange .os_disk then
    { p with
      shouldUpdate := true
      update := { p.update with
        VirtualMachineProperties := { p.update.VirtualMachineProperties with
          StorageProfile := some { OsDisk := d.os_disk } } } }
  else p

/-- Lines 760-777: the value of `availableOnThisHost` once the sizes were
listed. A nil `Value` leaves it false, an entry with a nil `Name` is skipped,
and the loop stops at the first name equal to `vmSize` up to case. -/
def availableOnThisHost (sizes : VirtualMachineSizeListResult) (vmSize : String) : Bool :=
  match sizes.Value with
  | none => false
  | some value =>
    value.any fun size =>
      match size.Name with
      | none => false
      | some name => strings_EqualFold name vmSize

/-- Lines 755-786, after `ListAvailableSizes` returned `sizes`. -/
def stepSize (d : ResourceData) (sizes : VirtualMachineSizeListResult) (p : Plan) : Plan :=
  { p with
    shouldUpdate := true
    shouldShutDown := if !availableOnThisHost sizes d.size then true else p.shouldShutDown
    update := { p.update with
      VirtualMachineProperties := { p.update.VirtualMachineProperties with
        HardwareProfile := some { VMSize := d.size } } } }

/-- Lines 789-794: `tags`. -/
def stepTags (d : ResourceData) (p : Plan) : Plan :=
  if d.HasChange .tags then
    { p with shouldUpdate := true, update := { p.update with Tags := some d.tags } }
  else p

/-- Lines 654-794 in source order. The result carries the remote calls issued
on the way (`ListAvailableSizes`, only when `size` changed) and either the plan
or the error returned early. -/
def buildUpdate (d : ResourceData) (env : Env) : List Event × Except Failure Plan :=
  match stepIdentity d (stepOsProfile d (stepBootDiagnostics d {})) with
  | .error e => ([], .error e)
  | .ok p =>
    let p := stepOsDisk d (stepNetworkInterfaceIds d (stepMaxBidPrice d p))
    if d.HasChange .size then
      match env.ListAvailableSizes with
      | none => ([Event.ListAvailableSizes], .error .retrievingAvailableSizes)
      | some sizes => ([Event.ListAvailableSizes], .ok (stepTags d (stepSize d sizes p)))
    else ([], .ok (stepTags d p))

/-! ## `resourceLinuxVirtualMachineUpdate`: issuing the calls (lines 796-840) -/

/-- Lines 796-809: the power-off, with `forceShutdown := false`. -/
def powerOffStage (env : Env) (p : Plan) : Run :=
  if p.shouldShutDown then
    awaitFuture (.PowerOff false) .PowerOff env.PowerOff .sendingPowerOff .waitingForPowerOff
  else { trace := [], err := none }

/-- Lines 811-823: the update request. -/
def updateStage (env : Env) (p : Plan) : Run :=
  if p.shouldUpdate then
    awaitFuture (.Update p.update) .Update env.Update .updating .waitingForUpdate
  else { trace := [], err := none }

/-- Lines 825-838: the restart. -/
def startStage (env : Env) (turnBackOn : Bool) (p : Plan) : Run :=
  if turnBackOn && p.shouldShutDown then
    awaitFuture .Start .Start env.Start .starting .waitingForStart
  else { trace := [], err := none }

/-- Line 840: `return resourceLinuxVirtualMachineRead(d, meta)`. -/
def readStage (env : Env) : Run :=
  { trace := [.Read], err := if env.ReadFails then some .read else none }

/-- Lines 796-840. -/
def applyUpdate (env : Env) (turnBackOn : Bool) (p : Plan) : Run :=
  (powerOffStage env p).andThen
    ((updateStage env p).andThen
      ((startStage env turnBackOn p).andThen (readStage env)))

/-- Lines 626-840: what happens while the lock is held. -/
def updateBody (d : ResourceData) (env : Env) : Run :=
  match env.InstanceView with
  | none => { trace := [.InstanceView], err := some .retrieving }
  | some existing =>
    let turnBackOn := shouldTurnBackOn existing
    match buildUpdate d env with
    | (calls, .error e) => { trace := Event.InstanceView :: calls, err := some e }
    | (calls, .ok p) =>
      Run.andThen { trace := Event.InstanceView :: calls, err := none }
        (applyUpdate env turnBackOn p)

/-- `resourceLinuxVirtualMachineUpdate` (lines 613-841). -/
def resourceLinuxVirtualMachineUpdate (d : ResourceData) (env : Env) : Run :=
  match ParseVirtualMachineID env.ParseAzureResourceID d.Id with
  | none => { trace := [], err := some .parseID }
  | some id => locked id.Name (updateBody d env)

/-! ## `resourceLinuxVirtualMachineDelete` (lines 843-893) -/

/-- Lines 856-892: what happens while the lock is held. -/
def deleteBody (env : Env) : Run :=
  if env.Get.err then
    if env.Get.notFound then { trace := [.Get], err := none }
    else { trace := [.Get], err := some .retrieving }
  else
    Run.andThen { trace := [.Get], err := none }
      ((awaitFuture (.PowerOff true) .PowerOff env.PowerOff .sendingPowerOff .waitingForPowerOff).andThen
        (awaitFuture .Delete .Delete env.Delete .deleting .waitingForDeletion))

/-- `resourceLinuxVirtualMachineDelete` (lines 843-893). -/
def resourceLinuxVirtualMachineDelete (d : ResourceData) (env : Env) : Run :=
  match ParseVirtualMachineID env.ParseAzureResourceID d.Id with
  | none => { trace := [], err := some .parseID }
  | some id => locked id.Name (deleteBody env)

/-! ## Connection information (`network_interface.go`) -/

/-- `connectionInfo` (lines 12-24). -/
structure connectionInfo where
  primaryPrivateAddress : String := ""
  privateAddresses : List String := []
  primaryPublicAddress : String := ""
  publicAddresses : List String := []
deriving DecidableEq, Repr

/-- `interfaceDetails` (lines 68-74). -/
structure interfaceDetails where
  privateIPAddresses : List String := []
  publicIPAddresses : List String := []
deriving DecidableEq, Repr

/-- `retrievePublicIPAddress` (lines 127-147). The outer `none` is a non-nil
error; `some none` is a nil address without error. -/
def retrievePublicIPAddress (parseAzureResourceID : String → Option ResourceID)
    (client : PublicIPAddressesClient) (publicIPAddressID : String) : Option (Option String) :=
  match parseAzureResourceID publicIPAddressID with
  | none => none
  | some id =>
    match client id.ResourceGroup (id.pathValue "publicIPAddresses") with
    | none => none
    | some pip =>
      match pip.PublicIPAddressPropertiesFormat with
      | some props => some props.IPAddress
      | none => some none

/-- One iteration of the loop of lines 98-118 over the IP configurations. The
private address is appended before the public IP is looked up, so the
`continue` of line 109 only skips the public address. -/
def ipConfigurationStep (parseAzureResourceID : String → Option ResourceID)
    (pipClient : PublicIPAddressesClient) (acc : interfaceDetails)
    (config : InterfaceIPConfiguration) : interfaceDetails :=
  match config.InterfaceIPConfigurationPropertiesFormat with
  | none => acc
  | some props =>
    let acc1 : interfaceDetails :=
      match props.PrivateIPAddress with
      | some address => { acc with privateIPAddresses := acc.privateIPAddresses ++ [address] }
      | none => acc
    match props.PublicIPAddress with
    | none => acc1
    | some pip =>
      match pip.ID with
      | none => acc1
      | some pipID =>
        match retrievePublicIPAddress parseAzureResourceID pipClient pipID with
        | none => acc1
        | some none => acc1
        | some (some address) =>
          { acc1 with publicIPAddresses := acc1.publicIPAddresses ++ [address] }

/-- `retrieveIPAddressesForNIC` (lines 78-124); `none` is the nil result. -/
def retrieveIPAddressesForNIC (parseAzureResourceID : String → Option ResourceID)
    (nicClient : InterfacesClient) (pipClient : PublicIPAddressesClient)
    (nicID : String) : Option interfaceDetails :=
  match parseAzureResourceID nicID with
  | none => none
  | some id =>
    match nicClient id.ResourceGroup (id.pathValue "networkInterfaces") with
    | none => none
    | some nic =>
      match nic.InterfacePropertiesFormat with
      | none => none
      | some format =>
        match format.IPConfigurations with
        | none => none
        | some configs =>
          some (configs.foldl (ipConfigurationStep parseAzureResourceID pipClient) {})

/-- One iteration of the loop of lines 36-48 over the interface references. -/
def networkInterfaceStep (parseAzureResourceID : String → Option ResourceID)
    (nicsClient : InterfacesClient) (pipsClient : PublicIPAddressesClient)
    (acc : interfaceDetails) (v : NetworkInterfaceReference) : interfaceDetails :=
  match v.ID with
  | none => acc
  | some nicID =>
    match retrieveIPAddressesForNIC parseAzureResourceID nicsClient pipsClient nicID with
    | none => acc
    | some nic =>
      { privateIPAddresses := acc.privateIPAddresses ++ nic.privateIPAddresses
        publicIPAddresses := acc.publicIPAddresses ++ nic.publicIPAddresses }

/-- Lines 51-58: the first element of a slice, or the empty string. -/
def firstOrEmpty (addresses : List String) : String :=
  match addresses with
  | [] => ""
  | address :: _ => address

/-- `retrieveConnectionInformation` (lines 27-66). The input is the pointer
`*compute.VirtualMachineProperties`; a Go nil slice and an empty slice are both
the empty list. -/
def retrieveConnectionInformation (parseAzureResourceID : String → Option ResourceID)
    (nicsClient : InterfacesClient) (pipsClient : PublicIPAddressesClient)
    (input : Option VirtualMachineProperties) : connectionInfo :=
  match input with
  | none => {}
  | some props =>
    match props.NetworkProfile with
    | none => {}
    | some profile =>
      match profile.NetworkInterfaces with
      | none => {}
      | some interfaces =>
        let found := interfaces.foldl
          (networkInterfaceStep parseAzureResourceID nicsClient pipsClient) {}
        { primaryPrivateAddress := firstOrEmpty found.privateIPAddresses
          privateAddresses := found.privateIPAddresses
          primaryPublicAddress := firstOrEmpty found.publicIPAddresses
          publicAddresses := found.publicIPAddresses }

/-- `setConnectionInformation` (lines 152-167): the map handed to
`d.SetConnInfo`. -/
def setConnectionInformation (input : connectionInfo) (isWindows : Bool) :
    List (String × String) :=
  let provisionerType := if isWindows then "winrm" else "ssh"
  let ipAddress :=
    if input.primaryPublicAddress = "" then input.primaryPrivateAddress
    else input.primaryPublicAddress
  [("type", provisionerType), ("host", ipAddress)]

/-- Go map indexing on the map given to `d.SetConnInfo`. -/
def connValue (m : List (String × String)) (key : String) : String :=
  (m.lookup key).getD ""

/-! ## `resourceLinuxVirtualMachineRead` (lines 466-611) -/

/-- What a read leaves behind: the events, the returned error, the resource ID
afterwards, and the connection information it computed (when it got that far)
with the map it gave to `d.SetConnInfo`. -/
structure ReadRun where
  trace : List Event
  err : Option Failure
  Id : String
  connection : Option connectionInfo := none
  connInfo : List (String × String) := []
deriving DecidableEq, Repr

/-- `resourceLinuxVirtualMachineRead` (lines 466-611). Only line 482 calls
`d.SetId`. The attribute writes of lines 489-600 are not kept, only whether one
of them fails; the lookups made by the connection resolver are reads and are
not recorded as events. -/
def resourceLinuxVirtualMachineRead (d : ResourceData) (env : Env) : ReadRun :=
  match ParseVirtualMachineID env.ParseAzureResourceID d.Id with
  | none => { trace := [], err := some .parseID, Id := d.Id }
  | some _ =>
    if env.Get.err then
      if env.Get.notFound then { trace := [.Get], err := none, Id := "" }
      else { trace := [.Get], err := some .retrieving, Id := d.Id }
    else if env.SetFailsBeforeProperties then
      { trace := [.Get], err := some .settingAttribute, Id := d.Id }
    else
      match env.Get.VirtualMachineProperties with
      | none => { trace := [.Get], err := some .propertiesWasNil, Id := d.Id }
      | some props =>
        if env.SetFailsAfterProperties then
          { trace := [.Get], err := some .settingAttribute, Id := d.Id }
        else
          let connectionInfo := retrieveConnectionInformation env.ParseAzureResourceID
            env.NetworkInterfaces env.PublicIPs (some props)
          { trace := [.Get]
            err := if env.FlattenAndSetTagsFails then some .settingAttribute else none
            Id := d.Id
            connection := some connectionInfo
            connInfo := setConnectionInformation connectionInfo false }

/-! ## `resourceLinuxVirtualMachineCreate` (lines 260-464) -/

/-- SDK constant `compute.Spot`. -/
def compute_Spot : String := "Spot"

/-- Lines 330-378: the parameters as first assembled. -/
def initialParameters (d : ResourceData) (identity : Option VirtualMachineIdentity)
    (sourceImageReference : Option ImageReference) : VirtualMachine :=
  { Name := some d.name
    Location := some d.location
    Identity := identity
    Plan := d.plan
    VirtualMachineProperties :=
      { HardwareProfile := some { VMSize := d.size }
        OsProfile := some
          { AdminUsername := some d.admin_username
            ComputerName := some (if d.computer_name ≠ "" then d.computer_name else d.name)
            AllowExtensionOperations := some d.allow_extension_operations
            LinuxConfiguration := some
              { DisablePasswordAuthentication := some d.disable_password_authentication
                ProvisionVMAgent := some d.provision_vm_agent
                SSH := some { PublicKeys := some d.admin_ssh_key } }
            Secrets := d.secret }
        NetworkProfile := some { NetworkInterfaces := some d.network_interface_ids }
        Priority := d.priority
        StorageProfile := some
          { ImageReference := sourceImageReference
            OsDisk := d.os_disk
            DataDisks := some [] }
        AdditionalCapabilities := d.additional_capabilities
        DiagnosticsProfile := d.boot_diagnostics
        VirtualMachineScaleSet := none }
    Tags := some d.tags }

/-- Lines 384-398: `availability_set_id`, `custom_data`, `dedicated_host_id`. -/
def withOptionalIds (d : ResourceData) (params : VirtualMachine) : VirtualMachine :=
  let props := params.VirtualMachineProperties
  let props : VirtualMachineProperties :=
    if d.availability_set_id ≠ "" then
      { props with AvailabilitySet := some { ID := some d.availability_set_id } }
    else props
  let props : VirtualMachineProperties :=
    if d.custom_data ≠ "" then
      { props with
        OsProfile := (props.OsProfile.map
          (fun profile => { profile with CustomData := some d.custom_data })) }
    else props
  let props : VirtualMachineProperties :=
    if d.dedicated_host_id ≠ "" then
      { props with Host := some { ID := some d.dedicated_host_id } }
    else props
  { params with VirtualMachineProperties := props }

/-- Lines 400-408: the eviction policy against the priority. -/
def withEvictionPolicy (d : ResourceData) (params : VirtualMachine) :
    Except Failure VirtualMachine :=
  if d.eviction_policy ≠ "" then
    if params.VirtualMachineProperties.Priority ≠ compute_Spot then
      .error .evictionPolicyWithoutSpot
    else
      .ok { params with
        VirtualMachineProperties := { params.VirtualMachineProperties with
          EvictionPolicy := d.eviction_policy } }
  else if d.priority = compute_Spot then .error .spotWithoutEvictionPolicy
  else .ok params

/-- Lines 410-418: the maximum bid price against the priority. -/
def withBillingProfile (d : ResourceData) (params : VirtualMachine) :
    Except Failure VirtualMachine :=
  if d.max_bid_price > 0 then
    if d.priority ≠ compute_Spot then .error .maxBidPriceWithoutSpot
    else
      .ok { params with
        VirtualMachineProperties := { params.VirtualMachineProperties with
          BillingProfile := some { MaxPrice := some d.max_bid_price } } }
  else .ok params

/-- Lines 420-430: `proximity_placement_group_id` and `zone`. -/
def withPlacement (d : ResourceData) (params : VirtualMachine) : VirtualMachine :=
  let params : VirtualMachine :=
    if d.proximity_placement_group_id ≠ "" then
      { params with
        VirtualMachineProperties := { params.VirtualMachineProperties with
          ProximityPlacementGroup := some { ID := some d.proximity_placement_group_id } } }
    else params
  if d.zone ≠ "" then { params with Zones := some [d.zone] } else params

/-- Lines 432-442: the authentication rule. -/
def withAuthentication (d : ResourceData) (params : VirtualMachine) :
    Except Failure VirtualMachine :=
  if d.disable_password_authentication && d.admin_ssh_key.length == 0 then
    .error .sshKeyRequired
  else if !d.disable_password_authentication then
    if d.admin_password = "" then .error .adminPasswordRequired
    else
      .ok { params with
        VirtualMachineProperties := { params.VirtualMachineProperties with
          OsProfile := (params.VirtualMachineProperties.OsProfile.map
            (fun profile => { profile with AdminPassword := some d.admin_password })) } }
  else .ok params

/-- Lines 284-442: everything between the existence check and the call of
`CreateOrUpdate`; no remote call is made here. -/
def buildCreate (d : ResourceData) : Except Failure VirtualMachine :=
  match d.identity with
  | .error _ => .error .expandingIdentity
  | .ok identity =>
    match d.source_image_reference with
    | .error _ => .error .expandingSourceImageReference
    | .ok sourceImageReference =>
      let params := initialParameters d identity sourceImageReference
      if !d.provision_vm_agent && d.allow_extension_operations then
        .error .extensionOperationsWithoutAgent
      else
        match withEvictionPolicy d (withOptionalIds d params) with
        | .error e => .error e
        | .ok params =>
          match withBillingProfile d params with
          | .error e => .error e
          | .ok params => withAuthentication d (withPlacement d params)

/-- Lines 271-282: the check for an existing machine. -/
def existenceCheck (env : Env) : Run :=
  if env.ShouldResourcesBeImported then
    if env.ExistingGet.err && !env.ExistingGet.notFound then
      { trace := [.Get], err := some .checkingForExisting }
    else if !env.ExistingGet.notFound then
      { trace := [.Get], err := some .importAsExists }
    else { trace := [.Get], err := none }
  else { trace := [], err := none }

/-- Lines 453-463: the `Get` after the creation, `d.SetId` and the read-back. -/
def readCreated (env : Env) : Run :=
  if env.CreatedGet.err then { trace := [.Get], err := some .retrieving }
  else
    match env.CreatedGet.ID with
    | none => { trace := [.Get], err := some .idWasNil }
    | some _ => Run.andThen { trace := [.Get], err := none } (readStage env)

/-- Lines 271-463: what happens while the lock is held. -/
def createBody (d : ResourceData) (env : Env) : Run :=
  (existenceCheck env).andThen
    (match buildCreate d with
      | .error e => { trace := [], err := some e }
      | .ok params =>
        (awaitFuture (.CreateOrUpdate params) .CreateOrUpdate env.CreateOrUpdate
          .creating .waitingForCreation).andThen (readCreated env))

/-- `resourceLinuxVirtualMachineCreate` (lines 260-464). The lock is taken on
the configured name before anything else. -/
def resourceLinuxVirtualMachineCreate (d : ResourceData) (env : Env) : Run :=
  locked d.name (createBody d env)

/-! ## Extension identifiers (`virtual_machine_extension.go`) -/

/-- `VirtualMachineExtensionResourceID`. -/
structure VirtualMachineExtensionResourceID where
  Base : ResourceID
  VirtualMachineName : String
  Name : String
deriving DecidableEq, Repr

/-- `ParseVirtualMachineExtensionID` (lines 16-37), with the generic parser as
a parameter. -/
def ParseVirtualMachineExtensionID (parseAzureResourceID : String → Option ResourceID)
    (input : String) : Option VirtualMachineExtensionResourceID :=
  match parseAzureResourceID input with
  | none => none
  | some id =>
    let extension : VirtualMachineExtensionResourceID :=
      { Base := id
        VirtualMachineName := id.pathValue "virtualMachines"
        Name := id.pathValue "extensions" }
    if extension.VirtualMachineName = "" then none
    else if extension.Name = "" then none
    else some extension

/-! ## The generic resource ID parser -/

/-- Go `strings.Split(path, "/")`, on the characters of the path. -/
def splitOnSlash : List Char → List (List Char)
  | [] => [[]]
  | c :: cs =>
    if c = '/' then [] :: splitOnSlash cs
    else
      match splitOnSlash cs with
      | [] => [[c]]
      | segment :: rest => (c :: segment) :: rest

/-- One leading slash removed. -/
def trimSlashPrefix (path : List Char) : List Char :=
  match path with
  | [] => []
  | c :: cs => if c = '/' then cs else c :: cs

/-- One trailing slash removed. -/
def trimSlashSuffix (path : List Char) : List Char :=
  if path.getLast? = some '/' then path.dropLast else path

/-- The segments of a slash-delimited path. -/
def pathSegments (id : String) : List String :=
  (splitOnSlash (trimSlashSuffix (trimSlashPrefix id.data))).map String.mk

/-- Segments read as key, value, key, value; `none` when a key has no value or
a key or value is empty. -/
def keyValuePairs : List String → Option (List (String × String))
  | [] => some []
  | [_] => none
  | key :: value :: rest =>
    if key = "" ∨ value = "" then none
    else (keyValuePairs rest).map fun pairs => (key, value) :: pairs

/-- Modelled from the spec: `azure.ParseAzureResourceID`, the generic parser
that `ParseVirtualMachineID`, `ParseVirtualMachineExtensionID` and the
connection resolver call, is not among the sources. Sections 3, 4.1 and 8 of
the spec ask for a pure, deterministic parse of a slash-delimited hierarchical
path into typed fields, which needs a resource-group segment and fails when the
path is empty, lacks a required segment, or a segment has an empty value. Here
the path is split on slashes after one leading and one trailing slash are
dropped, the segments are read as key/value pairs, the value of
`resourceGroups` is required, and the pairs make up `Path`; a repeated key
keeps its first value. -/
def ParseAzureResourceID (id : String) : Option ResourceID :=
  if id = "" then none
  else
    match keyValuePairs (pathSegments id) with
    | none => none
    | some pairs =>
      match pairs.lookup "resourceGroups" with
      | none => none
      | some resourceGroup =>
        some
          { SubscriptionID := (pairs.lookup "subscriptions").getD ""
            ResourceGroup := resourceGroup
            Provider := (pairs.lookup "providers").getD ""
            Path := pairs }

/-- Segments joined by single slashes. -/
def intercalateSlash : List (List Char) → List Char
  | [] => []
  | [segment] => segment
  | segment :: next :: rest => segment ++ '/' :: intercalateSlash (next :: rest)

/-- The ID `/subscriptions/<s>/resourceGroups/<g>/virtualMachines/<n>`. -/
def vmPath (s g n : String) : String :=
  "/subscriptions/" ++ s ++ "/resourceGroups/" ++ g ++ "/virtualMachines/" ++ n

/-- The ID
`/subscriptions/<s>/resourceGroups/<g>/virtualMachines/<v>/extensions/<e>`. -/
def extensionPath (s g v e : String) : String :=
  "/subscriptions/" ++ s ++ "/resourceGroups/" ++ g ++ "/virtualMachines/" ++ v
    ++ "/extensions/" ++ e

/-! ## `ValidateVirtualMachineID` (`virtual_machine.go`, lines 33-44) -/

/-- A Go `interface{}` argument, as far as the validator inspects it: a string
or a value of another type. -/
inductive GoValue
  | string (v : String)
  | other
deriving DecidableEq, Repr

/-- The errors the validator can return. -/
inductive ValidationError
  | expectedString (k : String)
  | parse (input : String)
deriving DecidableEq, Repr

/-- `ValidateVirtualMachineID` (lines 33-44), with the generic parser as a
parameter: the warnings and the errors; a nil slice is the empty list. -/
def ValidateVirtualMachineID (parseAzureResourceID : String → Option ResourceID)
    (i : GoValue) (k : String) : List String × List ValidationError :=
  match i with
  | .other => ([], [.expectedString k])
  | .string v =>
    match ParseVirtualMachineID parseAzureResourceID v with
    | none => ([], [.parse v])
    | some _ => ([], [])

/-! ## The three locked operations and the named lock -/

/-- The lock operations among the events. -/
def Event.isLock : Event → Bool
  | .ByName _ => true
  | .UnlockByName _ => true
  | _ => false

/-- The lock operations of a trace, in order. -/
def lockEvents (trace : List Event) : List Event :=
  trace.filter Event.isLock

/-- The three functions that take the lock named after the machine. -/
inductive Operation
  | create
  | update
  | delete
deriving DecidableEq, Repr

/-- The run of an operation. -/
def Operation.run : Operation → ResourceData → Env → Run
  | .create => resourceLinuxVirtualMachineCreate
  | .update => resourceLinuxVirtualMachineUpdate
  | .delete => resourceLinuxVirtualMachineDelete

/-- The name an operation locks: the configured name for create (line 268),
the name parsed from the ID for update and delete (lines 623, 853), none when
the ID does not parse. -/
def Operation.lockName (op : Operation) (d : ResourceData) (env : Env) : Option String :=
  match op with
  | .create => some d.name
  | _ => (ParseVirtualMachineID env.ParseAzureResourceID d.Id).map fun id => id.Name

/-- The events of one of two concurrent operations in a schedule. -/
def schedulePart (who : Bool) (schedule : List (Bool × Event)) : List Event :=
  (schedule.filter fun step => step.1 == who).map Prod.snd

/-- A trace as a schedule of one operation alone. -/
def tagged (who : Bool) (trace : List Event) : List (Bool × Event) :=
  trace.map fun e => (who, e)

/-- Modelled from the spec: the named-resource lock (`locks.ByName` and
`locks.UnlockByName`) is not among the sources. Section 4.5 of the spec says
that acquiring a name blocks the caller until no other in-flight operation
holds that name, and that releasing is idempotent and always safe. A schedule
of two operations, each step tagged with the operation that takes it, is
admissible from a set of held names when every `ByName` step finds its name
not held; `UnlockByName` drops the name however often it is held. -/
def admissible : List String → List (Bool × Event) → Bool
  | _, [] => true
  | held, (_, .ByName name) :: rest =>
    !held.contains name && admissible (name :: held) rest
  | held, (_, .UnlockByName name) :: rest =>
    admissible (held.filter fun other => other != name) rest
  | held, _ :: rest => admissible held rest

/-- What is left of an operation's trace, seen from the lock: either it
acquires nothing more, or it starts with its one acquisition, of a name that is
not held. -/
def lockReady (name : String) (held : List String) (rest : List Event) : Prop :=
  (∀ x ∈ rest, ∀ m, x ≠ Event.ByName m)
    ∨ ∃ tail, rest = Event.ByName name :: tail
        ∧ (∀ x ∈ tail, ∀ m, x ≠ Event.ByName m) ∧ name ∉ held

/-! ## Timeouts (lines 41-46, 262, 470, 615, 845) -/

/-- The keys of `schema.ResourceTimeout`. -/
inductive TimeoutKey
  | Create
  | Read
  | Update
  | Delete
deriving DecidableEq, Repr

/-- Lines 41-46: the default timeouts the resource declares, in minutes. -/
def declaredTimeout : TimeoutKey → Nat
  | .Create => 45
  | .Read => 5
  | .Update => 45
  | .Delete => 45

/-- The four functions of the resource. -/
inductive ResourceFunction
  | Create
  | Read
  | Update
  | Delete
deriving DecidableEq, Repr

/-- The timeout each function asks the `timeouts` helper for when it builds its
context: `timeouts.ForCreate` in create (line 262), `timeouts.ForRead` in read
(line 470), in update (line 615) and in delete (line 845). The helper is outside
the modelled sources; `ForCreate` and `ForRead` are taken to bound the context
by the timeout of the key in their name. -/
def contextTimeoutKey : ResourceFunction → TimeoutKey
  | .Create => .Create
  | .Read => .Read
  | .Update => .Read
  | .Delete => .Read

/-- The deadline, in minutes, of the context that the remote calls of a
function run under. -/
def contextDeadline (f : ResourceFunction) : Nat :=
  declaredTimeout (contextTimeoutKey f)

/-! ## Sample inputs -/

/-- A generic parser that accepts exactly one sample ID. -/
def sampleParser (input : String) : Option ResourceID :=
  if input = "/subscriptions/0/resourceGroups/rg/providers/Microsoft.Compute/virtualMachines/vm1" then
    some { SubscriptionID := "0", ResourceGroup := "rg", Provider := "Microsoft.Compute",
           Path := [("virtualMachines", "vm1")] }
  else none

/-- The sample ID accepted by `sampleParser`. -/
def sampleId : String :=
  "/subscriptions/0/resourceGroups/rg/providers/Microsoft.Compute/virtualMachines/vm1"

/-- An instance view with one status carrying the given code. -/
def viewWith (code : String) : VirtualMachineInstanceView :=
  { Statuses := some [{ Code := some code }] }

/-- Some updatable field changed. -/
def anyChange (d : ResourceData) : Bool :=
  d.HasChange .boot_diagnostics || d.HasChange .admin_ssh_key || d.HasChange .custom_data
    || d.HasChange .disable_password_authentication || d.HasChange .secret
    || d.HasChange .identity || d.HasChange .max_bid_price
    || d.HasChange .network_interface_ids || d.HasChange .os_disk || d.HasChange .size
    || d.HasChange .tags

/-- The request section that each group of fields maps to is absent when no
field of the group changed. -/
def sectionsMinimal (d : ResourceData) (u : VirtualMachineUpdate) : Prop :=
  (d.HasChange .boot_diagnostics = false → u.VirtualMachineProperties.DiagnosticsProfile = none)
  ∧ (d.HasChange .admin_ssh_key = false → d.HasChange .custom_data = false →
      d.HasChange .disable_password_authentication = false → d.HasChange .secret = false →
      u.VirtualMachineProperties.OsProfile = none)
  ∧ (d.HasChange .identity = false → u.Identity = none)
  ∧ (d.HasChange .max_bid_price = false → u.VirtualMachineProperties.BillingProfile = none)
  ∧ (d.HasChange .network_interface_ids = false → u.VirtualMachineProperties.NetworkProfile = none)
  ∧ (d.HasChange .os_disk = false → u.VirtualMachineProperties.StorageProfile = none)
  ∧ (d.HasChange .size = false → u.VirtualMachineProperties.HardwareProfile = none)
  ∧ (d.HasChange .tags = false → u.Tags = none)

/-- Reference definition: the IP configurations that an interface reference
leads to, none when the reference cannot be resolved. -/
def resolvedIPConfigurations (parseAzureResourceID : String → Option ResourceID)
    (nicsClient : InterfacesClient) (v : NetworkInterfaceReference) :
    List InterfaceIPConfiguration :=
  match v.ID with
  | none => []
  | some nicID =>
    match parseAzureResourceID nicID with
    | none => []
    | some id =>
      match nicsClient id.ResourceGroup (id.pathValue "networkInterfaces") with
      | none => []
      | some nic =>
        match nic.InterfacePropertiesFormat with
        | none => []
        | some format => format.IPConfigurations.getD []

/-- Reference definition: the private address of an IP configuration, when
present. -/
def privateAddressOf (config : InterfaceIPConfiguration) : List String :=
  match config.InterfaceIPConfigurationPropertiesFormat with
  | none => []
  | some props => props.PrivateIPAddress.toList

/-- Reference definition: what the public-IP client holds for a public-IP
reference: the public IP with the resource group and the name that the ID of
the reference gives, none when the reference has no ID, the ID is malformed or
the client has no such public IP. -/
def referencedPublicIP (parseAzureResourceID : String → Option ResourceID)
    (pipsClient : PublicIPAddressesClient) (reference : PublicIPAddress) :
    Option PublicIPAddress :=
  (reference.ID.bind parseAzureResourceID).bind fun id =>
    pipsClient id.ResourceGroup (id.pathValue "publicIPAddresses")

/-- Reference definition: the address allocated to a public IP, none when it
has no properties or no address. -/
def allocatedAddress (pip : PublicIPAddress) : Option String :=
  pip.PublicIPAddressPropertiesFormat.bind fun format => format.IPAddress

/-- Reference definition: the public address of an IP configuration, when its
public IP is referenced, is held by the public-IP client and has an address
allocated. It is stated over the public-IP client, not over the lookup of the
source. -/
def allocatedPublicAddressOf (parseAzureResourceID : String → Option ResourceID)
    (pipsClient : PublicIPAddressesClient) (config : InterfaceIPConfiguration) : List String :=
  (((config.InterfaceIPConfigurationPropertiesFormat.bind fun props => props.PublicIPAddress).bind
    (referencedPublicIP parseAzureResourceID pipsClient)).bind allocatedAddress).toList

/-- Reference definition of the connection information, in the words of the
spec: the private addresses are the in-order concatenation over the interface
references and then over the IP configurations of each interface, likewise the
allocated public addresses, and each primary address is the first element or
the empty string. -/
def connectionInfoSpec (parseAzureResourceID : String → Option ResourceID)
    (nicsClient : InterfacesClient) (pipsClient : PublicIPAddressesClient)
    (interfaces : List NetworkInterfaceReference) : connectionInfo :=
  let privateAddresses := interfaces.flatMap fun v =>
    (resolvedIPConfigurations parseAzureResourceID nicsClient v).flatMap privateAddressOf
  let publicAddresses := interfaces.flatMap fun v =>
    (resolvedIPConfigurations parseAzureResourceID nicsClient v).flatMap
      (allocatedPublicAddressOf parseAzureResourceID pipsClient)
  { primaryPrivateAddress := privateAddresses.head?.getD ""
    privateAddresses := privateAddresses
    primaryPublicAddress := publicAddresses.head?.getD ""
    publicAddresses := publicAddresses }

/-- An interface reference whose ID is nil or malformed, whose fetch fails, or
whose properties or IP configurations are missing. -/
def unresolvable (parseAzureResourceID : String → Option ResourceID)
    (nicsClient : InterfacesClient) (v : NetworkInterfaceReference) : Prop :=
  v.ID = none
  ∨ ∃ nicID, v.ID = some nicID
      ∧ (parseAzureResourceID nicID = none
        ∨ ∃ id, parseAzureResourceID nicID = some id
            ∧ (nicsClient id.ResourceGroup (id.pathValue "networkInterfaces") = none
              ∨ ∃ nic, nicsClient id.ResourceGroup (id.pathValue "networkInterfaces") = some nic
                  ∧ (nic.InterfacePropertiesFormat = none
                    ∨ ∃ format, nic.InterfacePropertiesFormat = some format
                        ∧ format.IPConfigurations = none)))

/-- A desired configuration breaks one of the cross-field rules that create
checks: extension operations without the VM agent, eviction policy against
priority, maximum bid price against priority, authentication. -/
def violatesCrossFieldRule (d : ResourceData) : Prop :=
  (d.allow_extension_operations = true ∧ d.provision_vm_agent = false)
  ∨ (d.eviction_policy ≠ "" ∧ d.priority ≠ compute_Spot)
  ∨ (d.eviction_policy = "" ∧ d.priority = compute_Spot)
  ∨ (0 < d.max_bid_price ∧ d.priority ≠ compute_Spot)
  ∨ (d.disable_password_authentication = true ∧ d.admin_ssh_key = [])
  ∨ (d.disable_password_authentication = false ∧ d.admin_password = "")

/-- A valid configuration to create `vm1` with one SSH key. -/
def newMachine : ResourceData :=
  { Id := "", HasChange := fun _ => false, name := "vm1", resource_group_name := "rg",
    size := "Standard_F2", admin_username := "adminuser", admin_ssh_key := ["ssh-rsa AAAA"] }

/-- A remote side for create with the import check switched on and no machine
of that name yet. -/
def hostForCreate : Env :=
  { ParseAzureResourceID := sampleParser, ShouldResourcesBeImported := true,
    ExistingGet := { err := true, notFound := true }, CreatedGet := { ID := some sampleId } }

/-- A remote side for read on which the machine is gone. -/
def hostReadNotFound : Env :=
  { ParseAzureResourceID := sampleParser, Get := { err := true, notFound := true } }

/-- The properties of the IP configuration of the first sample interface. -/
def sampleConfigurationProperties1 : InterfaceIPConfigurationPropertiesFormat :=
  { PrivateIPAddress := some "10.0.0.4",
    PublicIPAddress :=
      some { ID := some "/subscriptions/0/resourceGroups/rg/publicIPAddresses/pip1" } }

/-- The properties of the IP configuration of the second sample interface. -/
def sampleConfigurationProperties2 : InterfaceIPConfigurationPropertiesFormat :=
  { PrivateIPAddress := some "10.0.0.5",
    PublicIPAddress :=
      some { ID := some "/subscriptions/0/resourceGroups/rg/publicIPAddresses/pip2" } }

/-- The IP configuration of the first sample interface. -/
def sampleConfiguration1 : InterfaceIPConfiguration :=
  { InterfaceIPConfigurationPropertiesFormat := some sampleConfigurationProperties1 }

/-- The IP configuration of the second sample interface. -/
def sampleConfiguration2 : InterfaceIPConfiguration :=
  { InterfaceIPConfigurationPropertiesFormat := some sampleConfigurationProperties2 }

/-- The references to the two sample interfaces. -/
def sampleReferences : List NetworkInterfaceReference :=
  [{ ID := some "/subscriptions/0/resourceGroups/rg/networkInterfaces/nic1" },
   { ID := some "/subscriptions/0/resourceGroups/rg/networkInterfaces/nic2" }]

/-- Two interfaces, each with one IP configuration that has a private address
and refers to a public IP. -/
def sampleInterfaces : InterfacesClient := fun _ name =>
  if name = "nic1" then
    some { InterfacePropertiesFormat := some { IPConfigurations := some [sampleConfiguration1] } }
  else if name = "nic2" then
    some { InterfacePropertiesFormat := some { IPConfigurations := some [sampleConfiguration2] } }
  else none

/-- Only the first public IP exists; the lookup of any other fails. -/
def samplePublicIPs : PublicIPAddressesClient := fun _ name =>
  if name = "pip1" then
    some { PublicIPAddressPropertiesFormat := some { IPAddress := some "52.0.0.1" } }
  else none

/-- Both public IPs exist, each with an address allocated. -/
def samplePublicIPsBoth : PublicIPAddressesClient := fun _ name =>
  if name = "pip1" then
    some { PublicIPAddressPropertiesFormat := some { IPAddress := some "52.0.0.1" } }
  else if name = "pip2" then
    some { PublicIPAddressPropertiesFormat := some { IPAddress := some "52.0.0.2" } }
  else none

/-- Machine properties that refer to the two sample interfaces. -/
def sampleProperties : VirtualMachineProperties :=
  { NetworkProfile := some { NetworkInterfaces := some sampleReferences } }

/-- Only `identity` changed, to a block that does not expand. -/
def identityChangeFails : ResourceData :=
  { Id := sampleId, HasChange := fun f => f == .identity,
    identity := .error "identity_ids can only be specified when type includes UserAssigned" }

/-- Only `os_disk` changed. -/
def osDiskChange : ResourceData :=
  { Id := sampleId, HasChange := fun f => f == .os_disk, os_disk := some "disk" }

/-- Only `size` changed, to a size the host below does not list. -/
def sizeChange : ResourceData :=
  { Id := sampleId, HasChange := fun f => f == .size, size := "Standard_F2" }

/-- Only `max_bid_price` changed, on a machine of regular priority. -/
def bidPriceChange : ResourceData :=
  { Id := sampleId, HasChange := fun f => f == .max_bid_price, max_bid_price := 5,
    priority := "Regular" }

/-- Only `tags` changed. -/
def tagsChange : ResourceData :=
  { Id := sampleId, HasChange := fun f => f == .tags, tags := [("env", "test")] }

/-- Nothing changed. -/
def noChange : ResourceData :=
  { Id := sampleId, HasChange := fun _ => false }

/-- A remote side on which every call succeeds, with the given power-state code
in the instance view and one listed size. -/
def hostWith (code : String) : Env :=
  { ParseAzureResourceID := sampleParser
    InstanceView := some (viewWith code)
    ListAvailableSizes := some { Value := some [{ Name := none }, { Name := some "Standard_D2" }] } }

/-- A remote side on which every call succeeds and whose instance view has no
status list. -/
def hostWithoutStatuses : Env :=
  { ParseAzureResourceID := sampleParser, InstanceView := some { Statuses := none } }

/-- A remote side whose power-off fails while it is awaited. -/
def hostPowerOffFails : Env :=
  { ParseAzureResourceID := sampleParser, InstanceView := some (viewWith "PowerState/running"),
    PowerOff := .waitError }

/-- A remote side on which the initial `Get` answers not-found. -/
def hostVmNotFound : Env :=
  { ParseAzureResourceID := sampleParser, Get := { err := true, notFound := true } }

/-- The parsed form of `sampleId`. -/
def sampleVm : VirtualMachineResourceID :=
  { Base := { SubscriptionID := "0", ResourceGroup := "rg", Provider := "Microsoft.Compute",
              Path := [("virtualMachines", "vm1")] }, Name := "vm1" }

/-! ## Auxiliary facts: strings and power state -/

/-- Lower-casing never yields the capital letter `P`. -/
theorem toLower_ne_capital_P (c : Char) : c.toLower ≠ 'P' := by
  intro h
  unfold Char.toLower at h
  simp only [ge_iff_le] at h
  split at h
  · rename_i hr
    have h1 : (Char.ofNat (c.toNat + 32)).toNat = 80 := by rw [h]; rfl
    have hv : (c.toNat + 32).isValidChar := by
      left
      omega
    have h2 : (Char.ofNat (c.toNat + 32)).toNat = c.toNat + 32 := by
      unfold Char.ofNat
      rw [dif_pos hv]
      rfl
    omega
  · rename_i hr
    apply hr
    rw [h]
    decide

/-- A lower-cased string never starts with the mixed-case literal that line 640
tests for. -/
theorem hasPrefix_toLower_PowerState (s : String) :
    strings_HasPrefix (strings_ToLower s) "PowerState/" = false := by
  unfold strings_HasPrefix strings_ToLower
  cases hs : s.data with
  | nil => rfl
  | cons c cs =>
    have hc : ('P' == c.toLower) = false := by
      rw [beq_eq_false_iff_ne]
      exact fun h => toLower_ne_capital_P c h.symm
    show List.isPrefixOf ('P' :: _) (c.toLower :: _) = false
    simp [List.isPrefixOf, hc]

/-- No status ever changes `shouldTurnBackOn`: the prefix test of line 640
rejects every code. -/
theorem shouldTurnBackOnStep_id (b : Bool) (status : InstanceViewStatus) :
    shouldTurnBackOnStep b status = b := by
  unfold shouldTurnBackOnStep
  cases status.Code with
  | none => rfl
  | some code => simp [hasPrefix_toLower_PowerState]

/-- After lines 631-652 `shouldTurnBackOn` is true for every instance view. -/
theorem shouldTurnBackOn_eq_true (existing : VirtualMachineInstanceView) :
    shouldTurnBackOn existing = true := by
  unfold shouldTurnBackOn
  cases existing.Statuses with
  | none => rfl
  | some statuses =>
    show statuses.foldl shouldTurnBackOnStep true = true
    induction statuses with
    | nil => rfl
    | cons st rest ih => rw [List.foldl_cons, shouldTurnBackOnStep_id]; exact ih

/-! ## Auxiliary facts: sequencing -/

theorem andThen_of_ok (r k : Run) (h : r.err = none) :
    r.andThen k = { trace := r.trace ++ k.trace, err := k.err } := by
  unfold Run.andThen
  rw [h]

theorem mutatingCalls_append (xs ys : List Event) :
    mutatingCalls (xs ++ ys) = mutatingCalls xs ++ mutatingCalls ys := by
  simp [mutatingCalls]

theorem mutatingCalls_locked (name : String) (body : Run) :
    mutatingCalls (locked name body).trace = mutatingCalls body.trace := by
  simp [locked, mutatingCalls, List.filter, Event.isMutating]

/-! ## Auxiliary facts: the request built by lines 654-794 -/

theorem stepBootDiagnostics_flags (d : ResourceData) (p : Plan) :
    (stepBootDiagnostics d p).shouldUpdate = (p.shouldUpdate || d.HasChange .boot_diagnostics)
      ∧ (stepBootDiagnostics d p).shouldShutDown = p.shouldShutDown := by
  unfold stepBootDiagnostics
  split <;> simp [*]

theorem stepOsProfile_flags (d : ResourceData) (p : Plan) :
    (stepOsProfile d p).shouldUpdate =
        (p.shouldUpdate || d.HasChange .admin_ssh_key || d.HasChange .custom_data
          || d.HasChange .disable_password_authentication || d.HasChange .secret)
      ∧ (stepOsProfile d p).shouldShutDown = p.shouldShutDown := by
  unfold stepOsProfile
  split
  · rename_i h
    simp only [Bool.or_eq_true] at h
    rcases h with ((h | h) | h) | h <;> simp [h]
  · rename_i h
    simp only [Bool.or_eq_true, not_or, Bool.not_eq_true] at h
    simp [h]

theorem stepIdentity_flags (d : ResourceData) (p q : Plan) (h : stepIdentity d p = .ok q) :
    q.shouldUpdate = (p.shouldUpdate || d.HasChange .identity)
      ∧ q.shouldShutDown = p.shouldShutDown := by
  unfold stepIdentity at h
  split at h
  · rename_i hc
    split at h
    · cases h
    · cases h
      simp [hc]
  · rename_i hc
    cases h
    simp [hc]

theorem stepMaxBidPrice_flags (d : ResourceData) (p : Plan) :
    (stepMaxBidPrice d p).shouldUpdate = (p.shouldUpdate || d.HasChange .max_bid_price)
      ∧ (stepMaxBidPrice d p).shouldShutDown = (p.shouldShutDown || d.HasChange .max_bid_price) := by
  unfold stepMaxBidPrice
  split <;> simp [*]

theorem stepNetworkInterfaceIds_flags (d : ResourceData) (p : Plan) :
    (stepNetworkInterfaceIds d p).shouldUpdate =
        (p.shouldUpdate || d.HasChange .network_interface_ids)
      ∧ (stepNetworkInterfaceIds d p).shouldShutDown = p.shouldShutDown := by
  unfold stepNetworkInterfaceIds
  split <;> simp [*]

theorem stepOsDisk_flags (d : ResourceData) (p : Plan) :
    (stepOsDisk d p).shouldUpdate = (p.shouldUpdate || d.HasChange .os_disk)
      ∧ (stepOsDisk d p).shouldShutDown = p.shouldShutDown := by
  unfold stepOsDisk
  split <;> simp [*]

theorem stepSize_flags (d : ResourceData) (sizes : VirtualMachineSizeListResult) (p : Plan) :
    (stepSize d sizes p).shouldUpdate = true
      ∧ (stepSize d sizes p).shouldShutDown =
          (p.shouldShutDown || !availableOnThisHost sizes d.size) := by
  unfold stepSize
  cases availableOnThisHost sizes d.size <;> simp

theorem stepTags_flags (d : ResourceData) (p : Plan) :
    (stepTags d p).shouldUpdate = (p.shouldUpdate || d.HasChange .tags)
      ∧ (stepTags d p).shouldShutDown = p.shouldShutDown := by
  unfold stepTags
  split <;> simp [*]

theorem stepBootDiagnostics_update (d : ResourceData) (p : Plan) :
    (stepBootDiagnostics d p).update =
      { p.update with
        VirtualMachineProperties := { p.update.VirtualMachineProperties with
          DiagnosticsProfile :=
            if d.HasChange .boot_diagnostics then d.boot_diagnostics
            else p.update.VirtualMachineProperties.DiagnosticsProfile } } := by
  unfold stepBootDiagnostics
  split <;> simp [*]

theorem stepOsProfile_update (d : ResourceData) (p : Plan) :
    (stepOsProfile d p).update =
      { p.update with
        VirtualMachineProperties := { p.update.VirtualMachineProperties with
          OsProfile :=
            if d.HasChange .admin_ssh_key || d.HasChange .custom_data
                || d.HasChange .disable_password_authentication || d.HasChange .secret
            then some (updatedOsProfile d)
            else p.update.VirtualMachineProperties.OsProfile } } := by
  unfold stepOsProfile
  split
  · rename_i h
    simp only [h, if_true]
  · rename_i h
    simp only [h]

theorem stepIdentity_update (d : ResourceData) (p q : Plan) (h : stepIdentity d p = .ok q) :
    ∃ identity, q.update =
      { p.update with
        Identity := if d.HasChange .identity then identity else p.update.Identity } := by
  unfold stepIdentity at h
  split at h
  · rename_i hc
    split at h
    · cases h
    · rename_i identity _
      cases h
      exact ⟨identity, by simp [hc]⟩
  · rename_i hc
    cases h
    exact ⟨none, by simp [hc]⟩

theorem stepMaxBidPrice_update (d : ResourceData) (p : Plan) :
    (stepMaxBidPrice d p).update =
      { p.update with
        VirtualMachineProperties := { p.update.VirtualMachineProperties with
          BillingProfile :=
            if d.HasChange .max_bid_price then some { MaxPrice := some d.max_bid_price }
            else p.update.VirtualMachineProperties.BillingProfile } } := by
  unfold stepMaxBidPrice
  split <;> simp [*]

theorem stepNetworkInterfaceIds_update (d : ResourceData) (p : Plan) :
    (stepNetworkInterfaceIds d p).update =
      { p.update with
        VirtualMachineProperties := { p.update.VirtualMachineProperties with
          NetworkProfile :=
            if d.HasChange .network_interface_ids then
              some { NetworkInterfaces := some d.network_interface_ids }
            else p.update.VirtualMachineProperties.NetworkProfile } } := by
  unfold stepNetworkInterfaceIds
  split <;> simp [*]

theorem stepOsDisk_update (d : ResourceData) (p : Plan) :
    (stepOsDisk d p).update =
      { p.update with
        VirtualMachineProperties := { p.update.VirtualMachineProperties with
          StorageProfile :=
            if d.HasChange .os_disk then some { OsDisk := d.os_disk }
            else p.update.VirtualMachineProperties.StorageProfile } } := by
  unfold stepOsDisk
  split <;> simp [*]

theorem stepSize_update (d : ResourceData) (sizes : VirtualMachineSizeListResult) (p : Plan) :
    (stepSize d sizes p).update =
      { p.update with
        VirtualMachineProperties := { p.update.VirtualMachineProperties with
          HardwareProfile := some { VMSize := d.size } } } :=
  rfl

theorem stepTags_update (d : ResourceData) (p : Plan) :
    (stepTags d p).update =
      { p.update with
        Tags := if d.HasChange .tags then some d.tags else p.update.Tags } := by
  unfold stepTags
  split <;> simp [*]

/-- The request after the steps that come before the size step. -/
theorem sections_before_size (d : ResourceData) (q : Plan)
    (hid : stepIdentity d (stepOsProfile d (stepBootDiagnostics d {})) = .ok q) :
    sectionsMinimal d (stepOsDisk d (stepNetworkInterfaceIds d (stepMaxBidPrice d q))).update
      ∧ (stepOsDisk d (stepNetworkInterfaceIds d
          (stepMaxBidPrice d q))).update.VirtualMachineProperties.HardwareProfile = none
      ∧ (stepOsDisk d (stepNetworkInterfaceIds d (stepMaxBidPrice d q))).update.Tags = none := by
  obtain ⟨identity, h1⟩ := stepIdentity_update d _ q hid
  have h2 := stepOsProfile_update d (stepBootDiagnostics d {})
  have h3 := stepBootDiagnostics_update d {}
  rw [h2, h3] at h1
  rw [stepOsDisk_update, stepNetworkInterfaceIds_update, stepMaxBidPrice_update, h1]
  refine ⟨⟨?_, ?_, ?_, ?_, ?_, ?_, ?_, ?_⟩, rfl, rfl⟩
  · intro h; simp [h]
  · intro a b c e; simp [a, b, c, e]
  · intro h; simp [h]
  · intro h; simp [h]
  · intro h; simp [h]
  · intro h; simp [h]
  · intro _; rfl
  · intro _; rfl

/-- The shapes `buildUpdate` can return: an identity error before any call, a
failed size listing, or a plan whose two flags are determined by the changed
fields and the listed sizes. -/
theorem buildUpdate_cases (d : ResourceData) (env : Env) :
    (d.HasChange .identity = true ∧ buildUpdate d env = ([], .error .expandingIdentity))
    ∨ (d.HasChange .size = true ∧ env.ListAvailableSizes = none
        ∧ buildUpdate d env = ([Event.ListAvailableSizes], .error .retrievingAvailableSizes))
    ∨ (∃ sizes p, d.HasChange .size = true ∧ env.ListAvailableSizes = some sizes
        ∧ buildUpdate d env = ([Event.ListAvailableSizes], .ok p)
        ∧ p.shouldUpdate = true
        ∧ p.shouldShutDown = (d.HasChange .max_bid_price || !availableOnThisHost sizes d.size)
        ∧ p.update.VirtualMachineProperties.HardwareProfile = some { VMSize := d.size }
        ∧ sectionsMinimal d p.update)
    ∨ (∃ p, d.HasChange .size = false
        ∧ buildUpdate d env = ([], .ok p)
        ∧ p.shouldUpdate = anyChange d
        ∧ p.shouldShutDown = d.HasChange .max_bid_price
        ∧ sectionsMinimal d p.update) := by
  unfold buildUpdate
  cases hid : stepIdentity d (stepOsProfile d (stepBootDiagnostics d {})) with
  | error e =>
    left
    unfold stepIdentity at hid
    split at hid
    · rename_i hc
      split at hid
      · cases hid
        exact ⟨hc, rfl⟩
      · cases hid
    · cases hid
  | ok q =>
    right
    have h1 := stepIdentity_flags d _ q hid
    have h2 := stepOsProfile_flags d (stepBootDiagnostics d {})
    have h3 := stepBootDiagnostics_flags d {}
    have h4 := stepMaxBidPrice_flags d q
    have h5 := stepNetworkInterfaceIds_flags d (stepMaxBidPrice d q)
    have h6 := stepOsDisk_flags d (stepNetworkInterfaceIds d (stepMaxBidPrice d q))
    cases hsz : d.HasChange .size with
    | true =>
      cases hl : env.ListAvailableSizes with
      | none => left; exact ⟨rfl, rfl, by simp⟩
      | some sizes =>
        right; left
        have h7 := stepSize_flags d sizes (stepOsDisk d (stepNetworkInterfaceIds d (stepMaxBidPrice d q)))
        have h8 := stepTags_flags d (stepSize d sizes (stepOsDisk d (stepNetworkInterfaceIds d (stepMaxBidPrice d q))))
        refine ⟨sizes, stepTags d (stepSize d sizes
          (stepOsDisk d (stepNetworkInterfaceIds d (stepMaxBidPrice d q)))), rfl, rfl, rfl, ?_, ?_,
          ?_, ?_⟩
        · rw [h8.1, h7.1]; rfl
        · rw [h8.2, h7.2, h6.2, h5.2, h4.2, h1.2, h2.2, h3.2]; rfl
        · rw [stepTags_update, stepSize_update]
        · obtain ⟨⟨s1, s2, s3, s4, s5, s6, _, _⟩, _, ht⟩ := sections_before_size d q hid
          rw [stepTags_update, stepSize_update]
          refine ⟨s1, s2, s3, s4, s5, s6, ?_, ?_⟩
          · intro h; rw [hsz] at h; cases h
          · intro h; simp [h, ht]
    | false =>
      right; right
      have h8 := stepTags_flags d (stepOsDisk d (stepNetworkInterfaceIds d (stepMaxBidPrice d q)))
      refine ⟨stepTags d (stepOsDisk d (stepNetworkInterfaceIds d (stepMaxBidPrice d q))),
        rfl, ?_, ?_, ?_, ?_⟩
      · simp
      · rw [h8.1, h6.1, h5.1, h4.1, h1.1, h2.1, h3.1]
        simp [anyChange, hsz]
      · rw [h8.2, h6.2, h5.2, h4.2, h1.2, h2.2, h3.2]; rfl
      · obtain ⟨⟨s1, s2, s3, s4, s5, s6, _, _⟩, hh, ht⟩ := sections_before_size d q hid
        rw [stepTags_update]
        refine ⟨s1, s2, s3, s4, s5, s6, ?_, ?_⟩
        · intro _; exact hh
        · intro h; simp [h, ht]

/-! ## Auxiliary facts: traces of the update -/

theorem mem_andThen_trace {x : Event} {r k : Run} (h : x ∈ (r.andThen k).trace) :
    x ∈ r.trace ∨ x ∈ k.trace := by
  unfold Run.andThen at h
  split at h
  · exact Or.inl h
  · exact List.mem_append.mp h

theorem mem_awaitFuture_trace {x call : Event} {op : Op} {r : FutureResult}
    {e1 e2 : Failure} (h : x ∈ (awaitFuture call op r e1 e2).trace) :
    x = call ∨ x = .WaitForCompletionRef op := by
  cases r <;> simp [awaitFuture] at h <;> tauto

theorem mem_locked_trace {x : Event} {name : String} {body : Run}
    (h : x ∈ (locked name body).trace) :
    x = .ByName name ∨ x ∈ body.trace ∨ x = .UnlockByName name := by
  simp [locked] at h
  tauto

/-- Every event of lines 796-840 is one of the seven below; a power-off carries
`false` and needs `shouldShutDown`, an update carries the built request. -/
theorem mem_applyUpdate_trace {x : Event} {env : Env} {t : Bool} {p : Plan}
    (h : x ∈ (applyUpdate env t p).trace) :
    (x = .PowerOff false ∧ p.shouldShutDown = true) ∨ x = .WaitForCompletionRef .PowerOff
      ∨ (x = .Update p.update ∧ p.shouldUpdate = true) ∨ x = .WaitForCompletionRef .Update
      ∨ (x = .Start ∧ p.shouldShutDown = true) ∨ x = .WaitForCompletionRef .Start
      ∨ x = .Read := by
  unfold applyUpdate at h
  rcases mem_andThen_trace h with h | h
  · unfold powerOffStage at h
    split at h
    · rename_i hs
      rcases mem_awaitFuture_trace h with h | h
      · exact Or.inl ⟨h, hs⟩
      · exact Or.inr (Or.inl h)
    · simp at h
  · rcases mem_andThen_trace h with h | h
    · unfold updateStage at h
      split at h
      · rename_i hs
        rcases mem_awaitFuture_trace h with h | h
        · exact Or.inr (Or.inr (Or.inl ⟨h, hs⟩))
        · exact Or.inr (Or.inr (Or.inr (Or.inl h)))
      · simp at h
    · rcases mem_andThen_trace h with h | h
      · unfold startStage at h
        split at h
        · rename_i hs
          simp only [Bool.and_eq_true] at hs
          rcases mem_awaitFuture_trace h with h | h
          · exact Or.inr (Or.inr (Or.inr (Or.inr (Or.inl ⟨h, hs.2⟩))))
          · exact Or.inr (Or.inr (Or.inr (Or.inr (Or.inr (Or.inl h)))))
        · simp at h
      · simp [readStage] at h
        exact Or.inr (Or.inr (Or.inr (Or.inr (Or.inr (Or.inr h)))))

/-- The calls issued while the request is built: none, or the size listing. -/
theorem buildUpdate_calls (d : ResourceData) (env : Env) :
    (buildUpdate d env).1 = [] ∨ (buildUpdate d env).1 = [Event.ListAvailableSizes] := by
  rcases buildUpdate_cases d env with h | h | ⟨_, _, _, _, h, _⟩ | ⟨_, _, h, _⟩
  · rw [h.2]; exact Or.inl rfl
  · rw [h.2.2]; exact Or.inr rfl
  · rw [h]; exact Or.inr rfl
  · rw [h]; exact Or.inl rfl

/-- The update run once the ID parsed, the instance view was fetched and the
request was built: the restart flag is always set. -/
theorem update_run_of_built (d : ResourceData) (env : Env) (id : VirtualMachineResourceID)
    (view : VirtualMachineInstanceView) (calls : List Event) (p : Plan)
    (hparse : ParseVirtualMachineID env.ParseAzureResourceID d.Id = some id)
    (hview : env.InstanceView = some view)
    (hbuilt : buildUpdate d env = (calls, .ok p)) :
    resourceLinuxVirtualMachineUpdate d env =
      locked id.Name
        (Run.andThen { trace := Event.InstanceView :: calls, err := none }
          (applyUpdate env true p)) := by
  unfold resourceLinuxVirtualMachineUpdate updateBody
  rw [hparse]
  simp only [hview, hbuilt, shouldTurnBackOn_eq_true]

/-- The update run when building the request returned an error. -/
theorem update_run_of_build_error (d : ResourceData) (env : Env) (id : VirtualMachineResourceID)
    (view : VirtualMachineInstanceView) (calls : List Event) (e : Failure)
    (hparse : ParseVirtualMachineID env.ParseAzureResourceID d.Id = some id)
    (hview : env.InstanceView = some view)
    (hbuilt : buildUpdate d env = (calls, .error e)) :
    resourceLinuxVirtualMachineUpdate d env =
      locked id.Name { trace := Event.InstanceView :: calls, err := some e } := by
  unfold resourceLinuxVirtualMachineUpdate updateBody
  rw [hparse]
  simp only [hview, hbuilt]

/-- The ways an update run can go, by the first three things it does. -/
theorem update_run_cases (d : ResourceData) (env : Env) :
    resourceLinuxVirtualMachineUpdate d env = { trace := [], err := some .parseID }
    ∨ (∃ id : VirtualMachineResourceID, resourceLinuxVirtualMachineUpdate d env =
        locked id.Name { trace := [.InstanceView], err := some .retrieving })
    ∨ (∃ (id : VirtualMachineResourceID) (calls : List Event) (e : Failure),
        buildUpdate d env = (calls, .error e)
        ∧ resourceLinuxVirtualMachineUpdate d env =
          locked id.Name { trace := Event.InstanceView :: calls, err := some e })
    ∨ (∃ id view calls p, ParseVirtualMachineID env.ParseAzureResourceID d.Id = some id
        ∧ env.InstanceView = some view ∧ buildUpdate d env = (calls, .ok p)
        ∧ resourceLinuxVirtualMachineUpdate d env =
          locked id.Name
            (Run.andThen { trace := Event.InstanceView :: calls, err := none }
              (applyUpdate env true p))) := by
  cases hparse : ParseVirtualMachineID env.ParseAzureResourceID d.Id with
  | none =>
    left
    unfold resourceLinuxVirtualMachineUpdate
    rw [hparse]
  | some id =>
    right
    cases hview : env.InstanceView with
    | none =>
      left
      refine ⟨id, ?_⟩
      unfold resourceLinuxVirtualMachineUpdate updateBody
      rw [hparse]
      simp only [hview]
    | some view =>
      right
      rcases hb : buildUpdate d env with ⟨calls, e | p⟩
      · left
        exact ⟨id, calls, e, rfl, update_run_of_build_error d env id view calls e hparse hview hb⟩
      · right
        exact ⟨id, view, calls, p, rfl, rfl, rfl,
          update_run_of_built d env id view calls p hparse hview hb⟩

/-- The size is unavailable exactly when no listed entry with a name matches it
up to case. -/
theorem availableOnThisHost_eq_false_iff (sizes : VirtualMachineSizeListResult) (vmSize : String) :
    availableOnThisHost sizes vmSize = false ↔
      ∀ entry ∈ sizes.Value.getD [], ∀ name, entry.Name = some name →
        strings_EqualFold name vmSize = false := by
  unfold availableOnThisHost
  cases sizes.Value with
  | none => simp
  | some value =>
    simp only [Option.getD_some, List.any_eq_false]
    constructor
    · intro h entry hmem name hname
      have := h entry hmem
      rw [hname] at this
      simpa using this
    · intro h entry hmem
      cases hname : entry.Name with
      | none => simp
      | some name => simpa using h entry hmem name hname

/-- The events and the returned error of lines 796-840 when a shutdown and an
update are due and the three calls succeed. -/
theorem applyUpdate_all_ok (env : Env) (p : Plan)
    (hsd : p.shouldShutDown = true) (hsu : p.shouldUpdate = true)
    (hoff : env.PowerOff = .ok) (hupd : env.Update = .ok) (hstart : env.Start = .ok) :
    applyUpdate env true p =
      { trace := [.PowerOff false, .WaitForCompletionRef .PowerOff, .Update p.update,
                  .WaitForCompletionRef .Update, .Start, .WaitForCompletionRef .Start, .Read]
        err := if env.ReadFails then some .read else none } := by
  simp [applyUpdate, powerOffStage, updateStage, startStage, readStage, awaitFuture,
    Run.andThen, hsd, hsu, hoff, hupd, hstart]

/-- What a built plan says: an update is due when some field changed, a
shutdown is due when `max_bid_price` changed or the changed size is not listed
for the host, a shutdown never comes without an update, and the request holds
no section whose fields are unchanged. -/
theorem buildUpdate_ok_flags (d : ResourceData) (env : Env) (calls : List Event) (p : Plan)
    (hbuilt : buildUpdate d env = (calls, .ok p)) :
    p.shouldUpdate = anyChange d
      ∧ (p.shouldShutDown = true ↔
          (d.HasChange .max_bid_price = true
            ∨ (d.HasChange .size = true ∧ ∃ sizes, env.ListAvailableSizes = some sizes
                ∧ availableOnThisHost sizes d.size = false)))
      ∧ (p.shouldShutDown = true → p.shouldUpdate = true)
      ∧ sectionsMinimal d p.update := by
  rcases buildUpdate_cases d env with hc | hc | ⟨sizes, p1, hsz, hs, hc, hsu, hsd, _, hsec⟩
      | ⟨p1, hsz, hc, hsu, hsd, hsec⟩
  · rw [hc.2] at hbuilt
    cases hbuilt
  · rw [hc.2.2] at hbuilt
    cases hbuilt
  · rw [hc] at hbuilt
    cases hbuilt
    refine ⟨?_, ?_, fun _ => hsu, hsec⟩
    · rw [hsu]
      simp [anyChange, hsz]
    · rw [hsd]
      constructor
      · intro h
        simp only [Bool.or_eq_true, Bool.not_eq_true'] at h
        rcases h with h | h
        · exact Or.inl h
        · exact Or.inr ⟨hsz, sizes, hs, h⟩
      · rintro (h | ⟨_, sizes1, hs1, h⟩)
        · simp [h]
        · rw [hs] at hs1
          cases hs1
          simp [h]
  · rw [hc] at hbuilt
    cases hbuilt
    refine ⟨hsu, ?_, ?_, hsec⟩
    · rw [hsd]
      constructor
      · exact Or.inl
      · rintro (h | ⟨h, _⟩)
        · exact h
        · rw [hsz] at h
          cases h
    · intro h
      rw [hsd] at h
      rw [hsu]
      simp [anyChange, h]

/-- When a shutdown and an update are due and the power-off completes, the
mutating calls of lines 796-840 start with the power-off and the update. -/
theorem applyUpdate_take_two (env : Env) (t : Bool) (p : Plan)
    (hsd : p.shouldShutDown = true) (hsu : p.shouldUpdate = true)
    (hoff : env.PowerOff = .ok) :
    (mutatingCalls (applyUpdate env t p).trace).take 2 =
      [.PowerOff false, .Update p.update] := by
  cases hu : env.Update <;> cases hs : env.Start <;> cases t <;>
    simp [applyUpdate, powerOffStage, updateStage, startStage, readStage, awaitFuture,
      Run.andThen, hsd, hsu, hoff, hu, hs, mutatingCalls, List.filter, Event.isMutating]

/-- The mutating calls of an update run that got as far as building the
request are those of lines 796-840. -/
theorem mutatingCalls_update_of_built (d : ResourceData) (env : Env)
    (id : VirtualMachineResourceID) (view : VirtualMachineInstanceView)
    (calls : List Event) (p : Plan)
    (hparse : ParseVirtualMachineID env.ParseAzureResourceID d.Id = some id)
    (hview : env.InstanceView = some view)
    (hbuilt : buildUpdate d env = (calls, .ok p)) :
    mutatingCalls (resourceLinuxVirtualMachineUpdate d env).trace =
      mutatingCalls (applyUpdate env true p).trace := by
  rw [update_run_of_built d env id view calls p hparse hview hbuilt, mutatingCalls_locked,
    andThen_of_ok _ _ rfl]
  have hcalls : mutatingCalls calls = [] := by
    have := buildUpdate_calls d env
    rw [hbuilt] at this
    rcases this with h | h <;> simp only at h <;> rw [h] <;> rfl
  show mutatingCalls ((Event.InstanceView :: calls) ++ (applyUpdate env true p).trace) = _
  rw [mutatingCalls_append]
  have : mutatingCalls (Event.InstanceView :: calls) = [] := by
    show mutatingCalls ([Event.InstanceView] ++ calls) = []
    rw [mutatingCalls_append, hcalls]
    rfl
  rw [this, List.nil_append]

/-- In an update run that got as far as building the request, the power-off is
issued exactly when the plan asks for a shutdown. -/
theorem powerOff_mem_iff_of_built (d : ResourceData) (env : Env)
    (id : VirtualMachineResourceID) (view : VirtualMachineInstanceView)
    (calls : List Event) (p : Plan)
    (hparse : ParseVirtualMachineID env.ParseAzureResourceID d.Id = some id)
    (hview : env.InstanceView = some view)
    (hbuilt : buildUpdate d env = (calls, .ok p)) :
    (mutatingCalls (resourceLinuxVirtualMachineUpdate d env).trace).head? =
        some (Event.PowerOff false) ↔ p.shouldShutDown = true := by
  rw [mutatingCalls_update_of_built d env id view calls p hparse hview hbuilt]
  obtain ⟨su, sd, upd⟩ := p
  cases su <;> cases sd <;> cases hpo : env.PowerOff <;> cases hup : env.Update <;>
    cases hst : env.Start <;>
    simp [applyUpdate, powerOffStage, updateStage, startStage, readStage, awaitFuture,
      Run.andThen, hpo, hup, hst, mutatingCalls, List.filter, Event.isMutating]

/-- An update request found in the trace of an update run is the built one. -/
theorem update_mem_trace (d : ResourceData) (env : Env) (u : VirtualMachineUpdate)
    (h : Event.Update u ∈ (resourceLinuxVirtualMachineUpdate d env).trace) :
    ∃ calls p, buildUpdate d env = (calls, .ok p) ∧ u = p.update := by
  rcases update_run_cases d env with hr | ⟨id, hr⟩ | ⟨id, calls, e, hb, hr⟩
      | ⟨id, view1, calls, p, hparse, hview1, hb, hr⟩
  · rw [hr] at h
    simp at h
  · rw [hr] at h
    simp [locked] at h
  · rw [hr] at h
    have := buildUpdate_calls d env
    rw [hb] at this
    rcases this with hc | hc <;> simp only at hc <;> rw [hc] at h <;> simp [locked] at h
  · refine ⟨calls, p, hb, ?_⟩
    rw [hr] at h
    rcases mem_locked_trace h with hm | hm | hm
    · cases hm
    · rcases mem_andThen_trace hm with hm | hm
      · have := buildUpdate_calls d env
        rw [hb] at this
        rcases this with hc | hc <;> simp only at hc <;> rw [hc] at hm <;> simp at hm
      · rcases mem_applyUpdate_trace hm with hm | hm | hm | hm | hm | hm | hm
        · cases hm.1
        · cases hm
        · cases hm.1
          rfl
        · cases hm
        · cases hm.1
        · cases hm
        · cases hm
    · cases hm

/-- The events of lines 796-840, by the outcome of the power-off and of the
update: a failed call ends the run with its own error, before any later call
and before the read-back. -/
theorem applyUpdate_abort (env : Env) (t : Bool) (p : Plan) :
    (p.shouldShutDown = true → env.PowerOff ≠ .ok →
        (∀ u, Event.Update u ∉ (applyUpdate env t p).trace)
        ∧ Event.Start ∉ (applyUpdate env t p).trace
        ∧ Event.Read ∉ (applyUpdate env t p).trace
        ∧ (applyUpdate env t p).err =
            some (if env.PowerOff = .sendError then .sendingPowerOff else .waitingForPowerOff))
    ∧ (∀ u, Event.Update u ∈ (applyUpdate env t p).trace → env.Update ≠ .ok →
        Event.Start ∉ (applyUpdate env t p).trace
        ∧ Event.Read ∉ (applyUpdate env t p).trace
        ∧ (applyUpdate env t p).err =
            some (if env.Update = .sendError then .updating else .waitingForUpdate)) := by
  obtain ⟨su, sd, upd⟩ := p
  cases su <;> cases sd <;> cases t <;> cases hpo : env.PowerOff <;> cases hup : env.Update <;>
    cases hst : env.Start <;>
    simp [applyUpdate, powerOffStage, updateStage, startStage, readStage, awaitFuture,
      Run.andThen, hpo, hup, hst]

/-- The one return between the instance view and the power-off that no remote
call causes: when `identity` changed and its expansion fails, the run is lock,
InstanceView, unlock, and returns the expansion error. -/
theorem update_identity_error (d : ResourceData) (env : Env) (id : VirtualMachineResourceID)
    (view : VirtualMachineInstanceView) (msg : String)
    (hparse : ParseVirtualMachineID env.ParseAzureResourceID d.Id = some id)
    (hview : env.InstanceView = some view)
    (hchange : d.HasChange .identity = true)
    (hid : d.identity = .error msg) :
    resourceLinuxVirtualMachineUpdate d env =
      { trace := [.ByName id.Name, .InstanceView, .UnlockByName id.Name],
        err := some .expandingIdentity } := by
  have hb : buildUpdate d env = ([], .error .expandingIdentity) := by
    unfold buildUpdate stepIdentity
    simp [hchange, hid]
  rw [update_run_of_build_error d env id view [] .expandingIdentity hparse hview hb]
  rfl

/-- The ways a delete run can go before the power-off. -/
theorem delete_run_cases (d : ResourceData) (env : Env) :
    resourceLinuxVirtualMachineDelete d env = { trace := [], err := some .parseID }
    ∨ ∃ id : VirtualMachineResourceID,
        resourceLinuxVirtualMachineDelete d env = locked id.Name (deleteBody env) := by
  unfold resourceLinuxVirtualMachineDelete
  cases ParseVirtualMachineID env.ParseAzureResourceID d.Id with
  | none => exact Or.inl rfl
  | some id => exact Or.inr ⟨id, rfl⟩

/-! ## The claims -/

/-- C1. Running machine, size not available on the host: when `size` changed,
`ListAvailableSizes` was called and returned a list in which no named entry
equals the desired size up to case, the instance view reports
`PowerState/running`, and PowerOff, Update and Start succeed, the run is
lock, InstanceView, ListAvailableSizes, PowerOff(skipShutdown=false) and its
wait, Update and its wait, Start and its wait, the read-back, unlock. Its
mutating calls are exactly PowerOff(false), Update, Start; the request carries
the desired size, and the returned error is that of the read-back. -/
theorem update_running_unavailable_size (d : ResourceData) (env : Env)
    (view : VirtualMachineInstanceView) (sizes : VirtualMachineSizeListResult)
    (hsize : d.HasChange .size = true)
    (_hview : env.InstanceView = some view)
    (_hrunning : ∃ statuses, view.Statuses = some statuses ∧
      ∃ status ∈ statuses, ∃ code, status.Code = some code ∧
        strings_EqualFold code "PowerState/running" = true)
    (hcalled : Event.ListAvailableSizes ∈ (resourceLinuxVirtualMachineUpdate d env).trace)
    (hsizes : env.ListAvailableSizes = some sizes)
    (hnone : ∀ entry ∈ sizes.Value.getD [], ∀ name, entry.Name = some name →
      strings_EqualFold name d.size = false)
    (hoff : env.PowerOff = .ok) (hupd : env.Update = .ok) (hstart : env.Start = .ok) :
    ∃ (name : String) (u : VirtualMachineUpdate),
      (resourceLinuxVirtualMachineUpdate d env).trace =
          [.ByName name, .InstanceView, .ListAvailableSizes,
           .PowerOff false, .WaitForCompletionRef .PowerOff,
           .Update u, .WaitForCompletionRef .Update,
           .Start, .WaitForCompletionRef .Start,
           .Read, .UnlockByName name]
      ∧ mutatingCalls (resourceLinuxVirtualMachineUpdate d env).trace =
          [.PowerOff false, .Update u, .Start]
      ∧ u.VirtualMachineProperties.HardwareProfile = some { VMSize := d.size }
      ∧ (resourceLinuxVirtualMachineUpdate d env).err =
          if env.ReadFails then some .read else none := by
  have havail := (availableOnThisHost_eq_false_iff sizes d.size).mpr hnone
  rcases update_run_cases d env with h | ⟨id, h⟩ | ⟨id, calls, e, hb, h⟩
      | ⟨id, view1, calls, p, hparse, hview1, hb, h⟩
  · rw [h] at hcalled
    simp at hcalled
  · rw [h] at hcalled
    simp [locked] at hcalled
  · rw [h] at hcalled
    rcases buildUpdate_cases d env with hc | hc | ⟨_, _, _, _, hc, _⟩ | ⟨_, _, hc, _⟩
    · rw [hc.2] at hb
      cases hb
      simp [locked] at hcalled
    · rw [hsizes] at hc
      cases hc.2.1
    · rw [hc] at hb
      cases hb
    · rw [hc] at hb
      cases hb
  · rcases buildUpdate_cases d env with hc | hc | ⟨sizes1, p1, _, hs1, hc, hsu, hsd⟩
        | ⟨_, hc, _⟩
    · rw [hc.2] at hb
      cases hb
    · rw [hc.2.2] at hb
      cases hb
    · obtain ⟨hsd, hhw, _⟩ := hsd
      rw [hc] at hb
      cases hb
      rw [hsizes] at hs1
      cases hs1
      rw [havail] at hsd
      have hsd1 : p.shouldShutDown = true := by rw [hsd]; simp
      refine ⟨id.Name, p.update, ?_, ?_, ?_, ?_⟩
      · rw [h, applyUpdate_all_ok env p hsd1 hsu hoff hupd hstart]
        simp [locked, Run.andThen]
      · rw [h, applyUpdate_all_ok env p hsd1 hsu hoff hupd hstart]
        simp [locked, Run.andThen, mutatingCalls, List.filter, Event.isMutating]
      · exact hhw
      · rw [h, applyUpdate_all_ok env p hsd1 hsu hoff hupd hstart]
        simp [locked, Run.andThen]
    · rw [hsize] at hc
      cases hc

/-- Witness for C1: only `size` changed, to a size the running host does not
list. -/
theorem update_running_unavailable_size_witness :
    ∃ (name : String) (u : VirtualMachineUpdate),
      (resourceLinuxVirtualMachineUpdate sizeChange (hostWith "PowerState/running")).trace =
          [.ByName name, .InstanceView, .ListAvailableSizes,
           .PowerOff false, .WaitForCompletionRef .PowerOff,
           .Update u, .WaitForCompletionRef .Update,
           .Start, .WaitForCompletionRef .Start,
           .Read, .UnlockByName name]
      ∧ mutatingCalls
          (resourceLinuxVirtualMachineUpdate sizeChange (hostWith "PowerState/running")).trace =
          [.PowerOff false, .Update u, .Start]
      ∧ u.VirtualMachineProperties.HardwareProfile = some { VMSize := sizeChange.size }
      ∧ (resourceLinuxVirtualMachineUpdate sizeChange (hostWith "PowerState/running")).err =
          if (hostWith "PowerState/running").ReadFails then some .read else none :=
  update_running_unavailable_size sizeChange (hostWith "PowerState/running")
    (viewWith "PowerState/running")
    { Value := some [{ Name := none }, { Name := some "Standard_D2" }] }
    rfl rfl
    ⟨[{ Code := some "PowerState/running" }], rfl, { Code := some "PowerState/running" },
      by decide, "PowerState/running", rfl, by decide⟩
    (by decide) rfl
    ((availableOnThisHost_eq_false_iff _ _).mp (by decide))
    rfl rfl rfl

/-- C2, as stated, fails: with only `max_bid_price` changed and the instance
view holding `PowerState/deallocated`, every call succeeding, the mutating
calls are PowerOff(false), Update, Start and not Update alone. -/
theorem update_deallocated_counterexample :
    bidPriceChange.HasChange .max_bid_price = true
    ∧ (hostWith "PowerState/deallocated").InstanceView =
        some { Statuses := some [{ Code := some "PowerState/deallocated" }] }
    ∧ mutatingCalls
        (resourceLinuxVirtualMachineUpdate bidPriceChange
          (hostWith "PowerState/deallocated")).trace =
        [.PowerOff false,
         .Update { VirtualMachineProperties := { BillingProfile := some { MaxPrice := some 5 } } },
         .Start]
    ∧ ¬ ∃ u, mutatingCalls
        (resourceLinuxVirtualMachineUpdate bidPriceChange
          (hostWith "PowerState/deallocated")).trace = [.Update u] := by
  have h : mutatingCalls
        (resourceLinuxVirtualMachineUpdate bidPriceChange
          (hostWith "PowerState/deallocated")).trace =
        [.PowerOff false,
         .Update { VirtualMachineProperties := { BillingProfile := some { MaxPrice := some 5 } } },
         .Start] := by decide
  refine ⟨by decide, by decide, h, ?_⟩
  rintro ⟨u, hu⟩
  rw [h] at hu
  cases hu

/-- C2, amended. For an update that requires a shutdown (a changed
`max_bid_price`, or a changed size that the listed sizes do not contain) and
whose request is built, with `PowerState/deallocated` in the instance view and
a power-off that completes, the first two mutating calls are
PowerOff(skipShutdown=false) and Update with the built request: the power-off
does not depend on the power state. -/
theorem update_deallocated_powers_off_then_updates (d : ResourceData) (env : Env)
    (id : VirtualMachineResourceID) (view : VirtualMachineInstanceView)
    (statuses : List InstanceViewStatus) (calls : List Event) (p : Plan)
    (hparse : ParseVirtualMachineID env.ParseAzureResourceID d.Id = some id)
    (hview : env.InstanceView = some view)
    (_hstatuses : view.Statuses = some statuses)
    (_hdeallocated : { Code := some "PowerState/deallocated" } ∈ statuses)
    (hbuilt : buildUpdate d env = (calls, .ok p))
    (hreq : d.HasChange .max_bid_price = true
      ∨ (d.HasChange .size = true ∧ ∃ sizes, env.ListAvailableSizes = some sizes
          ∧ availableOnThisHost sizes d.size = false))
    (hoff : env.PowerOff = .ok) :
    (mutatingCalls (resourceLinuxVirtualMachineUpdate d env).trace).take 2 =
      [.PowerOff false, .Update p.update] := by
  obtain ⟨_, hsd, himp, _⟩ := buildUpdate_ok_flags d env calls p hbuilt
  have hsd1 := hsd.mpr hreq
  rw [mutatingCalls_update_of_built d env id view calls p hparse hview hbuilt]
  exact applyUpdate_take_two env true p hsd1 (himp hsd1) hoff

/-- Witness for the amended C2: a changed `max_bid_price` on a deallocated
machine. -/
theorem update_deallocated_powers_off_then_updates_witness :
    (mutatingCalls
        (resourceLinuxVirtualMachineUpdate bidPriceChange
          (hostWith "PowerState/deallocated")).trace).take 2 =
      [.PowerOff false,
       .Update { VirtualMachineProperties := { BillingProfile := some { MaxPrice := some 5 } } }] :=
  update_deallocated_powers_off_then_updates bidPriceChange (hostWith "PowerState/deallocated")
    sampleVm (viewWith "PowerState/deallocated") [{ Code := some "PowerState/deallocated" }] []
    { shouldUpdate := true, shouldShutDown := true,
      update := { VirtualMachineProperties := { BillingProfile := some { MaxPrice := some 5 } } } }
    (by decide) rfl rfl (by decide) rfl (Or.inl rfl) rfl

/-- C3 at a failing input: the instance view holds `PowerState/stopped`, only
`max_bid_price` changed and every call succeeds; the code still issues Start
after the power-off and the update. -/
theorem update_stopped_machine_is_started :
    (hostWith "PowerState/stopped").InstanceView =
        some { Statuses := some [{ Code := some "PowerState/stopped" }] }
    ∧ strings_EqualFold "PowerState/stopped" "PowerState/stopped" = true
    ∧ shouldTurnBackOn (viewWith "PowerState/stopped") = true
    ∧ mutatingCalls
        (resourceLinuxVirtualMachineUpdate bidPriceChange (hostWith "PowerState/stopped")).trace =
        [.PowerOff false,
         .Update { VirtualMachineProperties := { BillingProfile := some { MaxPrice := some 5 } } },
         .Start] := by
  refine ⟨by decide, by decide, by decide, by decide⟩

/-- C4. Default power state: when the instance view has no status list, only
statuses without a code, or no code with the power-state prefix (compared
without case), `shouldTurnBackOn` is true, and a run that issues the power-off
and in which the power-off and the update complete has exactly the mutating
calls PowerOff(false), Update, Start. -/
theorem update_default_power_state (d : ResourceData) (env : Env)
    (view : VirtualMachineInstanceView)
    (_hview : env.InstanceView = some view)
    (_hdefault : view.Statuses = none
      ∨ ∃ statuses, view.Statuses = some statuses
          ∧ ((∀ status ∈ statuses, status.Code = none)
            ∨ ∀ status ∈ statuses, ∀ code, status.Code = some code →
                strings_HasPrefix (strings_ToLower code) "powerstate/" = false)) :
    shouldTurnBackOn view = true
      ∧ (Event.PowerOff false ∈ (resourceLinuxVirtualMachineUpdate d env).trace →
          env.PowerOff = .ok → env.Update = .ok →
          ∃ u, mutatingCalls (resourceLinuxVirtualMachineUpdate d env).trace =
            [.PowerOff false, .Update u, .Start]
            ∧ Event.Start ∈ (resourceLinuxVirtualMachineUpdate d env).trace) := by
  refine ⟨shouldTurnBackOn_eq_true view, ?_⟩
  intro hmem hoff hupd
  rcases update_run_cases d env with h | ⟨id, h⟩ | ⟨id, calls, e, hb, h⟩
      | ⟨id, view1, calls, p, hparse, hview1, hb, h⟩
  · rw [h] at hmem
    simp at hmem
  · rw [h] at hmem
    simp [locked] at hmem
  · rw [h] at hmem
    have := buildUpdate_calls d env
    rw [hb] at this
    rcases this with hc | hc <;> simp only at hc <;> rw [hc] at hmem <;> simp [locked] at hmem
  · obtain ⟨_, _, himp, _⟩ := buildUpdate_ok_flags d env calls p hb
    have hsd : p.shouldShutDown = true := by
      rw [h] at hmem
      rcases mem_locked_trace hmem with hm | hm | hm
      · cases hm
      · rcases mem_andThen_trace hm with hm | hm
        · have := buildUpdate_calls d env
          rw [hb] at this
          rcases this with hc | hc <;> simp only at hc <;> rw [hc] at hm <;> simp at hm
        · rcases mem_applyUpdate_trace hm with hm | hm | hm | hm | hm | hm | hm
          · exact hm.2
          · cases hm
          · cases hm.1
          · cases hm
          · cases hm.1
          · cases hm
          · cases hm
      · cases hm
    refine ⟨p.update, ?_, ?_⟩
    · rw [mutatingCalls_update_of_built d env id view1 calls p hparse hview1 hb]
      cases hs : env.Start <;>
        simp [applyUpdate, powerOffStage, updateStage, startStage, readStage, awaitFuture,
          Run.andThen, hsd, himp hsd, hoff, hupd, hs, mutatingCalls, List.filter,
          Event.isMutating]
    · rw [h]
      cases hs : env.Start <;>
        simp [locked, applyUpdate, powerOffStage, updateStage, startStage, readStage,
          awaitFuture, Run.andThen, hsd, himp hsd, hoff, hupd, hs]

/-- Witness for C4: a changed `max_bid_price` against an instance view without
a status list. -/
theorem update_default_power_state_witness :
    shouldTurnBackOn { Statuses := none } = true
      ∧ (Event.PowerOff false ∈
            (resourceLinuxVirtualMachineUpdate bidPriceChange hostWithoutStatuses).trace →
          hostWithoutStatuses.PowerOff = .ok → hostWithoutStatuses.Update = .ok →
          ∃ u, mutatingCalls
              (resourceLinuxVirtualMachineUpdate bidPriceChange hostWithoutStatuses).trace =
            [.PowerOff false, .Update u, .Start]
            ∧ Event.Start ∈
              (resourceLinuxVirtualMachineUpdate bidPriceChange hostWithoutStatuses).trace) :=
  update_default_power_state bidPriceChange hostWithoutStatuses { Statuses := none } rfl
    (Or.inl rfl)

/-- C5. Size-driven shutdown: when `size` changed, `max_bid_price` did not and
the request is built, `ListAvailableSizes` returned a list, and
`shouldShutDown` is set if and only if no entry of that list has a non-nil name
equal to the desired size up to case. Entries without a name do not count and
a nil list makes the shutdown required. In the run, the power-off is the first
mutating call exactly in that case. -/
theorem update_size_shutdown_iff (d : ResourceData) (env : Env)
    (id : VirtualMachineResourceID) (view : VirtualMachineInstanceView)
    (calls : List Event) (p : Plan)
    (hsize : d.HasChange .size = true)
    (hbid : d.HasChange .max_bid_price = false)
    (hparse : ParseVirtualMachineID env.ParseAzureResourceID d.Id = some id)
    (hview : env.InstanceView = some view)
    (hbuilt : buildUpdate d env = (calls, .ok p)) :
    ∃ sizes, env.ListAvailableSizes = some sizes
      ∧ (p.shouldShutDown = true ↔
          ¬ ∃ entry ∈ sizes.Value.getD [], ∃ name, entry.Name = some name
              ∧ strings_EqualFold name d.size = true)
      ∧ (sizes.Value = none → p.shouldShutDown = true)
      ∧ ((mutatingCalls (resourceLinuxVirtualMachineUpdate d env).trace).head? =
            some (Event.PowerOff false) ↔ p.shouldShutDown = true) := by
  obtain ⟨_, hsd, _, _⟩ := buildUpdate_ok_flags d env calls p hbuilt
  rcases buildUpdate_cases d env with hc | hc | ⟨sizes, p1, _, hs, hc, _⟩ | ⟨_, hc, _⟩
  · rw [hc.2] at hbuilt
    cases hbuilt
  · rw [hc.2.2] at hbuilt
    cases hbuilt
  · have hiff : p.shouldShutDown = true ↔
        ¬ ∃ entry ∈ sizes.Value.getD [], ∃ name, entry.Name = some name
            ∧ strings_EqualFold name d.size = true := by
      rw [hsd]
      constructor
      · rintro (h | ⟨_, sizes1, hs1, h⟩)
        · rw [hbid] at h
          cases h
        · rw [hs] at hs1
          cases hs1
          rintro ⟨entry, hmem, name, hname, heq⟩
          have := (availableOnThisHost_eq_false_iff sizes d.size).mp h entry hmem name hname
          rw [this] at heq
          cases heq
      · intro h
        refine Or.inr ⟨hsize, sizes, hs, ?_⟩
        rw [availableOnThisHost_eq_false_iff]
        intro entry hmem name hname
        cases heq : strings_EqualFold name d.size with
        | false => rfl
        | true => exact absurd ⟨entry, hmem, name, hname, heq⟩ h
    refine ⟨sizes, hs, hiff, ?_, powerOff_mem_iff_of_built d env id view calls p hparse hview hbuilt⟩
    intro hnil
    rw [hiff, hnil]
    simp
  · rw [hsize] at hc
    cases hc

/-- Witness for C5: the desired size is not among the listed ones. -/
theorem update_size_shutdown_iff_witness :
    ∃ sizes, (hostWith "PowerState/running").ListAvailableSizes = some sizes
      ∧ ((stepTags sizeChange (stepSize sizeChange
            { Value := some [{ Name := none }, { Name := some "Standard_D2" }] } {})).shouldShutDown
            = true ↔
          ¬ ∃ entry ∈ sizes.Value.getD [], ∃ name, entry.Name = some name
              ∧ strings_EqualFold name sizeChange.size = true)
      ∧ (sizes.Value = none →
          (stepTags sizeChange (stepSize sizeChange
            { Value := some [{ Name := none }, { Name := some "Standard_D2" }] } {})).shouldShutDown
            = true)
      ∧ ((mutatingCalls
            (resourceLinuxVirtualMachineUpdate sizeChange
              (hostWith "PowerState/running")).trace).head? =
            some (Event.PowerOff false) ↔
          (stepTags sizeChange (stepSize sizeChange
            { Value := some [{ Name := none }, { Name := some "Standard_D2" }] } {})).shouldShutDown
            = true) :=
  update_size_shutdown_iff sizeChange (hostWith "PowerState/running") sampleVm
    (viewWith "PowerState/running") [Event.ListAvailableSizes]
    (stepTags sizeChange (stepSize sizeChange
      { Value := some [{ Name := none }, { Name := some "Standard_D2" }] } {}))
    rfl rfl (by decide) rfl rfl

/-- C6, as stated, fails: on a machine of regular priority whose instance view
holds `PowerState/deallocated`, a change of `max_bid_price` alone makes the
update issue PowerOff. -/
theorem update_bid_price_counterexample :
    bidPriceChange.priority = "Regular"
    ∧ (hostWith "PowerState/deallocated").InstanceView =
        some { Statuses := some [{ Code := some "PowerState/deallocated" }] }
    ∧ (∀ f, bidPriceChange.HasChange f = true → f = Field.max_bid_price)
    ∧ Event.PowerOff false ∈
        (resourceLinuxVirtualMachineUpdate bidPriceChange
          (hostWith "PowerState/deallocated")).trace := by
  refine ⟨rfl, by decide, ?_, by decide⟩
  intro f
  cases f <;> decide

/-- C6, amended. A changed `max_bid_price` always makes a shutdown required:
for every priority and every instance view, once the request is built
`shouldShutDown` is set and PowerOff(skipShutdown=false) is the first mutating
call. -/
theorem update_bid_price_always_shuts_down (d : ResourceData) (env : Env)
    (id : VirtualMachineResourceID) (view : VirtualMachineInstanceView)
    (calls : List Event) (p : Plan)
    (hbid : d.HasChange .max_bid_price = true)
    (hparse : ParseVirtualMachineID env.ParseAzureResourceID d.Id = some id)
    (hview : env.InstanceView = some view)
    (hbuilt : buildUpdate d env = (calls, .ok p)) :
    p.shouldShutDown = true
      ∧ (mutatingCalls (resourceLinuxVirtualMachineUpdate d env).trace).head? =
          some (Event.PowerOff false) := by
  obtain ⟨_, hsd, _, _⟩ := buildUpdate_ok_flags d env calls p hbuilt
  have hsd1 := hsd.mpr (Or.inl hbid)
  exact ⟨hsd1, (powerOff_mem_iff_of_built d env id view calls p hparse hview hbuilt).mpr hsd1⟩

/-- Witness for the amended C6: a regular-priority machine reported as stopped. -/
theorem update_bid_price_always_shuts_down_witness :
    (stepMaxBidPrice bidPriceChange {}).shouldShutDown = true
      ∧ (mutatingCalls
          (resourceLinuxVirtualMachineUpdate bidPriceChange
            (hostWith "PowerState/stopped")).trace).head? =
          some (Event.PowerOff false) :=
  update_bid_price_always_shuts_down bidPriceChange (hostWith "PowerState/stopped") sampleVm
    (viewWith "PowerState/stopped") [] (stepMaxBidPrice bidPriceChange {})
    rfl (by decide) rfl rfl

/-- C7. Minimal request: in every update request that a run sends, each
top-level section is nil when none of the fields mapped to it changed:
DiagnosticsProfile (boot_diagnostics), OsProfile (admin_ssh_key, custom_data,
disable_password_authentication, secret), Identity (identity), BillingProfile
(max_bid_price), NetworkProfile (network_interface_ids), StorageProfile
(os_disk), HardwareProfile (size), Tags (tags). -/
theorem update_request_minimal (d : ResourceData) (env : Env) (u : VirtualMachineUpdate)
    (h : Event.Update u ∈ (resourceLinuxVirtualMachineUpdate d env).trace) :
    (d.HasChange .boot_diagnostics = false →
        u.VirtualMachineProperties.DiagnosticsProfile = none)
    ∧ (d.HasChange .admin_ssh_key = false → d.HasChange .custom_data = false →
        d.HasChange .disable_password_authentication = false → d.HasChange .secret = false →
        u.VirtualMachineProperties.OsProfile = none)
    ∧ (d.HasChange .identity = false → u.Identity = none)
    ∧ (d.HasChange .max_bid_price = false → u.VirtualMachineProperties.BillingProfile = none)
    ∧ (d.HasChange .network_interface_ids = false →
        u.VirtualMachineProperties.NetworkProfile = none)
    ∧ (d.HasChange .os_disk = false → u.VirtualMachineProperties.StorageProfile = none)
    ∧ (d.HasChange .size = false → u.VirtualMachineProperties.HardwareProfile = none)
    ∧ (d.HasChange .tags = false → u.Tags = none) := by
  obtain ⟨calls, p, hb, hu⟩ := update_mem_trace d env u h
  obtain ⟨_, _, _, hsec⟩ := buildUpdate_ok_flags d env calls p hb
  rw [hu]
  exact hsec

/-- Witness for C7: the request sent when only `tags` changed. -/
theorem update_request_minimal_witness :
    (tagsChange.HasChange .boot_diagnostics = false →
        (({ Tags := some [("env", "test")] } :
          VirtualMachineUpdate)).VirtualMachineProperties.DiagnosticsProfile = none)
    ∧ (tagsChange.HasChange .admin_ssh_key = false → tagsChange.HasChange .custom_data = false →
        tagsChange.HasChange .disable_password_authentication = false →
        tagsChange.HasChange .secret = false →
        (({ Tags := some [("env", "test")] } :
          VirtualMachineUpdate)).VirtualMachineProperties.OsProfile = none)
    ∧ (tagsChange.HasChange .identity = false →
        (({ Tags := some [("env", "test")] } : VirtualMachineUpdate)).Identity = none)
    ∧ (tagsChange.HasChange .max_bid_price = false →
        (({ Tags := some [("env", "test")] } :
          VirtualMachineUpdate)).VirtualMachineProperties.BillingProfile = none)
    ∧ (tagsChange.HasChange .network_interface_ids = false →
        (({ Tags := some [("env", "test")] } :
          VirtualMachineUpdate)).VirtualMachineProperties.NetworkProfile = none)
    ∧ (tagsChange.HasChange .os_disk = false →
        (({ Tags := some [("env", "test")] } :
          VirtualMachineUpdate)).VirtualMachineProperties.StorageProfile = none)
    ∧ (tagsChange.HasChange .size = false →
        (({ Tags := some [("env", "test")] } :
          VirtualMachineUpdate)).VirtualMachineProperties.HardwareProfile = none)
    ∧ (tagsChange.HasChange .tags = false →
        (({ Tags := some [("env", "test")] } : VirtualMachineUpdate)).Tags = none) :=
  update_request_minimal tagsChange (hostWith "PowerState/running")
    { Tags := some [("env", "test")] } (by decide)

/-- C8. Abort on failure. In every update run: if a PowerOff was issued and it
failed, on send or while waiting, then no Update, no Start and no read-back
follow and the error of the power-off is returned; if an Update was issued and
it failed, then no Start and no read-back follow and the error of the update
is returned. -/
theorem update_aborts_on_failure (d : ResourceData) (env : Env) :
    (∀ skipShutdown, Event.PowerOff skipShutdown ∈ (resourceLinuxVirtualMachineUpdate d env).trace →
        env.PowerOff ≠ .ok →
        (∀ u, Event.Update u ∉ (resourceLinuxVirtualMachineUpdate d env).trace)
        ∧ Event.Start ∉ (resourceLinuxVirtualMachineUpdate d env).trace
        ∧ Event.Read ∉ (resourceLinuxVirtualMachineUpdate d env).trace
        ∧ (resourceLinuxVirtualMachineUpdate d env).err =
            some (if env.PowerOff = .sendError then .sendingPowerOff else .waitingForPowerOff))
    ∧ (∀ u, Event.Update u ∈ (resourceLinuxVirtualMachineUpdate d env).trace →
        env.Update ≠ .ok →
        Event.Start ∉ (resourceLinuxVirtualMachineUpdate d env).trace
        ∧ Event.Read ∉ (resourceLinuxVirtualMachineUpdate d env).trace
        ∧ (resourceLinuxVirtualMachineUpdate d env).err =
            some (if env.Update = .sendError then .updating else .waitingForUpdate)) := by
  rcases update_run_cases d env with hr | ⟨id, hr⟩ | ⟨id, calls, e, hb, hr⟩
      | ⟨id, view1, calls, p, hparse, hview1, hb, hr⟩
  · rw [hr]
    simp
  · rw [hr]
    simp [locked]
  · rw [hr]
    have := buildUpdate_calls d env
    rw [hb] at this
    rcases this with hc | hc <;> simp only at hc <;> rw [hc] <;> simp [locked]
  · rw [hr]
    have hcalls : ∀ x ∈ calls, x = Event.ListAvailableSizes := by
      have := buildUpdate_calls d env
      rw [hb] at this
      rcases this with hc | hc <;> simp only at hc <;> rw [hc] <;> simp
    have hab := applyUpdate_abort env true p
    have hmemL : ∀ x, x ∈ (locked id.Name (Run.andThen
        { trace := Event.InstanceView :: calls, err := none } (applyUpdate env true p))).trace ↔
        (x = .ByName id.Name ∨ x = .InstanceView ∨ x ∈ calls
          ∨ x ∈ (applyUpdate env true p).trace ∨ x = .UnlockByName id.Name) := by
      intro x
      rw [andThen_of_ok _ _ rfl]
      simp [locked]
    have herr : (locked id.Name (Run.andThen
        { trace := Event.InstanceView :: calls, err := none } (applyUpdate env true p))).err =
        (applyUpdate env true p).err := by
      rw [andThen_of_ok _ _ rfl]
      rfl
    have hnot : ∀ x, x ≠ .ByName id.Name → x ≠ .InstanceView → x ≠ .ListAvailableSizes →
        x ≠ .UnlockByName id.Name →
        x ∉ (applyUpdate env true p).trace →
        x ∉ (locked id.Name (Run.andThen
          { trace := Event.InstanceView :: calls, err := none } (applyUpdate env true p))).trace := by
      intro x h1 h2 h3 h4 h5 hx
      rcases (hmemL x).mp hx with h | h | h | h | h
      · exact h1 h
      · exact h2 h
      · exact h3 (hcalls x h)
      · exact h5 h
      · exact h4 h
    have hin : ∀ x, x ≠ .ByName id.Name → x ≠ .InstanceView → x ≠ .ListAvailableSizes →
        x ≠ .UnlockByName id.Name →
        x ∈ (locked id.Name (Run.andThen
          { trace := Event.InstanceView :: calls, err := none } (applyUpdate env true p))).trace →
        x ∈ (applyUpdate env true p).trace := by
      intro x h1 h2 h3 h4 hx
      rcases (hmemL x).mp hx with h | h | h | h | h
      · exact absurd h h1
      · exact absurd h h2
      · exact absurd (hcalls x h) h3
      · exact h
      · exact absurd h h4
    rw [herr]
    constructor
    · intro b hmem hfail
      have hm := hin _ (by simp) (by simp) (by simp) (by simp) hmem
      have hsd : p.shouldShutDown = true := by
        rcases mem_applyUpdate_trace hm with h | h | h | h | h | h | h
        · exact h.2
        · cases h
        · cases h.1
        · cases h
        · cases h.1
        · cases h
        · cases h
      obtain ⟨a1, a2, a3, a4⟩ := hab.1 hsd hfail
      exact ⟨fun u => hnot _ (by simp) (by simp) (by simp) (by simp) (a1 u),
        hnot _ (by simp) (by simp) (by simp) (by simp) a2,
        hnot _ (by simp) (by simp) (by simp) (by simp) a3, a4⟩
    · intro u hmem hfail
      have hm := hin _ (by simp) (by simp) (by simp) (by simp) hmem
      obtain ⟨a2, a3, a4⟩ := hab.2 u hm hfail
      exact ⟨hnot _ (by simp) (by simp) (by simp) (by simp) a2,
        hnot _ (by simp) (by simp) (by simp) (by simp) a3, a4⟩

/-- Witness for C8: the power-off before a bid-price update fails while it is
awaited. -/
theorem update_aborts_on_failure_witness :
    (∀ u, Event.Update u ∉ (resourceLinuxVirtualMachineUpdate bidPriceChange hostPowerOffFails).trace)
      ∧ Event.Start ∉ (resourceLinuxVirtualMachineUpdate bidPriceChange hostPowerOffFails).trace
      ∧ Event.Read ∉ (resourceLinuxVirtualMachineUpdate bidPriceChange hostPowerOffFails).trace
      ∧ (resourceLinuxVirtualMachineUpdate bidPriceChange hostPowerOffFails).err =
          some (if hostPowerOffFails.PowerOff = .sendError then .sendingPowerOff
            else .waitingForPowerOff) :=
  (update_aborts_on_failure bidPriceChange hostPowerOffFails).1 false (by decide) (by decide)

/-- C9. Delete, call sequence: in every delete run whose initial Get was issued
and succeeded, whatever the instance view, the first mutating call is
PowerOff(skipShutdown=true); Delete is issued if and only if that power-off
was sent and completed without error, and then the run is lock, Get,
PowerOff(true), its wait, Delete, with mutating calls exactly PowerOff(true),
Delete; when the power-off fails the only mutating call is PowerOff(true). -/
theorem delete_call_sequence (d : ResourceData) (env : Env)
    (hcalled : Event.Get ∈ (resourceLinuxVirtualMachineDelete d env).trace)
    (hget : env.Get.err = false) :
    (mutatingCalls (resourceLinuxVirtualMachineDelete d env).trace =
        if env.PowerOff = .ok then [.PowerOff true, .Delete] else [.PowerOff true])
    ∧ (Event.Delete ∈ (resourceLinuxVirtualMachineDelete d env).trace ↔ env.PowerOff = .ok)
    ∧ (env.PowerOff = .ok →
        ∃ name, (resourceLinuxVirtualMachineDelete d env).trace.take 5 =
          [.ByName name, .Get, .PowerOff true, .WaitForCompletionRef .PowerOff, .Delete]) := by
  rcases delete_run_cases d env with hr | ⟨id, hr⟩
  · rw [hr] at hcalled
    simp at hcalled
  · rw [hr]
    refine ⟨?_, ?_, ?_⟩
    · cases hpo : env.PowerOff <;> cases hde : env.Delete <;>
        simp [locked, deleteBody, hget, awaitFuture, Run.andThen, hpo, hde, mutatingCalls,
          List.filter, Event.isMutating]
    · cases hpo : env.PowerOff <;> cases hde : env.Delete <;>
        simp [locked, deleteBody, hget, awaitFuture, Run.andThen, hpo, hde]
    · intro hpo
      refine ⟨id.Name, ?_⟩
      cases hde : env.Delete <;>
        simp [locked, deleteBody, hget, awaitFuture, Run.andThen, hpo, hde]

/-- Witness for C9: deletion of a running machine, every call succeeding. -/
theorem delete_call_sequence_witness :
    (mutatingCalls (resourceLinuxVirtualMachineDelete noChange (hostWith "PowerState/running")).trace =
        if (hostWith "PowerState/running").PowerOff = .ok then [.PowerOff true, .Delete]
        else [.PowerOff true])
    ∧ (Event.Delete ∈ (resourceLinuxVirtualMachineDelete noChange (hostWith "PowerState/running")).trace
        ↔ (hostWith "PowerState/running").PowerOff = .ok)
    ∧ ((hostWith "PowerState/running").PowerOff = .ok →
        ∃ name,
          (resourceLinuxVirtualMachineDelete noChange (hostWith "PowerState/running")).trace.take 5 =
          [.ByName name, .Get, .PowerOff true, .WaitForCompletionRef .PowerOff, .Delete]) :=
  delete_call_sequence noChange (hostWith "PowerState/running") (by decide) rfl

/-- C10, as stated, fails: when the initial Get answers not-found, the delete
returns no error, and issues neither PowerOff nor Delete. -/
theorem delete_not_found_counterexample :
    hostVmNotFound.Get = { err := true, notFound := true }
    ∧ (resourceLinuxVirtualMachineDelete noChange hostVmNotFound).err = none
    ∧ (resourceLinuxVirtualMachineDelete noChange hostVmNotFound).trace =
        [.ByName "vm1", .Get, .UnlockByName "vm1"] := by
  refine ⟨rfl, by decide, by decide⟩

/-- C10, amended. When the initial Get of the machine fails with a not-found
response, the delete returns nil and issues no mutating call; when it fails
with any other response, the delete returns the retrieval error and issues no
mutating call either. -/
theorem delete_missing_resource (d : ResourceData) (env : Env)
    (hcalled : Event.Get ∈ (resourceLinuxVirtualMachineDelete d env).trace)
    (hget : env.Get.err = true) :
    mutatingCalls (resourceLinuxVirtualMachineDelete d env).trace = []
    ∧ (env.Get.notFound = true → (resourceLinuxVirtualMachineDelete d env).err = none)
    ∧ (env.Get.notFound = false →
        (resourceLinuxVirtualMachineDelete d env).err = some .retrieving) := by
  rcases delete_run_cases d env with hr | ⟨id, hr⟩
  · rw [hr] at hcalled
    simp at hcalled
  · rw [hr]
    cases hnf : env.Get.notFound <;>
      simp [locked, deleteBody, hget, hnf, mutatingCalls, List.filter, Event.isMutating]

/-- Witness for the amended C10: the machine is already gone. -/
theorem delete_missing_resource_witness :
    mutatingCalls (resourceLinuxVirtualMachineDelete noChange hostVmNotFound).trace = []
    ∧ (hostVmNotFound.Get.notFound = true →
        (resourceLinuxVirtualMachineDelete noChange hostVmNotFound).err = none)
    ∧ (hostVmNotFound.Get.notFound = false →
        (resourceLinuxVirtualMachineDelete noChange hostVmNotFound).err = some .retrieving) :=
  delete_missing_resource noChange hostVmNotFound (by decide) rfl

/-! ## Auxiliary facts: create -/

theorem existenceCheck_trace (env : Env) :
    (existenceCheck env).trace = if env.ShouldResourcesBeImported then [Event.Get] else [] := by
  unfold existenceCheck
  cases env.ShouldResourcesBeImported <;> cases env.ExistingGet.err <;>
    cases env.ExistingGet.notFound <;> rfl

/-- The create run when lines 284-442 return an error: nothing is sent beyond
the existence check. -/
theorem create_of_build_error (d : ResourceData) (env : Env) (e : Failure)
    (hb : buildCreate d = .error e) :
    (resourceLinuxVirtualMachineCreate d env).trace =
        [Event.ByName d.name] ++ (existenceCheck env).trace ++ [Event.UnlockByName d.name]
      ∧ (resourceLinuxVirtualMachineCreate d env).err ≠ none
      ∧ ((existenceCheck env).err = none → (resourceLinuxVirtualMachineCreate d env).err = some e) := by
  unfold resourceLinuxVirtualMachineCreate createBody
  rw [hb]
  cases hx : (existenceCheck env).err with
  | none => simp [locked, Run.andThen, hx]
  | some x => simp [locked, Run.andThen, hx]

/-- A create run sends `CreateOrUpdate` only with parameters that lines 284-442
returned. -/
theorem createOrUpdate_mem_trace (d : ResourceData) (env : Env) (params : VirtualMachine)
    (h : Event.CreateOrUpdate params ∈ (resourceLinuxVirtualMachineCreate d env).trace) :
    buildCreate d = .ok params := by
  cases hb : buildCreate d with
  | error e =>
    rw [(create_of_build_error d env e hb).1, existenceCheck_trace] at h
    cases env.ShouldResourcesBeImported <;> simp at h
  | ok built =>
    unfold resourceLinuxVirtualMachineCreate createBody at h
    rw [hb] at h
    rcases mem_locked_trace h with h | h | h
    · cases h
    · rcases mem_andThen_trace h with h | h
      · rw [existenceCheck_trace] at h
        cases env.ShouldResourcesBeImported <;> simp at h
      · rcases mem_andThen_trace h with h | h
        · rcases mem_awaitFuture_trace h with h | h
          · cases h
            rfl
          · cases h
        · unfold readCreated at h
          split at h
          · simp at h
          · split at h
            · simp at h
            · rcases mem_andThen_trace h with h | h
              · simp at h
              · simp [readStage] at h
    · cases h

theorem withOptionalIds_priority (d : ResourceData) (params : VirtualMachine) :
    (withOptionalIds d params).VirtualMachineProperties.Priority =
      params.VirtualMachineProperties.Priority := by
  unfold withOptionalIds
  simp only
  split <;> split <;> split <;> rfl

/-- What parameters returned by lines 284-442 say about the configuration:
every cross-field rule holds. -/
theorem buildCreate_ok_rules (d : ResourceData) (params : VirtualMachine)
    (hb : buildCreate d = .ok params) :
    ¬ violatesCrossFieldRule d := by
  unfold buildCreate at hb
  split at hb
  · cases hb
  · split at hb
    · cases hb
    · split at hb
      · cases hb
      · rename_i hext
        simp only at hb
        split at hb
        · cases hb
        · rename_i p1 hev
          split at hb
          · cases hb
          · rename_i p2 hbid
            unfold withEvictionPolicy at hev
            rw [withOptionalIds_priority] at hev
            unfold withBillingProfile at hbid
            unfold withAuthentication at hb
            simp only [initialParameters] at hev
            unfold violatesCrossFieldRule
            simp only [Bool.and_eq_true, Bool.not_eq_true', not_and, Bool.not_eq_false] at hext
            rintro (h | h | h | h | h | h)
            · have := hext
              simp [h.1, h.2] at this
            · rw [if_pos h.1, if_pos h.2] at hev
              cases hev
            · rw [if_neg (by simp [h.1]), if_pos h.2] at hev
              cases hev
            · rw [if_pos h.1, if_pos h.2] at hbid
              cases hbid
            · simp [h.1, h.2] at hb
            · simp [h.1, h.2] at hb

/-- A configuration that breaks a cross-field rule makes lines 284-442 return
an error. -/
theorem buildCreate_error_of_violation (d : ResourceData) (h : violatesCrossFieldRule d) :
    ∃ e, buildCreate d = .error e := by
  cases hb : buildCreate d with
  | error e => exact ⟨e, rfl⟩
  | ok params => exact absurd h (buildCreate_ok_rules d params hb)

/-- Where the error of a create run comes from. -/
theorem create_err_cases (d : ResourceData) (env : Env) (e : Failure)
    (h : (resourceLinuxVirtualMachineCreate d env).err = some e) :
    e = .checkingForExisting ∨ e = .importAsExists ∨ buildCreate d = .error e
      ∨ e = .creating ∨ e = .waitingForCreation ∨ e = .retrieving ∨ e = .idWasNil
      ∨ e = .read := by
  unfold resourceLinuxVirtualMachineCreate createBody locked at h
  simp only at h
  unfold Run.andThen at h
  split at h
  · rename_i x hx
    rw [hx] at h
    cases h
    unfold existenceCheck at hx
    split at hx
    · split at hx
      · cases hx; exact Or.inl rfl
      · split at hx
        · cases hx; exact Or.inr (Or.inl rfl)
        · cases hx
    · cases hx
  · simp only at h
    cases hb : buildCreate d with
    | error x =>
      rw [hb] at h
      cases h
      exact Or.inr (Or.inr (Or.inl rfl))
    | ok params =>
      rw [hb] at h
      simp only at h
      cases hc : env.CreateOrUpdate with
      | sendError =>
        simp [awaitFuture, Run.andThen, hc] at h
        exact Or.inr (Or.inr (Or.inr (Or.inl h.symm)))
      | waitError =>
        simp [awaitFuture, Run.andThen, hc] at h
        exact Or.inr (Or.inr (Or.inr (Or.inr (Or.inl h.symm))))
      | ok =>
        simp only [awaitFuture, Run.andThen, hc, readCreated] at h
        split at h
        · cases h; exact Or.inr (Or.inr (Or.inr (Or.inr (Or.inr (Or.inl rfl)))))
        · split at h
          · cases h
            exact Or.inr (Or.inr (Or.inr (Or.inr (Or.inr (Or.inr (Or.inl rfl))))))
          · simp only [readStage] at h
            split at h
            · cases h
              exact Or.inr (Or.inr (Or.inr (Or.inr (Or.inr (Or.inr (Or.inr rfl))))))
            · cases h

/-- Lines 284-442 up to the eviction check, when the two expansions succeed and
the extension rule holds. -/
theorem buildCreate_of_expanded (d : ResourceData) (identity : Option VirtualMachineIdentity)
    (image : Option ImageReference)
    (hid : d.identity = .ok identity) (himg : d.source_image_reference = .ok image)
    (hext : ¬ (d.allow_extension_operations = true ∧ d.provision_vm_agent = false)) :
    buildCreate d =
      match withEvictionPolicy d (withOptionalIds d (initialParameters d identity image)) with
      | .error e => .error e
      | .ok params =>
        match withBillingProfile d params with
        | .error e => .error e
        | .ok params => withAuthentication d (withPlacement d params) := by
  unfold buildCreate
  simp only [hid, himg]
  have : (!d.provision_vm_agent && d.allow_extension_operations) = false := by
    cases h1 : d.provision_vm_agent <;> cases h2 : d.allow_extension_operations <;>
      simp_all
  rw [this]
  rfl

/-- The only way lines 284-442 return the extension-operations error. -/
theorem buildCreate_extension_error (d : ResourceData)
    (h : buildCreate d = .error .extensionOperationsWithoutAgent) :
    d.allow_extension_operations = true ∧ d.provision_vm_agent = false := by
  unfold buildCreate at h
  split at h
  · cases h
  · split at h
    · cases h
    · split at h
      · rename_i hext
        simp only [Bool.and_eq_true, Bool.not_eq_true'] at hext
        exact ⟨hext.2, hext.1⟩
      · simp only at h
        split at h
        · rename_i e hev
          unfold withEvictionPolicy at hev
          cases h
          split at hev
          · split at hev
            · cases hev
            · cases hev
          · split at hev
            · cases hev
            · cases hev
        · split at h
          · rename_i e hbid
            unfold withBillingProfile at hbid
            cases h
            split at hbid
            · split at hbid
              · cases hbid
              · cases hbid
            · cases hbid
          · unfold withAuthentication at h
            split at h
            · cases h
            · split at h
              · split at h
                · cases h
                · cases h
              · cases h

/-- A create run whose configuration breaks a cross-field rule: it fails, sends
no `CreateOrUpdate`, and apart from the lock only the existence check happens. -/
theorem create_of_violation (d : ResourceData) (env : Env) (h : violatesCrossFieldRule d) :
    (resourceLinuxVirtualMachineCreate d env).err ≠ none
      ∧ (∀ params, Event.CreateOrUpdate params ∉ (resourceLinuxVirtualMachineCreate d env).trace)
      ∧ (resourceLinuxVirtualMachineCreate d env).trace =
          if env.ShouldResourcesBeImported then
            [.ByName d.name, .Get, .UnlockByName d.name]
          else [.ByName d.name, .UnlockByName d.name] := by
  obtain ⟨e, hb⟩ := buildCreate_error_of_violation d h
  obtain ⟨htr, herr, _⟩ := create_of_build_error d env e hb
  refine ⟨herr, ?_, ?_⟩
  · intro params hmem
    rw [createOrUpdate_mem_trace d env params hmem] at hb
    cases hb
  · rw [htr, existenceCheck_trace]
    cases env.ShouldResourcesBeImported <;> rfl

/-! ## The claims, continued -/

/-- C11. Read, missing resource: when the ID parses and the Get of the machine
fails, a not-found response makes the read set the resource ID to the empty
string and return no error; any other response makes it return the retrieval
error and leave the resource ID as it was. -/
theorem read_missing_resource (d : ResourceData) (env : Env) (id : VirtualMachineResourceID)
    (hparse : ParseVirtualMachineID env.ParseAzureResourceID d.Id = some id)
    (hget : env.Get.err = true) :
    (env.Get.notFound = true →
        (resourceLinuxVirtualMachineRead d env).Id = ""
        ∧ (resourceLinuxVirtualMachineRead d env).err = none)
    ∧ (env.Get.notFound = false →
        (resourceLinuxVirtualMachineRead d env).err = some .retrieving
        ∧ (resourceLinuxVirtualMachineRead d env).Id = d.Id) := by
  unfold resourceLinuxVirtualMachineRead
  rw [hparse]
  constructor <;> intro hnf <;> simp [hget, hnf]

/-- Witness for C11: the machine behind the sample ID is gone. -/
theorem read_missing_resource_witness :
    (hostReadNotFound.Get.notFound = true →
        (resourceLinuxVirtualMachineRead noChange hostReadNotFound).Id = ""
        ∧ (resourceLinuxVirtualMachineRead noChange hostReadNotFound).err = none)
    ∧ (hostReadNotFound.Get.notFound = false →
        (resourceLinuxVirtualMachineRead noChange hostReadNotFound).err = some .retrieving
        ∧ (resourceLinuxVirtualMachineRead noChange hostReadNotFound).Id = noChange.Id) :=
  read_missing_resource noChange hostReadNotFound sampleVm (by decide) rfl

/-- C12. Create, priority and eviction policy: when the priority is Spot and no
eviction policy is set, or an eviction policy is set and the priority is not
Spot, create returns an error and sends no `CreateOrUpdate`. When nothing
before the check fails (existence check, the two expansions, the extension
rule), the error is the one of this rule. -/
theorem create_priority_eviction_rule (d : ResourceData) (env : Env)
    (h : (d.priority = compute_Spot ∧ d.eviction_policy = "")
      ∨ (d.eviction_policy ≠ "" ∧ d.priority ≠ compute_Spot)) :
    (resourceLinuxVirtualMachineCreate d env).err ≠ none
      ∧ (∀ params, Event.CreateOrUpdate params ∉ (resourceLinuxVirtualMachineCreate d env).trace)
      ∧ (∀ identity image, d.identity = .ok identity → d.source_image_reference = .ok image →
          ¬ (d.allow_extension_operations = true ∧ d.provision_vm_agent = false) →
          (existenceCheck env).err = none →
          (resourceLinuxVirtualMachineCreate d env).err =
            some (if d.eviction_policy = "" then .spotWithoutEvictionPolicy
              else .evictionPolicyWithoutSpot)) := by
  have hv : violatesCrossFieldRule d := by
    rcases h with h | h
    · exact Or.inr (Or.inr (Or.inl ⟨h.2, h.1⟩))
    · exact Or.inr (Or.inl h)
  obtain ⟨h1, h2, _⟩ := create_of_violation d env hv
  refine ⟨h1, h2, ?_⟩
  intro identity image hid himg hext hex
  have hb : buildCreate d = .error (if d.eviction_policy = "" then .spotWithoutEvictionPolicy
      else .evictionPolicyWithoutSpot) := by
    rw [buildCreate_of_expanded d identity image hid himg hext]
    unfold withEvictionPolicy
    rw [withOptionalIds_priority]
    simp only [initialParameters]
    rcases h with h | h
    · simp [h.1, h.2]
    · simp [h.1, h.2]
  exact (create_of_build_error d env _ hb).2.2 hex

/-- Witness for C12: Spot priority without an eviction policy. -/
theorem create_priority_eviction_rule_witness :
    (resourceLinuxVirtualMachineCreate { newMachine with priority := "Spot" } hostForCreate).err
        ≠ none
      ∧ (∀ params, Event.CreateOrUpdate params ∉
          (resourceLinuxVirtualMachineCreate { newMachine with priority := "Spot" }
            hostForCreate).trace)
      ∧ (∀ identity image,
          ({ newMachine with priority := "Spot" } : ResourceData).identity = .ok identity →
          ({ newMachine with priority := "Spot" } : ResourceData).source_image_reference
            = .ok image →
          ¬ (({ newMachine with priority := "Spot" } : ResourceData).allow_extension_operations
              = true
            ∧ ({ newMachine with priority := "Spot" } : ResourceData).provision_vm_agent = false) →
          (existenceCheck hostForCreate).err = none →
          (resourceLinuxVirtualMachineCreate { newMachine with priority := "Spot" }
            hostForCreate).err =
            some (if ({ newMachine with priority := "Spot" } : ResourceData).eviction_policy = ""
              then .spotWithoutEvictionPolicy else .evictionPolicyWithoutSpot)) :=
  create_priority_eviction_rule { newMachine with priority := "Spot" } hostForCreate
    (Or.inl ⟨rfl, rfl⟩)

/-- C13. Create, authentication: when password authentication is disabled and
no SSH key is given, or it is enabled and the admin password is empty, create
returns an error and sends no `CreateOrUpdate`. When nothing before the check
fails (existence check, the two expansions, the extension, eviction and bid
price rules), the error is the one of this rule. -/
theorem create_authentication_rule (d : ResourceData) (env : Env)
    (h : (d.disable_password_authentication = true ∧ d.admin_ssh_key = [])
      ∨ (d.disable_password_authentication = false ∧ d.admin_password = "")) :
    (resourceLinuxVirtualMachineCreate d env).err ≠ none
      ∧ (∀ params, Event.CreateOrUpdate params ∉ (resourceLinuxVirtualMachineCreate d env).trace)
      ∧ (∀ identity image, d.identity = .ok identity → d.source_image_reference = .ok image →
          ¬ (d.allow_extension_operations = true ∧ d.provision_vm_agent = false) →
          ¬ (d.eviction_policy ≠ "" ∧ d.priority ≠ compute_Spot) →
          ¬ (d.eviction_policy = "" ∧ d.priority = compute_Spot) →
          ¬ (0 < d.max_bid_price ∧ d.priority ≠ compute_Spot) →
          (existenceCheck env).err = none →
          (resourceLinuxVirtualMachineCreate d env).err =
            some (if d.disable_password_authentication then .sshKeyRequired
              else .adminPasswordRequired)) := by
  have hv : violatesCrossFieldRule d := by
    rcases h with h | h
    · exact Or.inr (Or.inr (Or.inr (Or.inr (Or.inl h))))
    · exact Or.inr (Or.inr (Or.inr (Or.inr (Or.inr h))))
  obtain ⟨h1, h2, _⟩ := create_of_violation d env hv
  refine ⟨h1, h2, ?_⟩
  intro identity image hid himg hext hev1 hev2 hbid hex
  have hb : buildCreate d = .error (if d.disable_password_authentication then .sshKeyRequired
      else .adminPasswordRequired) := by
    rw [buildCreate_of_expanded d identity image hid himg hext]
    cases hw : withEvictionPolicy d (withOptionalIds d (initialParameters d identity image)) with
    | error e =>
      exfalso
      unfold withEvictionPolicy at hw
      rw [withOptionalIds_priority] at hw
      simp only [initialParameters] at hw
      split at hw
      · rename_i hne
        split at hw
        · rename_i hp
          exact hev1 ⟨hne, hp⟩
        · cases hw
      · rename_i hne
        split at hw
        · rename_i hp
          exact hev2 ⟨by simpa using hne, hp⟩
        · cases hw
    | ok p1 =>
      simp only
      cases hw2 : withBillingProfile d p1 with
      | error e =>
        exfalso
        unfold withBillingProfile at hw2
        split at hw2
        · rename_i hpos
          split at hw2
          · rename_i hp
            exact hbid ⟨hpos, hp⟩
          · cases hw2
        · cases hw2
      | ok p2 =>
        simp only
        unfold withAuthentication
        rcases h with h | h
        · simp [h.1, h.2]
        · simp [h.1, h.2]
  exact (create_of_build_error d env _ hb).2.2 hex

/-- Witness for C13: password authentication disabled and no SSH key. -/
theorem create_authentication_rule_witness :
    (resourceLinuxVirtualMachineCreate { newMachine with admin_ssh_key := [] } hostForCreate).err
        ≠ none
      ∧ (∀ params, Event.CreateOrUpdate params ∉
          (resourceLinuxVirtualMachineCreate { newMachine with admin_ssh_key := [] }
            hostForCreate).trace) :=
  ⟨(create_authentication_rule { newMachine with admin_ssh_key := [] } hostForCreate
      (Or.inl ⟨rfl, rfl⟩)).1,
    (create_authentication_rule { newMachine with admin_ssh_key := [] } hostForCreate
      (Or.inl ⟨rfl, rfl⟩)).2.1⟩

/-- C14. Create, extension operations: with `allow_extension_operations` true
and `provision_vm_agent` false, create returns an error and sends no
`CreateOrUpdate`; and whenever a create run returns the error of this rule, the
two flags have exactly those values, so no other combination is rejected by
it. -/
theorem create_extension_operations_rule (d : ResourceData) (env : Env) :
    (d.allow_extension_operations = true → d.provision_vm_agent = false →
        (resourceLinuxVirtualMachineCreate d env).err ≠ none
        ∧ (∀ params, Event.CreateOrUpdate params ∉
            (resourceLinuxVirtualMachineCreate d env).trace)
        ∧ (∀ identity image, d.identity = .ok identity →
            d.source_image_reference = .ok image → (existenceCheck env).err = none →
            (resourceLinuxVirtualMachineCreate d env).err =
              some .extensionOperationsWithoutAgent))
    ∧ ((resourceLinuxVirtualMachineCreate d env).err = some .extensionOperationsWithoutAgent →
        d.allow_extension_operations = true ∧ d.provision_vm_agent = false) := by
  constructor
  · intro ha hp
    obtain ⟨h1, h2, _⟩ := create_of_violation d env (Or.inl ⟨ha, hp⟩)
    refine ⟨h1, h2, ?_⟩
    intro identity image hid himg hex
    have hb : buildCreate d = .error .extensionOperationsWithoutAgent := by
      unfold buildCreate
      simp [hid, himg, ha, hp]
    exact (create_of_build_error d env _ hb).2.2 hex
  · intro herr
    rcases create_err_cases d env _ herr with h | h | h | h | h | h | h | h
    · cases h
    · cases h
    · exact buildCreate_extension_error d h
    · cases h
    · cases h
    · cases h
    · cases h
    · cases h

/-- Witness for C14: extension operations allowed without the VM agent. -/
theorem create_extension_operations_rule_witness :
    (resourceLinuxVirtualMachineCreate { newMachine with provision_vm_agent := false }
        hostForCreate).err ≠ none
      ∧ (∀ params, Event.CreateOrUpdate params ∉
          (resourceLinuxVirtualMachineCreate { newMachine with provision_vm_agent := false }
            hostForCreate).trace) :=
  ⟨((create_extension_operations_rule { newMachine with provision_vm_agent := false }
      hostForCreate).1 rfl rfl).1,
    ((create_extension_operations_rule { newMachine with provision_vm_agent := false }
      hostForCreate).1 rfl rfl).2.1⟩

/-- C15, as stated, fails: with the import check switched on, a configuration
that allows extension operations without the VM agent is rejected only after
the existence check has called `Get`. -/
theorem create_fail_fast_counterexample :
    violatesCrossFieldRule { newMachine with provision_vm_agent := false }
    ∧ hostForCreate.ShouldResourcesBeImported = true
    ∧ resourceLinuxVirtualMachineCreate { newMachine with provision_vm_agent := false }
        hostForCreate =
        { trace := [.ByName "vm1", .Get, .UnlockByName "vm1"],
          err := some .extensionOperationsWithoutAgent }
    ∧ Event.Get ∈
        (resourceLinuxVirtualMachineCreate { newMachine with provision_vm_agent := false }
          hostForCreate).trace := by
  refine ⟨Or.inl ⟨rfl, rfl⟩, rfl, by decide, by decide⟩

/-- C15, amended. For every configuration that breaks a cross-field rule,
create returns an error without sending `CreateOrUpdate` or any later call; the
one remote call that can come first is the `Get` of the existence check, made
when the import check is switched on. Apart from it the run is lock, unlock. -/
theorem create_fail_fast (d : ResourceData) (env : Env) (h : violatesCrossFieldRule d) :
    (resourceLinuxVirtualMachineCreate d env).err ≠ none
      ∧ (∀ params, Event.CreateOrUpdate params ∉ (resourceLinuxVirtualMachineCreate d env).trace)
      ∧ (resourceLinuxVirtualMachineCreate d env).trace =
          (if env.ShouldResourcesBeImported then
            [.ByName d.name, .Get, .UnlockByName d.name]
          else [.ByName d.name, .UnlockByName d.name])
      ∧ (env.ShouldResourcesBeImported = false →
          ∀ x ∈ (resourceLinuxVirtualMachineCreate d env).trace,
            x = .ByName d.name ∨ x = .UnlockByName d.name) := by
  obtain ⟨h1, h2, h3⟩ := create_of_violation d env h
  refine ⟨h1, h2, h3, ?_⟩
  intro hoff x hx
  rw [h3, hoff] at hx
  simpa using hx

/-- Witness for the amended C15: the import check is off and the bid price is
set on a machine of regular priority. -/
theorem create_fail_fast_witness :
    (resourceLinuxVirtualMachineCreate
        { newMachine with max_bid_price := 5, priority := "Regular" }
        hostWithoutStatuses).err ≠ none
      ∧ (∀ params, Event.CreateOrUpdate params ∉
          (resourceLinuxVirtualMachineCreate
            { newMachine with max_bid_price := 5, priority := "Regular" }
            hostWithoutStatuses).trace)
      ∧ (resourceLinuxVirtualMachineCreate
          { newMachine with max_bid_price := 5, priority := "Regular" }
          hostWithoutStatuses).trace =
          (if hostWithoutStatuses.ShouldResourcesBeImported then
            [.ByName "vm1", .Get, .UnlockByName "vm1"]
          else [.ByName "vm1", .UnlockByName "vm1"])
      ∧ (hostWithoutStatuses.ShouldResourcesBeImported = false →
          ∀ x ∈ (resourceLinuxVirtualMachineCreate
              { newMachine with max_bid_price := 5, priority := "Regular" }
              hostWithoutStatuses).trace,
            x = .ByName "vm1" ∨ x = .UnlockByName "vm1") :=
  create_fail_fast { newMachine with max_bid_price := 5, priority := "Regular" }
    hostWithoutStatuses (Or.inr (Or.inr (Or.inr (Or.inl ⟨by decide, by decide⟩))))

/-! ## Auxiliary facts: the connection resolver -/

/-- The lookup of the source against the reference: `retrievePublicIPAddress`
returns the address that the public-IP client holds for the ID. -/
theorem retrievePublicIPAddress_eq (parse : String → Option ResourceID)
    (pips : PublicIPAddressesClient) (pipID : String) :
    retrievePublicIPAddress parse pips pipID =
      (referencedPublicIP parse pips { ID := some pipID }).map allocatedAddress := by
  unfold retrievePublicIPAddress referencedPublicIP allocatedAddress
  cases hparse : parse pipID with
  | none => simp [hparse]
  | some id =>
    cases hget : pips id.ResourceGroup (id.pathValue "publicIPAddresses") with
    | none => simp [hparse, hget]
    | some pip =>
      cases hformat : pip.PublicIPAddressPropertiesFormat <;> simp [hparse, hget, hformat]

/-- The reference public address of an IP configuration, through the lookup of
the source. -/
theorem allocatedPublicAddressOf_eq (parse : String → Option ResourceID)
    (pips : PublicIPAddressesClient) (config : InterfaceIPConfiguration) :
    allocatedPublicAddressOf parse pips config =
      match config.InterfaceIPConfigurationPropertiesFormat with
      | none => []
      | some props =>
        match props.PublicIPAddress with
        | none => []
        | some pip =>
          match pip.ID with
          | none => []
          | some pipID =>
            match retrievePublicIPAddress parse pips pipID with
            | some (some address) => [address]
            | _ => [] := by
  unfold allocatedPublicAddressOf
  cases config.InterfaceIPConfigurationPropertiesFormat with
  | none => rfl
  | some props =>
    simp only [Option.some_bind]
    cases props.PublicIPAddress with
    | none => rfl
    | some pip =>
      simp only [Option.some_bind]
      cases hid : pip.ID with
      | none => simp [referencedPublicIP, hid]
      | some pipID =>
        simp only
        rw [retrievePublicIPAddress_eq]
        have href : referencedPublicIP parse pips pip =
            referencedPublicIP parse pips { ID := some pipID } := by
          simp [referencedPublicIP, hid]
        rw [href]
        cases referencedPublicIP parse pips { ID := some pipID } with
        | none => rfl
        | some fetched =>
          simp only [Option.some_bind, Option.map_some']
          cases allocatedAddress fetched <;> rfl

theorem ipConfigurationStep_eq (parse : String → Option ResourceID)
    (pips : PublicIPAddressesClient) (acc : interfaceDetails)
    (config : InterfaceIPConfiguration) :
    ipConfigurationStep parse pips acc config =
      { privateIPAddresses := acc.privateIPAddresses ++ privateAddressOf config
        publicIPAddresses :=
          acc.publicIPAddresses ++ allocatedPublicAddressOf parse pips config } := by
  rw [allocatedPublicAddressOf_eq]
  unfold ipConfigurationStep privateAddressOf
  cases config.InterfaceIPConfigurationPropertiesFormat with
  | none => simp
  | some props =>
    simp only
    cases hpriv : props.PrivateIPAddress <;> cases hpub : props.PublicIPAddress with
    | none => simp
    | some pip =>
      simp only
      cases hid : pip.ID with
      | none => simp
      | some pipID =>
        simp only
        rcases hr : retrievePublicIPAddress parse pips pipID with _ | _ | address <;> simp

theorem foldl_ipConfigurationStep (parse : String → Option ResourceID)
    (pips : PublicIPAddressesClient) (configs : List InterfaceIPConfiguration)
    (acc : interfaceDetails) :
    configs.foldl (ipConfigurationStep parse pips) acc =
      { privateIPAddresses := acc.privateIPAddresses ++ configs.flatMap privateAddressOf
        publicIPAddresses :=
          acc.publicIPAddresses ++ configs.flatMap (allocatedPublicAddressOf parse pips) } := by
  induction configs generalizing acc with
  | nil => simp
  | cons config rest ih =>
    rw [List.foldl_cons, ih, ipConfigurationStep_eq]
    simp [List.append_assoc]

theorem networkInterfaceStep_eq (parse : String → Option ResourceID)
    (nics : InterfacesClient) (pips : PublicIPAddressesClient) (acc : interfaceDetails)
    (v : NetworkInterfaceReference) :
    networkInterfaceStep parse nics pips acc v =
      { privateIPAddresses := acc.privateIPAddresses
          ++ (resolvedIPConfigurations parse nics v).flatMap privateAddressOf
        publicIPAddresses := acc.publicIPAddresses
          ++ (resolvedIPConfigurations parse nics v).flatMap
              (allocatedPublicAddressOf parse pips) } := by
  unfold networkInterfaceStep resolvedIPConfigurations retrieveIPAddressesForNIC
  cases v.ID with
  | none => simp
  | some nicID =>
    simp only
    cases parse nicID with
    | none => simp
    | some id =>
      simp only
      cases nics id.ResourceGroup (id.pathValue "networkInterfaces") with
      | none => simp
      | some nic =>
        simp only
        cases nic.InterfacePropertiesFormat with
        | none => simp
        | some format =>
          simp only
          cases format.IPConfigurations with
          | none => simp
          | some configs =>
            simp only [foldl_ipConfigurationStep, Option.getD_some]
            simp

theorem foldl_networkInterfaceStep (parse : String → Option ResourceID)
    (nics : InterfacesClient) (pips : PublicIPAddressesClient)
    (interfaces : List NetworkInterfaceReference) (acc : interfaceDetails) :
    interfaces.foldl (networkInterfaceStep parse nics pips) acc =
      { privateIPAddresses := acc.privateIPAddresses
          ++ interfaces.flatMap fun v =>
              (resolvedIPConfigurations parse nics v).flatMap privateAddressOf
        publicIPAddresses := acc.publicIPAddresses
          ++ interfaces.flatMap fun v =>
              (resolvedIPConfigurations parse nics v).flatMap
                (allocatedPublicAddressOf parse pips) } := by
  induction interfaces generalizing acc with
  | nil => simp
  | cons v rest ih =>
    rw [List.foldl_cons, ih, networkInterfaceStep_eq]
    simp [List.append_assoc]

theorem firstOrEmpty_eq (addresses : List String) :
    firstOrEmpty addresses = addresses.head?.getD "" := by
  cases addresses <;> rfl

/-- The resolver, for a machine with an interface list, is the reference
definition. -/
theorem retrieveConnectionInformation_eq_spec (parse : String → Option ResourceID)
    (nics : InterfacesClient) (pips : PublicIPAddressesClient)
    (props : VirtualMachineProperties) (profile : NetworkProfile)
    (interfaces : List NetworkInterfaceReference)
    (hprofile : props.NetworkProfile = some profile)
    (hinterfaces : profile.NetworkInterfaces = some interfaces) :
    retrieveConnectionInformation parse nics pips (some props) =
      connectionInfoSpec parse nics pips interfaces := by
  unfold retrieveConnectionInformation connectionInfoSpec
  simp only [hprofile, hinterfaces, foldl_networkInterfaceStep, firstOrEmpty_eq]
  simp

theorem resolvedIPConfigurations_of_unresolvable (parse : String → Option ResourceID)
    (nics : InterfacesClient) (v : NetworkInterfaceReference)
    (h : unresolvable parse nics v) :
    resolvedIPConfigurations parse nics v = [] := by
  unfold resolvedIPConfigurations
  rcases h with h | ⟨nicID, hid, h⟩
  · rw [h]
  · rw [hid]
    rcases h with h | ⟨id, hp, h⟩
    · simp only [h]
    · simp only [hp]
      rcases h with h | ⟨nic, hn, h⟩
      · simp only [h]
      · simp only [hn]
        rcases h with h | ⟨format, hf, h⟩
        · simp only [h]
        · simp only [hf, h]
          rfl

/-- C16. Connection resolver under partial failure. The resolver is a total
function to a `connectionInfo`: it has no error result. Each interface
reference contributes on its own: the private and the public addresses are the
in-order concatenation of what `networkInterfaceStep` yields for each
reference. A reference whose ID is nil or malformed, whose fetch fails, or whose
properties or IP configurations are missing contributes nothing. An IP
configuration whose public-IP lookup fails contributes its private address and
no public address. With two interfaces of one IP configuration each, where the
first public IP resolves to an address and the lookup of the second fails, the
public addresses are exactly that one address. -/
theorem connection_information_partial_failure (parse : String → Option ResourceID)
    (nics : InterfacesClient) (pips : PublicIPAddressesClient) :
    (∀ props profile interfaces, props.NetworkProfile = some profile →
        profile.NetworkInterfaces = some interfaces →
        (retrieveConnectionInformation parse nics pips (some props)).privateAddresses =
            interfaces.flatMap
              (fun v => (networkInterfaceStep parse nics pips {} v).privateIPAddresses)
        ∧ (retrieveConnectionInformation parse nics pips (some props)).publicAddresses =
            interfaces.flatMap
              (fun v => (networkInterfaceStep parse nics pips {} v).publicIPAddresses))
    ∧ (∀ acc v, unresolvable parse nics v → networkInterfaceStep parse nics pips acc v = acc)
    ∧ (∀ acc props pip pipID, props.PublicIPAddress = some pip → pip.ID = some pipID →
        retrievePublicIPAddress parse pips pipID = none →
        ipConfigurationStep parse pips acc
            { InterfaceIPConfigurationPropertiesFormat := some props } =
          { acc with
            privateIPAddresses := acc.privateIPAddresses ++ props.PrivateIPAddress.toList })
    ∧ (∀ props profile i1 i2 r1 r2 c1 c2 pip1 pip2 p1 p2 address,
        props.NetworkProfile = some profile →
        profile.NetworkInterfaces = some [{ ID := some i1 }, { ID := some i2 }] →
        parse i1 = some r1 →
        nics r1.ResourceGroup (r1.pathValue "networkInterfaces") =
          some { InterfacePropertiesFormat := some { IPConfigurations :=
            (some [{ InterfaceIPConfigurationPropertiesFormat := some c1 }]) } } →
        c1.PublicIPAddress = some pip1 → pip1.ID = some p1 →
        retrievePublicIPAddress parse pips p1 = some (some address) →
        parse i2 = some r2 →
        nics r2.ResourceGroup (r2.pathValue "networkInterfaces") =
          some { InterfacePropertiesFormat := some { IPConfigurations :=
            (some [{ InterfaceIPConfigurationPropertiesFormat := some c2 }]) } } →
        c2.PublicIPAddress = some pip2 → pip2.ID = some p2 →
        retrievePublicIPAddress parse pips p2 = none →
        (retrieveConnectionInformation parse nics pips (some props)).publicAddresses = [address]
        ∧ (retrieveConnectionInformation parse nics pips (some props)).primaryPublicAddress
            = address
        ∧ (retrieveConnectionInformation parse nics pips (some props)).privateAddresses =
            c1.PrivateIPAddress.toList ++ c2.PrivateIPAddress.toList) := by
  refine ⟨?_, ?_, ?_, ?_⟩
  · intro props profile interfaces hp hi
    rw [retrieveConnectionInformation_eq_spec parse nics pips props profile interfaces hp hi]
    simp [connectionInfoSpec, networkInterfaceStep_eq]
  · intro acc v hv
    rw [networkInterfaceStep_eq, resolvedIPConfigurations_of_unresolvable parse nics v hv]
    simp
  · intro acc props pip pipID hpub hid hfail
    rw [ipConfigurationStep_eq]
    simp [privateAddressOf, allocatedPublicAddressOf_eq, hpub, hid, hfail]
  · intro props profile i1 i2 r1 r2 c1 c2 pip1 pip2 p1 p2 address hp hi hr1 hn1 hc1 hpip1 hok
      hr2 hn2 hc2 hpip2 hfail
    rw [retrieveConnectionInformation_eq_spec parse nics pips props profile _ hp hi]
    simp [connectionInfoSpec, resolvedIPConfigurations, hr1, hn1, hr2, hn2, privateAddressOf,
      allocatedPublicAddressOf_eq, hc1, hpip1, hok, hc2, hpip2, hfail]

/-- Witness for C16: of the two sample interfaces, only the first public IP can
be looked up. -/
theorem connection_information_partial_failure_witness :
    (retrieveConnectionInformation ParseAzureResourceID sampleInterfaces samplePublicIPs
        (some sampleProperties)).publicAddresses = ["52.0.0.1"]
      ∧ (retrieveConnectionInformation ParseAzureResourceID sampleInterfaces samplePublicIPs
        (some sampleProperties)).primaryPublicAddress = "52.0.0.1"
      ∧ (retrieveConnectionInformation ParseAzureResourceID sampleInterfaces samplePublicIPs
        (some sampleProperties)).privateAddresses =
          (some "10.0.0.4").toList ++ (some "10.0.0.5").toList :=
  (connection_information_partial_failure ParseAzureResourceID sampleInterfaces
      samplePublicIPs).2.2.2
    sampleProperties
    { NetworkInterfaces := some sampleReferences }
    "/subscriptions/0/resourceGroups/rg/networkInterfaces/nic1"
    "/subscriptions/0/resourceGroups/rg/networkInterfaces/nic2"
    { SubscriptionID := "0", ResourceGroup := "rg",
      Path := [("subscriptions", "0"), ("resourceGroups", "rg"), ("networkInterfaces", "nic1")] }
    { SubscriptionID := "0", ResourceGroup := "rg",
      Path := [("subscriptions", "0"), ("resourceGroups", "rg"), ("networkInterfaces", "nic2")] }
    sampleConfigurationProperties1 sampleConfigurationProperties2
    { ID := some "/subscriptions/0/resourceGroups/rg/publicIPAddresses/pip1" }
    { ID := some "/subscriptions/0/resourceGroups/rg/publicIPAddresses/pip2" }
    "/subscriptions/0/resourceGroups/rg/publicIPAddresses/pip1"
    "/subscriptions/0/resourceGroups/rg/publicIPAddresses/pip2"
    "52.0.0.1"
    rfl rfl (by decide) (by decide) rfl rfl (by decide) (by decide) (by decide) rfl rfl
    (by decide)

/-- C17. Connection resolver, reference definition: for a machine with an
interface list the result is `connectionInfoSpec`: the private addresses are the
concatenation, in the order of the references and then of the IP
configurations of each resolved interface, of the private addresses present,
the public addresses the same concatenation of the allocated public addresses,
and each primary address is the first element of its list or the empty string.
The reference reads the interfaces and the public IPs from the two clients
themselves: an IP configuration whose public-IP reference leads to a public IP
that the client holds with an address contributes exactly that address, and
one whose reference leads to nothing the client holds, or to a public IP
without address, contributes none. Nil properties, a nil network profile or a
nil interface list give the zero `connectionInfo`. -/
theorem connection_information_reference (parse : String → Option ResourceID)
    (nics : InterfacesClient) (pips : PublicIPAddressesClient) :
    (∀ props profile interfaces, props.NetworkProfile = some profile →
        profile.NetworkInterfaces = some interfaces →
        retrieveConnectionInformation parse nics pips (some props) =
          connectionInfoSpec parse nics pips interfaces)
    ∧ (∀ input,
        (retrieveConnectionInformation parse nics pips input).primaryPrivateAddress =
          (retrieveConnectionInformation parse nics pips input).privateAddresses.head?.getD ""
        ∧ (retrieveConnectionInformation parse nics pips input).primaryPublicAddress =
          (retrieveConnectionInformation parse nics pips input).publicAddresses.head?.getD "")
    ∧ retrieveConnectionInformation parse nics pips none = {}
    ∧ (∀ props, props.NetworkProfile = none →
        retrieveConnectionInformation parse nics pips (some props) = {})
    ∧ (∀ props profile, props.NetworkProfile = some profile →
        profile.NetworkInterfaces = none →
        retrieveConnectionInformation parse nics pips (some props) = {})
    ∧ (∀ (props : InterfaceIPConfigurationPropertiesFormat) (pip : PublicIPAddress)
        (pipID : String) (id : ResourceID),
        props.PublicIPAddress = some pip → pip.ID = some pipID → parse pipID = some id →
        allocatedPublicAddressOf parse pips
            { InterfaceIPConfigurationPropertiesFormat := some props } =
          match pips id.ResourceGroup (id.pathValue "publicIPAddresses") with
          | some { ID := _, PublicIPAddressPropertiesFormat := some { IPAddress := some address } } =>
            [address]
          | _ => [])
    ∧ (∀ (props : InterfaceIPConfigurationPropertiesFormat) (pip : PublicIPAddress),
        props.PublicIPAddress = none
          ∨ (props.PublicIPAddress = some pip
              ∧ (pip.ID = none ∨ ∃ pipID, pip.ID = some pipID ∧ parse pipID = none)) →
        allocatedPublicAddressOf parse pips
            { InterfaceIPConfigurationPropertiesFormat := some props } = []) := by
  refine ⟨retrieveConnectionInformation_eq_spec parse nics pips, ?_, rfl, ?_, ?_, ?_, ?_⟩
  rotate_left 3
  · intro props pip pipID id hpip hid hparse
    simp only [allocatedPublicAddressOf, referencedPublicIP, allocatedAddress, hpip, hid, hparse,
      Option.some_bind]
    cases hget : pips id.ResourceGroup (id.pathValue "publicIPAddresses") with
    | none => rfl
    | some fetched =>
      obtain ⟨fid, format⟩ := fetched
      cases format with
      | none => rfl
      | some format =>
        obtain ⟨address⟩ := format
        cases address <;> rfl
  · intro props pip h
    rcases h with h | ⟨hpip, h | ⟨pipID, hid, hparse⟩⟩
    · simp [allocatedPublicAddressOf, h]
    · simp [allocatedPublicAddressOf, referencedPublicIP, hpip, h]
    · simp [allocatedPublicAddressOf, referencedPublicIP, hpip, hid, hparse]
  · intro input
    unfold retrieveConnectionInformation
    cases input with
    | none => exact ⟨rfl, rfl⟩
    | some props =>
      simp only
      cases props.NetworkProfile with
      | none => exact ⟨rfl, rfl⟩
      | some profile =>
        simp only
        cases profile.NetworkInterfaces with
        | none => exact ⟨rfl, rfl⟩
        | some interfaces => exact ⟨firstOrEmpty_eq _, firstOrEmpty_eq _⟩
  · intro props hp
    unfold retrieveConnectionInformation
    simp only [hp]
  · intro props profile hp hi
    unfold retrieveConnectionInformation
    simp only [hp, hi]

/-- Witness for C17: the sample machine, on a client that holds both public
IPs, resolves to the two private and the two public addresses in the order of
the interfaces. -/
theorem connection_information_reference_witness :
    retrieveConnectionInformation ParseAzureResourceID sampleInterfaces samplePublicIPsBoth
        (some sampleProperties) =
      { primaryPrivateAddress := "10.0.0.4", privateAddresses := ["10.0.0.4", "10.0.0.5"],
        primaryPublicAddress := "52.0.0.1", publicAddresses := ["52.0.0.1", "52.0.0.2"] } :=
  ((connection_information_reference ParseAzureResourceID sampleInterfaces
      samplePublicIPsBoth).1
    sampleProperties { NetworkInterfaces := some sampleReferences } sampleReferences rfl rfl).trans
    (by decide)

/-- C18. Provisioner connection: the `host` given to `d.SetConnInfo` is the
primary public address when that is not empty and the primary private address
otherwise, so it is empty exactly when both are empty; the `type` is `winrm`
for Windows and `ssh` otherwise. -/
theorem set_connection_information_host (input : connectionInfo) (isWindows : Bool) :
    connValue (setConnectionInformation input isWindows) "host" =
        (if input.primaryPublicAddress ≠ "" then input.primaryPublicAddress
          else input.primaryPrivateAddress)
    ∧ (connValue (setConnectionInformation input isWindows) "host" = "" ↔
        input.primaryPublicAddress = "" ∧ input.primaryPrivateAddress = "")
    ∧ connValue (setConnectionInformation input isWindows) "type" =
        (if isWindows then "winrm" else "ssh") := by
  have hkey : ("host" == "type") = false := by decide
  have hhost : connValue (setConnectionInformation input isWindows) "host" =
      (if input.primaryPublicAddress ≠ "" then input.primaryPublicAddress
        else input.primaryPrivateAddress) := by
    unfold connValue setConnectionInformation
    simp only [List.lookup, hkey, beq_self_eq_true, Option.getD_some]
    by_cases h : input.primaryPublicAddress = "" <;> simp [h]
  refine ⟨hhost, ?_, ?_⟩
  · rw [hhost]
    by_cases h : input.primaryPublicAddress = "" <;> simp [h]
  · unfold connValue setConnectionInformation
    simp [List.lookup]

/-! ## Auxiliary facts: the generic parser -/

theorem splitOnSlash_ne_nil (path : List Char) : splitOnSlash path ≠ [] := by
  cases path with
  | nil => simp [splitOnSlash]
  | cons c cs =>
    unfold splitOnSlash
    split
    · simp
    · split <;> simp

theorem splitOnSlash_of_no_slash (segment : List Char) (h : '/' ∉ segment) :
    splitOnSlash segment = [segment] := by
  induction segment with
  | nil => rfl
  | cons c cs ih =>
    have hc : c ≠ '/' := fun hc => h (by simp [hc])
    have hcs : '/' ∉ cs := fun hm => h (List.mem_cons_of_mem _ hm)
    unfold splitOnSlash
    rw [if_neg hc, ih hcs]

theorem splitOnSlash_append (segment rest : List Char) (h : '/' ∉ segment) :
    splitOnSlash (segment ++ '/' :: rest) = segment :: splitOnSlash rest := by
  induction segment with
  | nil =>
    show splitOnSlash ('/' :: rest) = [] :: splitOnSlash rest
    rw [splitOnSlash, if_pos rfl]
  | cons c cs ih =>
    have hc : c ≠ '/' := fun hc => h (by simp [hc])
    have hcs : '/' ∉ cs := fun hm => h (List.mem_cons_of_mem _ hm)
    show splitOnSlash (c :: (cs ++ '/' :: rest)) = (c :: cs) :: splitOnSlash rest
    rw [splitOnSlash, if_neg hc, ih hcs]

/-- Splitting undoes joining, for segments without a slash. -/
theorem splitOnSlash_intercalateSlash :
    ∀ (segments : List (List Char)), segments ≠ [] →
      (∀ segment ∈ segments, '/' ∉ segment) →
      splitOnSlash (intercalateSlash segments) = segments
  | [], h, _ => absurd rfl h
  | [segment], _, hs => by
    simp only [intercalateSlash]
    exact splitOnSlash_of_no_slash segment (hs segment (by simp))
  | segment :: next :: rest, _, hs => by
    simp only [intercalateSlash]
    rw [splitOnSlash_append _ _ (hs segment (by simp)),
      splitOnSlash_intercalateSlash (next :: rest) (by simp)
        (fun x hx => hs x (List.mem_cons_of_mem _ hx))]

/-- The joined path does not end in a slash when its last segment is not empty
and has no slash. -/
theorem getLast_intercalateSlash :
    ∀ (segments : List (List Char)), segments ≠ [] →
      (∀ segment ∈ segments, '/' ∉ segment ∧ segment ≠ []) →
      (intercalateSlash segments).getLast? ≠ some '/'
  | [], h, _ => absurd rfl h
  | [segment], _, hs => by
    simp only [intercalateSlash]
    intro hl
    exact (hs segment (by simp)).1 (List.mem_of_getLast?_eq_some hl)
  | segment :: next :: rest, _, hs => by
    simp only [intercalateSlash]
    have ih := getLast_intercalateSlash (next :: rest) (by simp)
      (fun x hx => hs x (List.mem_cons_of_mem _ hx))
    rw [List.getLast?_append, List.getLast?_cons]
    cases hx : (intercalateSlash (next :: rest)).getLast? with
    | none =>
      exfalso
      rw [List.getLast?_eq_none_iff] at hx
      have hsplit := splitOnSlash_intercalateSlash (next :: rest) (by simp)
        (fun x hx => (hs x (List.mem_cons_of_mem _ hx)).1)
      rw [hx] at hsplit
      simp only [splitOnSlash] at hsplit
      exact (hs next (by simp)).2 (List.cons.inj hsplit).1.symm
    | some y =>
      rw [hx] at ih
      simpa using ih

/-- The segments of an ID that is a slash followed by non-empty slash-free
segments joined by slashes are those segments. -/
theorem pathSegments_of_joined (input : String) (segments : List String)
    (hne : segments ≠ [])
    (hs : ∀ segment ∈ segments, '/' ∉ segment.data ∧ segment ≠ "")
    (hdata : input.data = '/' :: intercalateSlash (segments.map String.data)) :
    pathSegments input = segments := by
  have hne1 : segments.map String.data ≠ [] := by simpa using hne
  have hs1 : ∀ segment ∈ segments.map String.data, '/' ∉ segment ∧ segment ≠ [] := by
    intro segment hmem
    obtain ⟨x, hx, rfl⟩ := List.mem_map.mp hmem
    refine ⟨(hs x hx).1, ?_⟩
    intro hnil
    apply (hs x hx).2
    cases x
    simp_all
  unfold pathSegments
  rw [hdata]
  have h1 : trimSlashPrefix ('/' :: intercalateSlash (segments.map String.data)) =
      intercalateSlash (segments.map String.data) := by
    simp [trimSlashPrefix]
  have h2 : trimSlashSuffix (intercalateSlash (segments.map String.data)) =
      intercalateSlash (segments.map String.data) := by
    unfold trimSlashSuffix
    rw [if_neg (getLast_intercalateSlash _ hne1 hs1)]
  rw [h1, h2, splitOnSlash_intercalateSlash _ hne1 (fun x hx => (hs1 x hx).1)]
  rw [List.map_map]
  have : (String.mk ∘ String.data) = id := by
    funext x
    rfl
  rw [this, List.map_id]

theorem vmPath_data (s g n : String) :
    (vmPath s g n).data =
      '/' :: intercalateSlash
        (["subscriptions", s, "resourceGroups", g, "virtualMachines", n].map String.data) := by
  simp [vmPath, intercalateSlash, String.data_append]

theorem extensionPath_data (s g v e : String) :
    (extensionPath s g v e).data =
      '/' :: intercalateSlash
        (["subscriptions", s, "resourceGroups", g, "virtualMachines", v, "extensions", e].map
          String.data) := by
  simp [extensionPath, intercalateSlash, String.data_append]

/-- Every pair read from the segments has its key among the segments. -/
theorem keyValuePairs_key_mem :
    ∀ (segments : List String) (pairs : List (String × String)),
      keyValuePairs segments = some pairs → ∀ pair ∈ pairs, pair.1 ∈ segments
  | [], pairs, h, pair, hmem => by
    simp [keyValuePairs] at h
    subst h
    simp at hmem
  | [_], pairs, h, _, _ => by simp [keyValuePairs] at h
  | key :: value :: rest, pairs, h, pair, hmem => by
    simp only [keyValuePairs] at h
    split at h
    · cases h
    · cases hr : keyValuePairs rest with
      | none => simp [hr] at h
      | some tail =>
        simp [hr] at h
        subst h
        rcases List.mem_cons.mp hmem with hp | hp
        · subst hp
          simp
        · have := keyValuePairs_key_mem rest tail hr pair hp
          simp [this]

theorem lookup_mem {key value : String} :
    ∀ (pairs : List (String × String)), pairs.lookup key = some value → (key, value) ∈ pairs
  | [], h => by simp at h
  | (k, v) :: rest, h => by
    rw [List.lookup_cons] at h
    split at h
    · rename_i hk
      simp only [beq_iff_eq] at hk
      cases h
      simp [hk]
    · exact List.mem_cons_of_mem _ (lookup_mem rest h)

/-- An even number of segments in front does not rescue a tail that cannot be
read as pairs. -/
theorem keyValuePairs_append_none (tail : List String) (h : keyValuePairs tail = none) :
    ∀ (front : List String), front.length % 2 = 0 → keyValuePairs (front ++ tail) = none
  | [], _ => h
  | [_], hlen => by simp at hlen
  | key :: value :: rest, hlen => by
    have hrest : rest.length % 2 = 0 := by
      simp only [List.length_cons] at hlen
      omega
    show keyValuePairs (key :: value :: (rest ++ tail)) = none
    simp only [keyValuePairs]
    split
    · rfl
    · rw [keyValuePairs_append_none tail h rest hrest]
      rfl

/-- What the generic parser returns, when it returns something. -/
theorem parseAzureResourceID_some (input : String) (id : ResourceID)
    (h : ParseAzureResourceID input = some id) :
    input ≠ "" ∧ keyValuePairs (pathSegments input) = some id.Path
      ∧ id.Path.lookup "resourceGroups" = some id.ResourceGroup := by
  unfold ParseAzureResourceID at h
  split at h
  · cases h
  · rename_i hne
    split at h
    · cases h
    · rename_i pairs hp
      split at h
      · cases h
      · rename_i rg hrg
        cases h
        exact ⟨hne, hp, hrg⟩

/-- The generic parser on an ID made of known key/value pairs. -/
theorem parseAzureResourceID_of_pairs (input : String) (pairs : List (String × String))
    (rg : String) (hne : input ≠ "")
    (hp : keyValuePairs (pathSegments input) = some pairs)
    (hrg : pairs.lookup "resourceGroups" = some rg) :
    ParseAzureResourceID input =
      some { SubscriptionID := (pairs.lookup "subscriptions").getD ""
             ResourceGroup := rg
             Provider := (pairs.lookup "providers").getD ""
             Path := pairs } := by
  unfold ParseAzureResourceID
  rw [if_neg hne]
  simp only [hp, hrg]

theorem ne_empty_of_data (input : String) (c : Char) (cs : List Char)
    (h : input.data = c :: cs) : input ≠ "" := by
  intro hnil
  rw [hnil] at h
  cases h

/-- The generic parser on `/subscriptions/<s>/resourceGroups/<g>/virtualMachines/<n>`. -/
theorem parseAzureResourceID_vmPath (s g n : String)
    (hs : s ≠ "") (hg : g ≠ "") (hn : n ≠ "")
    (hs1 : '/' ∉ s.data) (hg1 : '/' ∉ g.data) (hn1 : '/' ∉ n.data) :
    ParseAzureResourceID (vmPath s g n) =
      some { SubscriptionID := s, ResourceGroup := g, Provider := "",
             Path := [("subscriptions", s), ("resourceGroups", g), ("virtualMachines", n)] } := by
  have hseg : pathSegments (vmPath s g n) =
      ["subscriptions", s, "resourceGroups", g, "virtualMachines", n] := by
    apply pathSegments_of_joined _ _ (by simp) _ (vmPath_data s g n)
    intro segment hmem
    simp only [List.mem_cons, List.mem_singleton, List.not_mem_nil, or_false] at hmem
    rcases hmem with h | h | h | h | h | h <;> subst h
    · exact ⟨by decide, by decide⟩
    · exact ⟨hs1, hs⟩
    · exact ⟨by decide, by decide⟩
    · exact ⟨hg1, hg⟩
    · exact ⟨by decide, by decide⟩
    · exact ⟨hn1, hn⟩
  have hp : keyValuePairs (pathSegments (vmPath s g n)) =
      some [("subscriptions", s), ("resourceGroups", g), ("virtualMachines", n)] := by
    rw [hseg]
    simp [keyValuePairs, hs, hg, hn]
  have hk1 : ("resourceGroups" == "subscriptions") = false := by decide
  have hk2 : ("subscriptions" == "subscriptions") = true := by decide
  have hk3 : ("providers" == "subscriptions") = false := by decide
  have hk4 : ("providers" == "resourceGroups") = false := by decide
  have hk5 : ("providers" == "virtualMachines") = false := by decide
  rw [parseAzureResourceID_of_pairs _ _ g (ne_empty_of_data _ _ _ (vmPath_data s g n)) hp
    (by simp [List.lookup, hk1])]
  simp [List.lookup, hk2, hk3, hk4, hk5]

/-- The generic parser on
`/subscriptions/<s>/resourceGroups/<g>/virtualMachines/<v>/extensions/<e>`. -/
theorem parseAzureResourceID_extensionPath (s g v e : String)
    (hs : s ≠ "") (hg : g ≠ "") (hv : v ≠ "") (he : e ≠ "")
    (hs1 : '/' ∉ s.data) (hg1 : '/' ∉ g.data) (hv1 : '/' ∉ v.data) (he1 : '/' ∉ e.data) :
    ParseAzureResourceID (extensionPath s g v e) =
      some { SubscriptionID := s, ResourceGroup := g, Provider := "",
             Path := [("subscriptions", s), ("resourceGroups", g), ("virtualMachines", v),
                      ("extensions", e)] } := by
  have hseg : pathSegments (extensionPath s g v e) =
      ["subscriptions", s, "resourceGroups", g, "virtualMachines", v, "extensions", e] := by
    apply pathSegments_of_joined _ _ (by simp) _ (extensionPath_data s g v e)
    intro segment hmem
    simp only [List.mem_cons, List.mem_singleton, List.not_mem_nil, or_false] at hmem
    rcases hmem with h | h | h | h | h | h | h | h <;> subst h
    · exact ⟨by decide, by decide⟩
    · exact ⟨hs1, hs⟩
    · exact ⟨by decide, by decide⟩
    · exact ⟨hg1, hg⟩
    · exact ⟨by decide, by decide⟩
    · exact ⟨hv1, hv⟩
    · exact ⟨by decide, by decide⟩
    · exact ⟨he1, he⟩
  have hp : keyValuePairs (pathSegments (extensionPath s g v e)) =
      some [("subscriptions", s), ("resourceGroups", g), ("virtualMachines", v),
            ("extensions", e)] := by
    rw [hseg]
    simp [keyValuePairs, hs, hg, hv, he]
  have hk1 : ("resourceGroups" == "subscriptions") = false := by decide
  have hk2 : ("subscriptions" == "subscriptions") = true := by decide
  have hk3 : ("providers" == "subscriptions") = false := by decide
  have hk4 : ("providers" == "resourceGroups") = false := by decide
  have hk5 : ("providers" == "virtualMachines") = false := by decide
  have hk6 : ("providers" == "extensions") = false := by decide
  rw [parseAzureResourceID_of_pairs _ _ g
    (ne_empty_of_data _ _ _ (extensionPath_data s g v e)) hp (by simp [List.lookup, hk1])]
  simp [List.lookup, hk2, hk3, hk4, hk5, hk6]

/-- `ParseVirtualMachineID` against any generic parser. -/
theorem parseVirtualMachineID_some_iff (parse : String → Option ResourceID) (input : String)
    (vm : VirtualMachineResourceID) :
    ParseVirtualMachineID parse input = some vm ↔
      ∃ id, parse input = some id ∧ id.pathValue "virtualMachines" ≠ ""
        ∧ vm = { Base := id, Name := id.pathValue "virtualMachines" } := by
  unfold ParseVirtualMachineID
  cases hp : parse input with
  | none => simp
  | some id =>
    simp only
    by_cases hname : id.pathValue "virtualMachines" = ""
    · simp [hname]
    · simp only [hname, if_false, Option.some.injEq]
      constructor
      · intro h
        exact ⟨id, rfl, hname, h.symm⟩
      · rintro ⟨id1, hid, _, hvm⟩
        cases hid
        exact hvm.symm

/-- `ParseVirtualMachineExtensionID` against any generic parser. -/
theorem parseVirtualMachineExtensionID_some_iff (parse : String → Option ResourceID)
    (input : String) (extension : VirtualMachineExtensionResourceID) :
    ParseVirtualMachineExtensionID parse input = some extension ↔
      ∃ id, parse input = some id ∧ id.pathValue "virtualMachines" ≠ ""
        ∧ id.pathValue "extensions" ≠ ""
        ∧ extension = { Base := id, VirtualMachineName := id.pathValue "virtualMachines",
                        Name := id.pathValue "extensions" } := by
  unfold ParseVirtualMachineExtensionID
  cases hp : parse input with
  | none => simp
  | some id =>
    simp only
    by_cases hvm : id.pathValue "virtualMachines" = ""
    · simp [hvm]
    · by_cases hname : id.pathValue "extensions" = ""
      · simp [hvm, hname]
      · simp only [hvm, hname, if_false, Option.some.injEq]
        constructor
        · intro h
          exact ⟨id, rfl, hvm, hname, h.symm⟩
        · rintro ⟨id1, hid, _, _, hext⟩
          cases hid
          exact hext.symm

/-! ## The claims, continued: identifiers -/

/-- C19. `ParseVirtualMachineID`. For every generic parser it succeeds exactly
when that parser succeeds and its `Path` holds a non-empty `virtualMachines`
value, and then `Name` is that value and `Base` the generic result. With the
generic parser as modelled from the spec, it fails on the empty input, on every
input without a `virtualMachines` segment and on every input whose
`virtualMachines` key is followed by no value or by an empty one; and on
`/subscriptions/<s>/resourceGroups/<g>/virtualMachines/<n>` with non-empty
slash-free s, g, n it succeeds with `Name` n and `Base.ResourceGroup` g. -/
theorem parse_virtual_machine_id :
    (∀ (parse : String → Option ResourceID) (input : String) (vm : VirtualMachineResourceID),
        ParseVirtualMachineID parse input = some vm ↔
          ∃ id, parse input = some id ∧ id.pathValue "virtualMachines" ≠ ""
            ∧ vm = { Base := id, Name := id.pathValue "virtualMachines" })
    ∧ ParseVirtualMachineID ParseAzureResourceID "" = none
    ∧ (∀ input, "virtualMachines" ∉ pathSegments input →
        ParseVirtualMachineID ParseAzureResourceID input = none)
    ∧ (∀ input front back, pathSegments input = front ++ "virtualMachines" :: back →
        front.length % 2 = 0 → (back = [] ∨ back.head? = some "") →
        ParseVirtualMachineID ParseAzureResourceID input = none)
    ∧ (∀ s g n : String, s ≠ "" → g ≠ "" → n ≠ "" →
        '/' ∉ s.data → '/' ∉ g.data → '/' ∉ n.data →
        ∃ vm, ParseVirtualMachineID ParseAzureResourceID (vmPath s g n) = some vm
          ∧ vm.Name = n ∧ vm.Base.ResourceGroup = g) := by
  refine ⟨parseVirtualMachineID_some_iff, by decide, ?_, ?_, ?_⟩
  · intro input hno
    unfold ParseVirtualMachineID
    cases hp : ParseAzureResourceID input with
    | none => rfl
    | some id =>
      obtain ⟨_, hpairs, _⟩ := parseAzureResourceID_some input id hp
      have hlook : id.Path.lookup "virtualMachines" = none := by
        cases hl : id.Path.lookup "virtualMachines" with
        | none => rfl
        | some value =>
          exact absurd (keyValuePairs_key_mem _ _ hpairs _ (lookup_mem _ hl)) hno
      simp [ResourceID.pathValue, hlook]
  · intro input front back hseg hlen hback
    have htail : keyValuePairs ("virtualMachines" :: back) = none := by
      rcases hback with h | h
      · rw [h]
        rfl
      · cases back with
        | nil => rfl
        | cons value rest =>
          simp only [List.head?_cons, Option.some.injEq] at h
          simp [keyValuePairs, h]
    have hnone : ParseAzureResourceID input = none := by
      cases hp : ParseAzureResourceID input with
      | none => rfl
      | some id =>
        obtain ⟨_, hpairs, _⟩ := parseAzureResourceID_some input id hp
        rw [hseg, keyValuePairs_append_none _ htail front hlen] at hpairs
        cases hpairs
    unfold ParseVirtualMachineID
    rw [hnone]
  · intro s g n hs hg hn hs1 hg1 hn1
    have hk1 : ("virtualMachines" == "subscriptions") = false := by decide
    have hk2 : ("virtualMachines" == "resourceGroups") = false := by decide
    refine ⟨{ Base := { SubscriptionID := s, ResourceGroup := g, Provider := "",
                        Path := [("subscriptions", s), ("resourceGroups", g),
                                 ("virtualMachines", n)] }, Name := n }, ?_, rfl, rfl⟩
    unfold ParseVirtualMachineID
    rw [parseAzureResourceID_vmPath s g n hs hg hn hs1 hg1 hn1]
    simp [ResourceID.pathValue, List.lookup, hk1, hk2, hn]

/-- Witness for C19: the `Completed` case of `TestParseVirtualMachineID`. -/
theorem parse_virtual_machine_id_witness :
    ∃ vm, ParseVirtualMachineID ParseAzureResourceID
        (vmPath "00000000-0000-0000-0000-000000000000" "foo" "example") = some vm
      ∧ vm.Name = "example" ∧ vm.Base.ResourceGroup = "foo" :=
  parse_virtual_machine_id.2.2.2.2 "00000000-0000-0000-0000-000000000000" "foo" "example"
    (by decide) (by decide) (by decide) (by decide) (by decide) (by decide)

/-- C20. `ParseVirtualMachineExtensionID`. For every generic parser it fails
when that parser fails, when the `virtualMachines` value is missing or empty,
and when the `extensions` value is missing or empty, and otherwise succeeds
with the two values and the generic result. With the generic parser as
modelled from the spec, on
`/subscriptions/<s>/resourceGroups/<g>/virtualMachines/<v>/extensions/<e>` with
non-empty slash-free s, g, v, e it succeeds with `VirtualMachineName` v,
`Name` e and `Base.ResourceGroup` g. -/
theorem parse_virtual_machine_extension_id :
    (∀ (parse : String → Option ResourceID) (input : String),
        parse input = none → ParseVirtualMachineExtensionID parse input = none)
    ∧ (∀ (parse : String → Option ResourceID) (input : String) (id : ResourceID),
        parse input = some id → id.pathValue "virtualMachines" = "" →
        ParseVirtualMachineExtensionID parse input = none)
    ∧ (∀ (parse : String → Option ResourceID) (input : String) (id : ResourceID),
        parse input = some id → id.pathValue "extensions" = "" →
        ParseVirtualMachineExtensionID parse input = none)
    ∧ (∀ (parse : String → Option ResourceID) (input : String)
        (extension : VirtualMachineExtensionResourceID),
        ParseVirtualMachineExtensionID parse input = some extension ↔
          ∃ id, parse input = some id ∧ id.pathValue "virtualMachines" ≠ ""
            ∧ id.pathValue "extensions" ≠ ""
            ∧ extension = { Base := id, VirtualMachineName := id.pathValue "virtualMachines",
                            Name := id.pathValue "extensions" })
    ∧ (∀ s g v e : String, s ≠ "" → g ≠ "" → v ≠ "" → e ≠ "" →
        '/' ∉ s.data → '/' ∉ g.data → '/' ∉ v.data → '/' ∉ e.data →
        ∃ extension,
          ParseVirtualMachineExtensionID ParseAzureResourceID (extensionPath s g v e)
            = some extension
          ∧ extension.VirtualMachineName = v ∧ extension.Name = e
          ∧ extension.Base.ResourceGroup = g) := by
  refine ⟨?_, ?_, ?_, parseVirtualMachineExtensionID_some_iff, ?_⟩
  · intro parse input h
    unfold ParseVirtualMachineExtensionID
    rw [h]
  · intro parse input id h hvm
    unfold ParseVirtualMachineExtensionID
    rw [h]
    simp [hvm]
  · intro parse input id h hname
    unfold ParseVirtualMachineExtensionID
    rw [h]
    simp [hname]
  · intro s g v e hs hg hv he hs1 hg1 hv1 he1
    have hk1 : ("virtualMachines" == "subscriptions") = false := by decide
    have hk2 : ("virtualMachines" == "resourceGroups") = false := by decide
    have hk3 : ("extensions" == "subscriptions") = false := by decide
    have hk4 : ("extensions" == "resourceGroups") = false := by decide
    have hk5 : ("extensions" == "virtualMachines") = false := by decide
    refine ⟨{ Base := { SubscriptionID := s, ResourceGroup := g, Provider := "",
                        Path := [("subscriptions", s), ("resourceGroups", g),
                                 ("virtualMachines", v), ("extensions", e)] },
              VirtualMachineName := v, Name := e }, ?_, rfl, rfl, rfl⟩
    unfold ParseVirtualMachineExtensionID
    rw [parseAzureResourceID_extensionPath s g v e hs hg hv he hs1 hg1 hv1 he1]
    simp [ResourceID.pathValue, List.lookup, hk1, hk2, hk3, hk4, hk5, hv, he]

/-- Witness for C20: an extension `ext1` of the machine `vm1`. -/
theorem parse_virtual_machine_extension_id_witness :
    ∃ extension,
      ParseVirtualMachineExtensionID ParseAzureResourceID
          (extensionPath "00000000-0000-0000-0000-000000000000" "foo" "vm1" "ext1")
        = some extension
      ∧ extension.VirtualMachineName = "vm1" ∧ extension.Name = "ext1"
      ∧ extension.Base.ResourceGroup = "foo" :=
  parse_virtual_machine_extension_id.2.2.2.2 "00000000-0000-0000-0000-000000000000" "foo"
    "vm1" "ext1" (by decide) (by decide) (by decide) (by decide) (by decide) (by decide)
    (by decide) (by decide)

/-! ## Auxiliary facts: requests of update and create -/

/-- The storage profile of a built update request: absent, or the OS disk
alone. -/
theorem buildUpdate_ok_storageProfile (d : ResourceData) (env : Env) (calls : List Event)
    (p : Plan) (hb : buildUpdate d env = (calls, .ok p)) :
    p.update.VirtualMachineProperties.StorageProfile =
      if d.HasChange .os_disk then some { OsDisk := d.os_disk } else none := by
  unfold buildUpdate at hb
  cases hid : stepIdentity d (stepOsProfile d (stepBootDiagnostics d {})) with
  | error e =>
    rw [hid] at hb
    cases hb
  | ok q =>
    rw [hid] at hb
    obtain ⟨identity, h1⟩ := stepIdentity_update d _ q hid
    have h2 := stepOsProfile_update d (stepBootDiagnostics d {})
    have h3 := stepBootDiagnostics_update d {}
    rw [h2, h3] at h1
    have hq : (stepOsDisk d (stepNetworkInterfaceIds d
        (stepMaxBidPrice d q))).update.VirtualMachineProperties.StorageProfile =
        if d.HasChange .os_disk then some { OsDisk := d.os_disk } else none := by
      rw [stepOsDisk_update, stepNetworkInterfaceIds_update, stepMaxBidPrice_update, h1]
    simp only at hb
    split at hb
    · split at hb
      · cases hb
      · cases hb
        rw [stepTags_update, stepSize_update]
        exact hq
    · cases hb
      rw [stepTags_update]
      exact hq

theorem withOptionalIds_storageProfile (d : ResourceData) (params : VirtualMachine) :
    (withOptionalIds d params).VirtualMachineProperties.StorageProfile =
      params.VirtualMachineProperties.StorageProfile := by
  unfold withOptionalIds
  simp only
  split <;> split <;> split <;> rfl

theorem withEvictionPolicy_storageProfile (d : ResourceData) (params out : VirtualMachine)
    (h : withEvictionPolicy d params = .ok out) :
    out.VirtualMachineProperties.StorageProfile =
      params.VirtualMachineProperties.StorageProfile := by
  unfold withEvictionPolicy at h
  split at h
  · split at h
    · cases h
    · cases h
      rfl
  · split at h
    · cases h
    · cases h
      rfl

theorem withBillingProfile_storageProfile (d : ResourceData) (params out : VirtualMachine)
    (h : withBillingProfile d params = .ok out) :
    out.VirtualMachineProperties.StorageProfile =
      params.VirtualMachineProperties.StorageProfile := by
  unfold withBillingProfile at h
  split at h
  · split at h
    · cases h
    · cases h
      rfl
  · cases h
    rfl

theorem withPlacement_storageProfile (d : ResourceData) (params : VirtualMachine) :
    (withPlacement d params).VirtualMachineProperties.StorageProfile =
      params.VirtualMachineProperties.StorageProfile := by
  unfold withPlacement
  simp only
  split <;> split <;> rfl

theorem withAuthentication_storageProfile (d : ResourceData) (params out : VirtualMachine)
    (h : withAuthentication d params = .ok out) :
    out.VirtualMachineProperties.StorageProfile =
      params.VirtualMachineProperties.StorageProfile := by
  unfold withAuthentication at h
  split at h
  · cases h
  · split at h
    · split at h
      · cases h
      · cases h
        rfl
    · cases h
      rfl

/-- The storage profile of built create parameters keeps the empty data-disk
list of line 362. -/
theorem buildCreate_ok_storageProfile (d : ResourceData) (params : VirtualMachine)
    (hb : buildCreate d = .ok params) :
    ∃ image, params.VirtualMachineProperties.StorageProfile =
      some { ImageReference := image, OsDisk := d.os_disk, DataDisks := some [] } := by
  unfold buildCreate at hb
  split at hb
  · cases hb
  · split at hb
    · cases hb
    · rename_i image _
      split at hb
      · cases hb
      · simp only at hb
        split at hb
        · cases hb
        · rename_i p1 hev
          split at hb
          · cases hb
          · rename_i p2 hbid
            refine ⟨image, ?_⟩
            rw [withAuthentication_storageProfile d _ _ hb, withPlacement_storageProfile,
              withBillingProfile_storageProfile d _ _ hbid,
              withEvictionPolicy_storageProfile d _ _ hev, withOptionalIds_storageProfile]
            rfl

/-! ## The claims, continued: validator, data disks, resolver, deadlines -/

/-- C21. `ValidateVirtualMachineID`. For every generic parser and every string
input the validator returns no errors if and only if `ParseVirtualMachineID`
succeeds on it; for a value that is not a string it returns exactly one error;
it never returns warnings. With the generic parser as modelled from the spec,
the empty string and every ID without a `virtualMachines` segment, an ID of
another resource type included, are invalid. -/
theorem validate_virtual_machine_id :
    (∀ (parse : String → Option ResourceID) (v k : String),
        (ValidateVirtualMachineID parse (.string v) k).2 = [] ↔
          ∃ vm, ParseVirtualMachineID parse v = some vm)
    ∧ (∀ (parse : String → Option ResourceID) (k : String),
        (ValidateVirtualMachineID parse .other k).2.length = 1)
    ∧ (∀ (parse : String → Option ResourceID) (i : GoValue) (k : String),
        (ValidateVirtualMachineID parse i k).1 = [])
    ∧ (∀ k, (ValidateVirtualMachineID ParseAzureResourceID (.string "") k).2 ≠ [])
    ∧ (∀ v k, "virtualMachines" ∉ pathSegments v →
        (ValidateVirtualMachineID ParseAzureResourceID (.string v) k).2 ≠ [])
    ∧ (∀ k, (ValidateVirtualMachineID ParseAzureResourceID
        (.string "/subscriptions/00000000-0000-0000-0000-000000000000/resourceGroups/foo/virtualHubs/example")
        k).2 ≠ []) := by
  have hno : ∀ v k, "virtualMachines" ∉ pathSegments v →
      (ValidateVirtualMachineID ParseAzureResourceID (.string v) k).2 ≠ [] := by
    intro v k hseg
    unfold ValidateVirtualMachineID
    have hnone : ParseVirtualMachineID ParseAzureResourceID v = none := by
      unfold ParseVirtualMachineID
      cases hp : ParseAzureResourceID v with
      | none => rfl
      | some id =>
        obtain ⟨_, hpairs, _⟩ := parseAzureResourceID_some v id hp
        have hlook : id.Path.lookup "virtualMachines" = none := by
          cases hl : id.Path.lookup "virtualMachines" with
          | none => rfl
          | some value =>
            exact absurd (keyValuePairs_key_mem _ _ hpairs _ (lookup_mem _ hl)) hseg
        simp [ResourceID.pathValue, hlook]
    simp [hnone]
  refine ⟨?_, ?_, ?_, ?_, hno, ?_⟩
  · intro parse v k
    cases h : ParseVirtualMachineID parse v with
    | none => simp [ValidateVirtualMachineID, h]
    | some vm => simp [ValidateVirtualMachineID, h]
  · intro parse k
    rfl
  · intro parse i k
    unfold ValidateVirtualMachineID
    cases i with
    | other => rfl
    | string v =>
      cases h : ParseVirtualMachineID parse v <;> simp [ValidateVirtualMachineID, h]
  · intro k
    exact hno "" k (by decide)
  · intro k
    exact hno _ k (by decide)

/-- C24. Data disks: every update request that a run sends and that carries a
storage profile has a nil `DataDisks`, so data-disk attachments are not
overwritten; every create request that a run sends carries a storage profile
whose `DataDisks` is the empty, non-nil list. The same holds of every request
that is built, sent or not. -/
theorem data_disks_update_and_create (d : ResourceData) (env : Env) :
    (∀ u, Event.Update u ∈ (resourceLinuxVirtualMachineUpdate d env).trace →
        ∀ profile, u.VirtualMachineProperties.StorageProfile = some profile →
          profile.DataDisks = none)
    ∧ (∀ params,
        Event.CreateOrUpdate params ∈ (resourceLinuxVirtualMachineCreate d env).trace →
        ∃ profile, params.VirtualMachineProperties.StorageProfile = some profile
          ∧ profile.DataDisks = some [])
    ∧ (∀ calls p, buildUpdate d env = (calls, .ok p) →
        ∀ profile, p.update.VirtualMachineProperties.StorageProfile = some profile →
          profile.DataDisks = none)
    ∧ (∀ params, buildCreate d = .ok params →
        ∃ profile, params.VirtualMachineProperties.StorageProfile = some profile
          ∧ profile.DataDisks = some []) := by
  have hupdate : ∀ calls p, buildUpdate d env = (calls, .ok p) →
      ∀ profile, p.update.VirtualMachineProperties.StorageProfile = some profile →
        profile.DataDisks = none := by
    intro calls p hb profile hprofile
    rw [buildUpdate_ok_storageProfile d env calls p hb] at hprofile
    split at hprofile
    · cases hprofile
      rfl
    · cases hprofile
  have hcreate : ∀ params, buildCreate d = .ok params →
      ∃ profile, params.VirtualMachineProperties.StorageProfile = some profile
        ∧ profile.DataDisks = some [] := by
    intro params hb
    obtain ⟨image, h⟩ := buildCreate_ok_storageProfile d params hb
    exact ⟨_, h, rfl⟩
  refine ⟨?_, ?_, hupdate, hcreate⟩
  · intro u hmem profile hprofile
    obtain ⟨calls, p, hb, hu⟩ := update_mem_trace d env u hmem
    rw [hu] at hprofile
    exact hupdate calls p hb profile hprofile
  · intro params hmem
    exact hcreate params (createOrUpdate_mem_trace d env params hmem)

/-- Witness for C24: the update request sent when only `os_disk` changed. -/
theorem data_disks_update_and_create_witness :
    ∀ profile,
      ({ VirtualMachineProperties := { StorageProfile := some { OsDisk := some "disk" } } } :
        VirtualMachineUpdate).VirtualMachineProperties.StorageProfile = some profile →
      profile.DataDisks = none :=
  (data_disks_update_and_create osDiskChange (hostWith "PowerState/running")).1
    { VirtualMachineProperties := { StorageProfile := some { OsDisk := some "disk" } } }
    (by decide)

/-- C28. Scope of a public-IP failure. For an interface that was fetched with
IP configurations `front ++ config :: back`, where the public-IP lookup of
`config` fails: the result is not nil, its private addresses are those of
`front`, then the private address of `config`, then those of `back`; its public
addresses are those of `front` and `back`; and the whole result is the one the
loop gives when `config` carries no public-IP reference at all. -/
theorem public_ip_failure_scope (parse : String → Option ResourceID)
    (nics : InterfacesClient) (pips : PublicIPAddressesClient)
    (nicID : String) (id : ResourceID) (nic : Interface) (format : InterfacePropertiesFormat)
    (front back : List InterfaceIPConfiguration)
    (props : InterfaceIPConfigurationPropertiesFormat) (pip : PublicIPAddress) (pipID : String)
    (hparse : parse nicID = some id)
    (hfetch : nics id.ResourceGroup (id.pathValue "networkInterfaces") = some nic)
    (hformat : nic.InterfacePropertiesFormat = some format)
    (hconfigs : format.IPConfigurations =
      some (front ++ { InterfaceIPConfigurationPropertiesFormat := some props } :: back))
    (hpip : props.PublicIPAddress = some pip) (hid : pip.ID = some pipID)
    (hfail : retrievePublicIPAddress parse pips pipID = none) :
    retrieveIPAddressesForNIC parse nics pips nicID =
        some
          { privateIPAddresses :=
              (front.foldl (ipConfigurationStep parse pips) {}).privateIPAddresses
                ++ props.PrivateIPAddress.toList
                ++ (back.foldl (ipConfigurationStep parse pips) {}).privateIPAddresses
            publicIPAddresses :=
              (front.foldl (ipConfigurationStep parse pips) {}).publicIPAddresses
                ++ (back.foldl (ipConfigurationStep parse pips) {}).publicIPAddresses }
      ∧ retrieveIPAddressesForNIC parse nics pips nicID =
        some ((front ++
          { InterfaceIPConfigurationPropertiesFormat :=
              some { props with PublicIPAddress := none } } :: back).foldl
            (ipConfigurationStep parse pips) {}) := by
  have hrun : retrieveIPAddressesForNIC parse nics pips nicID =
      some ((front ++ { InterfaceIPConfigurationPropertiesFormat := some props } :: back).foldl
        (ipConfigurationStep parse pips) {}) := by
    unfold retrieveIPAddressesForNIC
    simp only [hparse, hfetch, hformat, hconfigs]
  rw [hrun]
  simp only [foldl_ipConfigurationStep, List.flatMap_append, List.flatMap_cons]
  simp [privateAddressOf, allocatedPublicAddressOf_eq, hpip, hid, hfail]

/-- Witness for C28: the second sample interface, whose public IP cannot be
looked up, still yields its private address. -/
theorem public_ip_failure_scope_witness :
    retrieveIPAddressesForNIC ParseAzureResourceID sampleInterfaces samplePublicIPs
        "/subscriptions/0/resourceGroups/rg/networkInterfaces/nic2" =
        some
          { privateIPAddresses :=
              (([] : List InterfaceIPConfiguration).foldl
                  (ipConfigurationStep ParseAzureResourceID samplePublicIPs) {}).privateIPAddresses
                ++ sampleConfigurationProperties2.PrivateIPAddress.toList
                ++ (([] : List InterfaceIPConfiguration).foldl
                  (ipConfigurationStep ParseAzureResourceID samplePublicIPs) {}).privateIPAddresses
            publicIPAddresses :=
              (([] : List InterfaceIPConfiguration).foldl
                  (ipConfigurationStep ParseAzureResourceID samplePublicIPs) {}).publicIPAddresses
                ++ (([] : List InterfaceIPConfiguration).foldl
                  (ipConfigurationStep ParseAzureResourceID samplePublicIPs) {}).publicIPAddresses }
      ∧ retrieveIPAddressesForNIC ParseAzureResourceID sampleInterfaces samplePublicIPs
        "/subscriptions/0/resourceGroups/rg/networkInterfaces/nic2" =
        some ((([] : List InterfaceIPConfiguration) ++
          ({ InterfaceIPConfigurationPropertiesFormat :=
              some { sampleConfigurationProperties2 with PublicIPAddress := none } } :
            InterfaceIPConfiguration) :: []).foldl
            (ipConfigurationStep ParseAzureResourceID samplePublicIPs) {}) :=
  public_ip_failure_scope ParseAzureResourceID sampleInterfaces samplePublicIPs
    "/subscriptions/0/resourceGroups/rg/networkInterfaces/nic2"
    { SubscriptionID := "0", ResourceGroup := "rg",
      Path := [("subscriptions", "0"), ("resourceGroups", "rg"), ("networkInterfaces", "nic2")] }
    { InterfacePropertiesFormat := some { IPConfigurations := some [sampleConfiguration2] } }
    { IPConfigurations := some [sampleConfiguration2] }
    [] [] sampleConfigurationProperties2
    { ID := some "/subscriptions/0/resourceGroups/rg/publicIPAddresses/pip2" }
    "/subscriptions/0/resourceGroups/rg/publicIPAddresses/pip2"
    (by decide) (by decide) rfl rfl rfl rfl (by decide)

/-- C29 at a failing input: on a machine of regular priority whose
`max_bid_price` changed to 5, every call succeeding, update returns no error
and sends an update request that carries a billing profile with that price.
Create rejects the same configuration before any mutating call. -/
theorem update_sends_billing_profile_for_regular_priority :
    bidPriceChange.priority = "Regular"
    ∧ bidPriceChange.priority ≠ compute_Spot
    ∧ 0 < bidPriceChange.max_bid_price
    ∧ (resourceLinuxVirtualMachineUpdate bidPriceChange (hostWith "PowerState/running")).err
        = none
    ∧ Event.Update
        { VirtualMachineProperties := { BillingProfile := some { MaxPrice := some 5 } } } ∈
        (resourceLinuxVirtualMachineUpdate bidPriceChange (hostWith "PowerState/running")).trace
    ∧ (resourceLinuxVirtualMachineCreate bidPriceChange hostForCreate).err =
        some .maxBidPriceWithoutSpot
    ∧ mutatingCalls (resourceLinuxVirtualMachineCreate bidPriceChange hostForCreate).trace = [] := by
  refine ⟨rfl, by decide, by decide, by decide, by decide, by decide, by decide⟩

/-- C30 on the code: update and delete build their context with
`timeouts.ForRead`, so their remote calls run under the Read timeout of 5
minutes, while the Update and Delete timeouts that the resource declares are 45
minutes; create runs under its own Create timeout of 45 minutes. -/
theorem update_and_delete_run_under_read_timeout :
    contextTimeoutKey .Update = .Read
    ∧ contextTimeoutKey .Delete = .Read
    ∧ contextDeadline .Update = 5
    ∧ contextDeadline .Delete = 5
    ∧ declaredTimeout .Update = 45
    ∧ declaredTimeout .Delete = 45
    ∧ contextDeadline .Create = declaredTimeout .Create
    ∧ contextDeadline .Create = 45 := by
  refine ⟨rfl, rfl, rfl, rfl, rfl, rfl, rfl, rfl⟩

/-! ## Auxiliary facts: locks and the calls of an update -/

theorem isLock_of_mem_awaitFuture {x call : Event} {op : Op} {r : FutureResult}
    {e1 e2 : Failure} (h : x ∈ (awaitFuture call op r e1 e2).trace)
    (hcall : call.isLock = false) : x.isLock = false := by
  rcases mem_awaitFuture_trace h with h | h
  · rw [h]
    exact hcall
  · rw [h]
    rfl

theorem isLock_of_mem_applyUpdate {x : Event} {env : Env} {t : Bool} {p : Plan}
    (h : x ∈ (applyUpdate env t p).trace) : x.isLock = false := by
  rcases mem_applyUpdate_trace h with ⟨h, _⟩ | h | ⟨h, _⟩ | h | ⟨h, _⟩ | h | h <;>
    rw [h] <;> rfl

/-- No lock operation happens inside the body of update. -/
theorem updateBody_lockFree (d : ResourceData) (env : Env) :
    ∀ x ∈ (updateBody d env).trace, x.isLock = false := by
  intro x hx
  have hcalls : ∀ y ∈ (buildUpdate d env).1, y.isLock = false := by
    intro y hy
    rcases buildUpdate_calls d env with h | h
    · rw [h] at hy
      cases hy
    · rw [h] at hy
      simp at hy
      rw [hy]
      rfl
  unfold updateBody at hx
  cases hv : env.InstanceView with
  | none =>
    rw [hv] at hx
    simp at hx
    rw [hx]
    rfl
  | some view =>
    rw [hv] at hx
    simp only at hx
    cases hb : buildUpdate d env with
    | mk calls r =>
      rw [hb] at hx hcalls
      cases r with
      | error e =>
        simp only [List.mem_cons] at hx
        rcases hx with h | h
        · rw [h]
          rfl
        · exact hcalls x h
      | ok p =>
        simp only at hx
        rcases mem_andThen_trace hx with h | h
        · simp only [List.mem_cons] at h
          rcases h with h | h
          · rw [h]
            rfl
          · exact hcalls x h
        · exact isLock_of_mem_applyUpdate h

/-- No lock operation happens inside the body of delete. -/
theorem deleteBody_lockFree (env : Env) :
    ∀ x ∈ (deleteBody env).trace, x.isLock = false := by
  intro x hx
  unfold deleteBody at hx
  split at hx
  · split at hx <;>
    · simp at hx
      rw [hx]
      rfl
  · rcases mem_andThen_trace hx with h | h
    · simp at h
      rw [h]
      rfl
    · rcases mem_andThen_trace h with h | h
      · exact isLock_of_mem_awaitFuture h rfl
      · exact isLock_of_mem_awaitFuture h rfl

/-- No lock operation happens inside the body of create. -/
theorem createBody_lockFree (d : ResourceData) (env : Env) :
    ∀ x ∈ (createBody d env).trace, x.isLock = false := by
  intro x hx
  unfold createBody at hx
  rcases mem_andThen_trace hx with h | h
  · rw [existenceCheck_trace] at h
    split at h
    · simp at h
      rw [h]
      rfl
    · cases h
  · split at h
    · cases h
    · rcases mem_andThen_trace h with h | h
      · exact isLock_of_mem_awaitFuture h rfl
      · unfold readCreated at h
        split at h
        · simp at h
          rw [h]
          rfl
        · split at h
          · simp at h
            rw [h]
            rfl
          · rcases mem_andThen_trace h with h | h
            · simp at h
              rw [h]
              rfl
            · simp [readStage] at h
              rw [h]
              rfl

/-- Every run of the three operations either stops at the ID, before any lock
operation, or is one acquisition, a body without lock operations, and one
release of the same name. -/
theorem operation_run_shape (op : Operation) (d : ResourceData) (env : Env) :
    (op.lockName d env = none ∧ op.run d env = { trace := [], err := some .parseID })
    ∨ (∃ (name : String) (body : List Event), op.lockName d env = some name
        ∧ (op.run d env).trace = Event.ByName name :: body ++ [Event.UnlockByName name]
        ∧ ∀ x ∈ body, x.isLock = false) := by
  cases op with
  | create =>
    exact Or.inr ⟨d.name, (createBody d env).trace, rfl, rfl, createBody_lockFree d env⟩
  | update =>
    cases hp : ParseVirtualMachineID env.ParseAzureResourceID d.Id with
    | none =>
      refine Or.inl ⟨?_, ?_⟩
      · simp [Operation.lockName, hp]
      · simp [Operation.run, resourceLinuxVirtualMachineUpdate, hp]
    | some id =>
      refine Or.inr ⟨id.Name, (updateBody d env).trace, ?_, ?_, updateBody_lockFree d env⟩
      · simp [Operation.lockName, hp]
      · simp [Operation.run, resourceLinuxVirtualMachineUpdate, hp, locked]
  | delete =>
    cases hp : ParseVirtualMachineID env.ParseAzureResourceID d.Id with
    | none =>
      refine Or.inl ⟨?_, ?_⟩
      · simp [Operation.lockName, hp]
      · simp [Operation.run, resourceLinuxVirtualMachineDelete, hp]
    | some id =>
      refine Or.inr ⟨id.Name, (deleteBody env).trace, ?_, ?_, deleteBody_lockFree env⟩
      · simp [Operation.lockName, hp]
      · simp [Operation.run, resourceLinuxVirtualMachineDelete, hp, locked]

theorem lockEvents_of_shape (name : String) (body : List Event)
    (hbody : ∀ x ∈ body, x.isLock = false) :
    lockEvents (Event.ByName name :: body ++ [Event.UnlockByName name]) =
      [.ByName name, .UnlockByName name] := by
  have hnil : body.filter Event.isLock = [] := by
    rw [List.filter_eq_nil_iff]
    intro x hx
    simp [hbody x hx]
  simp [lockEvents, List.filter_cons, List.filter_append, Event.isLock, hnil]

/-- The mutating calls of lines 796-840, from the two flags and the outcomes of
the calls. -/
theorem mutatingCalls_applyUpdate (env : Env) (t : Bool) (p : Plan) :
    mutatingCalls (applyUpdate env t p).trace =
      (if p.shouldShutDown then [Event.PowerOff false] else [])
        ++ (if (!p.shouldShutDown || env.PowerOff == .ok) && p.shouldUpdate
            then [Event.Update p.update] else [])
        ++ (if (env.PowerOff == .ok) && (!p.shouldUpdate || env.Update == .ok)
              && t && p.shouldShutDown
            then [Event.Start] else []) := by
  rcases p with ⟨su, sd, u⟩
  cases su <;> cases sd <;> cases t <;> cases hoff : env.PowerOff <;>
    cases hupd : env.Update <;> cases hstart : env.Start <;>
    simp [applyUpdate, powerOffStage, updateStage, startStage, readStage, awaitFuture,
      Run.andThen, mutatingCalls, Event.isMutating, hoff, hupd, hstart]

/-- The request building returns the identity error only for an identity
block that does not expand. -/
theorem buildUpdate_error_identity (d : ResourceData) (env : Env) (calls : List Event)
    (h : buildUpdate d env = (calls, .error .expandingIdentity)) :
    ∃ msg, d.identity = .error msg := by
  unfold buildUpdate at h
  cases hid : stepIdentity d (stepOsProfile d (stepBootDiagnostics d {})) with
  | error e =>
    unfold stepIdentity at hid
    split at hid
    · split at hid
      · rename_i msg hmsg
        exact ⟨msg, hmsg⟩
      · cases hid
    · cases hid
  | ok q =>
    rw [hid] at h
    simp only at h
    split at h
    · split at h
      · cases h
      · cases h
    · cases h

/-- With `size` and `max_bid_price` unchanged and some field changed, the
request building makes no call and either stops at the identity block or asks
for an update without a shutdown. -/
theorem buildUpdate_without_shutdown (d : ResourceData) (env : Env)
    (hsize : d.HasChange .size = false) (hbid : d.HasChange .max_bid_price = false)
    (hany : anyChange d = true) :
    buildUpdate d env = ([], .error .expandingIdentity)
    ∨ ∃ p, buildUpdate d env = ([], .ok p) ∧ p.shouldUpdate = true
        ∧ p.shouldShutDown = false := by
  rcases buildUpdate_cases d env with h | ⟨h, _⟩ | ⟨_, _, h, _⟩ | ⟨p, _, hb, hsu, hsd, _⟩
  · exact Or.inl h.2
  · rw [hsize] at h
    cases h
  · rw [hsize] at h
    cases h
  · exact Or.inr ⟨p, hb, by rw [hsu, hany], by rw [hsd, hbid]⟩

/-- Where the events of an update run come from. -/
theorem mem_update_run_trace (d : ResourceData) (env : Env) (x : Event)
    (h : x ∈ (resourceLinuxVirtualMachineUpdate d env).trace) :
    x.isLock = true ∨ x = .InstanceView ∨ x ∈ (buildUpdate d env).1
      ∨ ∃ calls p, buildUpdate d env = (calls, .ok p) ∧ x ∈ (applyUpdate env true p).trace := by
  rcases update_run_cases d env with hr | ⟨id, hr⟩ | ⟨id, calls, e, hb, hr⟩
      | ⟨id, view, calls, p, _, _, hb, hr⟩
  · rw [hr] at h
    cases h
  · rw [hr] at h
    rcases mem_locked_trace h with h | h | h
    · exact Or.inl (by rw [h]; rfl)
    · simp at h
      exact Or.inr (Or.inl h)
    · exact Or.inl (by rw [h]; rfl)
  · rw [hr] at h
    rcases mem_locked_trace h with h | h | h
    · exact Or.inl (by rw [h]; rfl)
    · simp only [List.mem_cons] at h
      rcases h with h | h
      · exact Or.inr (Or.inl h)
      · exact Or.inr (Or.inr (Or.inl (by rw [hb]; exact h)))
    · exact Or.inl (by rw [h]; rfl)
  · rw [hr] at h
    rcases mem_locked_trace h with h | h | h
    · exact Or.inl (by rw [h]; rfl)
    · rcases mem_andThen_trace h with h | h
      · simp only [List.mem_cons] at h
        rcases h with h | h
        · exact Or.inr (Or.inl h)
        · exact Or.inr (Or.inr (Or.inl (by rw [hb]; exact h)))
      · exact Or.inr (Or.inr (Or.inr ⟨calls, p, hb, h⟩))
    · exact Or.inl (by rw [h]; rfl)

/-- The mutating calls of an update run whose request building stopped, or
that did not get as far. -/
theorem mutatingCalls_update_cases (d : ResourceData) (env : Env) :
    mutatingCalls (resourceLinuxVirtualMachineUpdate d env).trace = []
    ∨ ∃ calls p, buildUpdate d env = (calls, .ok p)
        ∧ mutatingCalls (resourceLinuxVirtualMachineUpdate d env).trace =
          mutatingCalls (applyUpdate env true p).trace := by
  rcases update_run_cases d env with hr | ⟨id, hr⟩ | ⟨id, calls, e, hb, hr⟩
      | ⟨id, view, calls, p, hparse, hview, hb, _⟩
  · rw [hr]
    exact Or.inl rfl
  · rw [hr, mutatingCalls_locked]
    exact Or.inl rfl
  · rw [hr, mutatingCalls_locked]
    left
    rcases buildUpdate_calls d env with h | h <;> rw [hb] at h <;> simp only at h <;>
      rw [h] <;> rfl
  · exact Or.inr ⟨calls, p, hb, mutatingCalls_update_of_built d env id view calls p hparse hview hb⟩

/-! ## The claims, continued: locks and the calls of an update -/

/-- C22. Lock release on every exit path. For create, update and delete: a run
that returns before the acquisition (update and delete on an ID that does not
parse) has an empty trace, so it neither acquires nor releases; every other
run, whatever it returns, starts with the acquisition of the name, ends with the
release of the same name, and has no lock operation in between, so its lock
operations are exactly one acquisition followed by one release. -/
theorem lock_released_on_every_path (op : Operation) (d : ResourceData) (env : Env) :
    (op.lockName d env = none →
        (op.run d env).trace = [] ∧ (op.run d env).err = some .parseID)
    ∧ (∀ name, op.lockName d env = some name →
        ∃ body : List Event,
          (op.run d env).trace = Event.ByName name :: body ++ [Event.UnlockByName name]
          ∧ (∀ x ∈ body, x.isLock = false)
          ∧ lockEvents (op.run d env).trace = [.ByName name, .UnlockByName name]
          ∧ (op.run d env).trace.getLast? = some (.UnlockByName name))
    ∧ (op = .create → op.lockName d env = some d.name) := by
  refine ⟨?_, ?_, ?_⟩
  · intro hnone
    rcases operation_run_shape op d env with ⟨_, h⟩ | ⟨name, body, hname, _⟩
    · rw [h]
      exact ⟨rfl, rfl⟩
    · rw [hnone] at hname
      cases hname
  · intro name hname
    rcases operation_run_shape op d env with ⟨h, _⟩ | ⟨name1, body, hname1, htrace, hbody⟩
    · rw [hname] at h
      cases h
    · rw [hname] at hname1
      cases hname1
      refine ⟨body, htrace, hbody, ?_, ?_⟩
      · rw [htrace]
        exact lockEvents_of_shape name body hbody
      · rw [htrace]
        exact List.getLast?_concat _
  · intro hop
    rw [hop]
    rfl

/-- Witness for C22: an update whose power-off fails still releases the lock
on `vm1`. -/
theorem lock_released_on_every_path_witness :
    ∃ body : List Event,
      (Operation.update.run bidPriceChange hostPowerOffFails).trace =
        Event.ByName "vm1" :: body ++ [Event.UnlockByName "vm1"]
      ∧ (∀ x ∈ body, x.isLock = false)
      ∧ lockEvents (Operation.update.run bidPriceChange hostPowerOffFails).trace =
        [.ByName "vm1", .UnlockByName "vm1"]
      ∧ (Operation.update.run bidPriceChange hostPowerOffFails).trace.getLast? =
        some (.UnlockByName "vm1") :=
  (lock_released_on_every_path .update bidPriceChange hostPowerOffFails).2.1 "vm1" (by decide)

/-- C25 at a failing input: only `identity` changed, to a block that does not
expand; the run stops with the expansion error and sends no update. -/
theorem update_identity_counterexample :
    identityChangeFails.HasChange .size = false
    ∧ identityChangeFails.HasChange .max_bid_price = false
    ∧ identityChangeFails.HasChange .identity = true
    ∧ mutatingCalls (resourceLinuxVirtualMachineUpdate identityChangeFails
        (hostWith "PowerState/running")).trace = []
    ∧ (resourceLinuxVirtualMachineUpdate identityChangeFails
        (hostWith "PowerState/running")).err = some .expandingIdentity := by
  refine ⟨rfl, rfl, rfl, by decide, by decide⟩

/-- C25, amended. With `size` and `max_bid_price` unchanged and some other
updatable field changed, whatever the instance view and the outcomes of the
calls: no PowerOff and no Start are issued, `ListAvailableSizes` is not
queried, and the mutating calls are none or a single Update. When the ID
parses, the instance view is retrieved and a changed identity block expands,
the mutating calls are exactly one Update. When the identity block changed and
does not expand, the mutating calls are empty, the returned error is never
nil, and with the ID parsed and the instance view retrieved the run is lock,
InstanceView, unlock and returns the expansion error. -/
theorem update_fields_without_shutdown (d : ResourceData) (env : Env)
    (hsize : d.HasChange .size = false) (hbid : d.HasChange .max_bid_price = false)
    (hany : anyChange d = true) :
    (∀ skip, Event.PowerOff skip ∉ (resourceLinuxVirtualMachineUpdate d env).trace)
    ∧ Event.Start ∉ (resourceLinuxVirtualMachineUpdate d env).trace
    ∧ Event.ListAvailableSizes ∉ (resourceLinuxVirtualMachineUpdate d env).trace
    ∧ (mutatingCalls (resourceLinuxVirtualMachineUpdate d env).trace = []
        ∨ ∃ u, mutatingCalls (resourceLinuxVirtualMachineUpdate d env).trace = [Event.Update u])
    ∧ (∀ (id : VirtualMachineResourceID) (view : VirtualMachineInstanceView),
        ParseVirtualMachineID env.ParseAzureResourceID d.Id = some id →
        env.InstanceView = some view →
        (d.HasChange .identity = true → ∃ identity, d.identity = .ok identity) →
        ∃ u, mutatingCalls (resourceLinuxVirtualMachineUpdate d env).trace =
          [Event.Update u])
    ∧ (∀ msg, d.HasChange .identity = true → d.identity = .error msg →
        mutatingCalls (resourceLinuxVirtualMachineUpdate d env).trace = []
        ∧ (resourceLinuxVirtualMachineUpdate d env).err ≠ none
        ∧ ∀ (id : VirtualMachineResourceID) (view : VirtualMachineInstanceView),
            ParseVirtualMachineID env.ParseAzureResourceID d.Id = some id →
            env.InstanceView = some view →
            resourceLinuxVirtualMachineUpdate d env =
              { trace := [.ByName id.Name, .InstanceView, .UnlockByName id.Name],
                err := some .expandingIdentity }) := by
  have hbuild := buildUpdate_without_shutdown d env hsize hbid hany
  have hplan : ∀ calls p, buildUpdate d env = (calls, .ok p) →
      calls = [] ∧ mutatingCalls (applyUpdate env true p).trace = [Event.Update p.update] := by
    intro calls p hb
    rcases hbuild with h | ⟨q, h, hsu, hsd⟩
    · rw [h] at hb
      cases hb
    · rw [h] at hb
      cases hb
      refine ⟨rfl, ?_⟩
      rw [mutatingCalls_applyUpdate, hsu, hsd]
      simp
  have hmut : mutatingCalls (resourceLinuxVirtualMachineUpdate d env).trace = []
      ∨ ∃ u, mutatingCalls (resourceLinuxVirtualMachineUpdate d env).trace =
        [Event.Update u] := by
    rcases mutatingCalls_update_cases d env with h | ⟨calls, p, hb, h⟩
    · exact Or.inl h
    · exact Or.inr ⟨p.update, by rw [h, (hplan calls p hb).2]⟩
  have hnot : ∀ x : Event, x.isMutating = true → (∀ u, x ≠ .Update u) →
      x ∉ (resourceLinuxVirtualMachineUpdate d env).trace := by
    intro x hx hne hmem
    have hin : x ∈ mutatingCalls (resourceLinuxVirtualMachineUpdate d env).trace :=
      List.mem_filter.mpr ⟨hmem, hx⟩
    rcases hmut with h | ⟨u, h⟩
    · rw [h] at hin
      cases hin
    · rw [h] at hin
      simp only [List.mem_singleton] at hin
      exact hne u hin
  refine ⟨?_, ?_, ?_, hmut, ?_, ?_⟩
  rotate_left 4
  · intro msg hchange hmsg
    have hb : buildUpdate d env = ([], .error .expandingIdentity) := by
      unfold buildUpdate stepIdentity
      simp [hchange, hmsg]
    refine ⟨?_, ?_, fun id view hparse hview =>
      update_identity_error d env id view msg hparse hview hchange hmsg⟩
    · rcases mutatingCalls_update_cases d env with h | ⟨calls, p, hp, _⟩
      · exact h
      · rw [hb] at hp
        cases hp
    · rcases update_run_cases d env with hr | ⟨id, hr⟩ | ⟨id, calls, e, _, hr⟩
          | ⟨id, view, calls, p, _, _, hp, _⟩
      · rw [hr]
        simp
      · rw [hr]
        simp [locked]
      · rw [hr]
        simp [locked]
      · rw [hb] at hp
        cases hp
  · intro skip
    exact hnot _ rfl (by intro u h; cases h)
  · exact hnot _ rfl (by intro u h; cases h)
  · intro hmem
    rcases mem_update_run_trace d env _ hmem with h | h | h | ⟨calls, p, hb, h⟩
    · cases h
    · cases h
    · rcases hbuild with hb | ⟨q, hb, _⟩ <;> rw [hb] at h <;> cases h
    · rcases mem_applyUpdate_trace h with ⟨h, _⟩ | h | ⟨h, _⟩ | h | ⟨h, _⟩ | h | h <;> cases h
  · intro id view hparse hview hidentity
    rcases hbuild with hb | ⟨p, hb, _⟩
    · obtain ⟨msg, hmsg⟩ := buildUpdate_error_identity d env [] hb
      have hchanged : d.HasChange .identity = true := by
        rcases buildUpdate_cases d env with h | ⟨_, _, h⟩ | ⟨_, _, _, _, h, _⟩ | ⟨_, _, h, _⟩
        · exact h.1
        · rw [hb] at h
          cases h
        · rw [hb] at h
          cases h
        · rw [hb] at h
          cases h
      obtain ⟨identity, hok⟩ := hidentity hchanged
      rw [hok] at hmsg
      cases hmsg
    · exact ⟨p.update, by
        rw [mutatingCalls_update_of_built d env id view [] p hparse hview hb,
          (hplan [] p hb).2]⟩

/-- Witness for C25: only `os_disk` changed, on a running machine. -/
theorem update_fields_without_shutdown_witness :
    (∀ skip, Event.PowerOff skip ∉
        (resourceLinuxVirtualMachineUpdate osDiskChange (hostWith "PowerState/running")).trace)
    ∧ Event.Start ∉
        (resourceLinuxVirtualMachineUpdate osDiskChange (hostWith "PowerState/running")).trace
    ∧ Event.ListAvailableSizes ∉
        (resourceLinuxVirtualMachineUpdate osDiskChange (hostWith "PowerState/running")).trace
    ∧ (mutatingCalls
          (resourceLinuxVirtualMachineUpdate osDiskChange (hostWith "PowerState/running")).trace = []
        ∨ ∃ u, mutatingCalls
          (resourceLinuxVirtualMachineUpdate osDiskChange (hostWith "PowerState/running")).trace =
            [Event.Update u])
    ∧ (∀ (id : VirtualMachineResourceID) (view : VirtualMachineInstanceView),
        ParseVirtualMachineID (hostWith "PowerState/running").ParseAzureResourceID
          osDiskChange.Id = some id →
        (hostWith "PowerState/running").InstanceView = some view →
        (osDiskChange.HasChange .identity = true →
          ∃ identity, osDiskChange.identity = .ok identity) →
        ∃ u, mutatingCalls
          (resourceLinuxVirtualMachineUpdate osDiskChange (hostWith "PowerState/running")).trace =
            [Event.Update u])
    ∧ (∀ msg, osDiskChange.HasChange .identity = true → osDiskChange.identity = .error msg →
        mutatingCalls
          (resourceLinuxVirtualMachineUpdate osDiskChange (hostWith "PowerState/running")).trace = []
        ∧ (resourceLinuxVirtualMachineUpdate osDiskChange (hostWith "PowerState/running")).err
            ≠ none
        ∧ ∀ (id : VirtualMachineResourceID) (view : VirtualMachineInstanceView),
            ParseVirtualMachineID (hostWith "PowerState/running").ParseAzureResourceID
              osDiskChange.Id = some id →
            (hostWith "PowerState/running").InstanceView = some view →
            resourceLinuxVirtualMachineUpdate osDiskChange (hostWith "PowerState/running") =
              { trace := [.ByName id.Name, .InstanceView, .UnlockByName id.Name],
                err := some .expandingIdentity }) :=
  update_fields_without_shutdown osDiskChange (hostWith "PowerState/running")
    (by decide) (by decide) (by decide)

/-- C26. No-op re-run. When none of the updatable fields changed, update
issues no mutating call, whatever the instance view and the outcomes of the
calls; every event of the run is a lock operation, the fetch of the instance
view or the read-back; and when the ID parses and the instance view is
retrieved the run is exactly lock, InstanceView, read-back, unlock, returning
what the read-back returns. -/
theorem update_no_change_is_noop (d : ResourceData) (env : Env)
    (hnone : ∀ f : Field, d.HasChange f = false) :
    mutatingCalls (resourceLinuxVirtualMachineUpdate d env).trace = []
    ∧ (∀ x ∈ (resourceLinuxVirtualMachineUpdate d env).trace,
        x.isLock = true ∨ x = .InstanceView ∨ x = .Read)
    ∧ (∀ (id : VirtualMachineResourceID) (view : VirtualMachineInstanceView),
        ParseVirtualMachineID env.ParseAzureResourceID d.Id = some id →
        env.InstanceView = some view →
        resourceLinuxVirtualMachineUpdate d env =
          { trace := [.ByName id.Name, .InstanceView, .Read, .UnlockByName id.Name],
            err := if env.ReadFails then some .read else none }) := by
  have hany : anyChange d = false := by simp [anyChange, hnone]
  obtain ⟨p, hb, hsu, hsd⟩ : ∃ p, buildUpdate d env = ([], .ok p) ∧ p.shouldUpdate = false
      ∧ p.shouldShutDown = false := by
    rcases buildUpdate_cases d env with h | ⟨h, _⟩ | ⟨_, _, h, _⟩ | ⟨p, _, hb, hsu, hsd, _⟩
    · rw [hnone] at h
      cases h.1
    · rw [hnone] at h
      cases h
    · rw [hnone] at h
      cases h
    · exact ⟨p, hb, by rw [hsu, hany], by rw [hsd, hnone]⟩
  have happly : applyUpdate env true p = readStage env := by
    simp [applyUpdate, powerOffStage, updateStage, startStage, hsu, hsd, Run.andThen]
  refine ⟨?_, ?_, ?_⟩
  · rcases mutatingCalls_update_cases d env with h | ⟨calls, q, hq, h⟩
    · exact h
    · rw [hb] at hq
      cases hq
      rw [h, happly]
      rfl
  · intro x hx
    rcases mem_update_run_trace d env x hx with h | h | h | ⟨calls, q, hq, h⟩
    · exact Or.inl h
    · exact Or.inr (Or.inl h)
    · rw [hb] at h
      cases h
    · rw [hb] at hq
      cases hq
      rw [happly] at h
      simp [readStage] at h
      exact Or.inr (Or.inr h)
  · intro id view hparse hview
    rw [update_run_of_built d env id view [] p hparse hview hb, happly]
    rfl

/-- Witness for C26: a re-run with nothing changed on a running machine. -/
theorem update_no_change_is_noop_witness :
    mutatingCalls
        (resourceLinuxVirtualMachineUpdate noChange (hostWith "PowerState/running")).trace = []
    ∧ (∀ x ∈ (resourceLinuxVirtualMachineUpdate noChange (hostWith "PowerState/running")).trace,
        x.isLock = true ∨ x = .InstanceView ∨ x = .Read)
    ∧ (∀ (id : VirtualMachineResourceID) (view : VirtualMachineInstanceView),
        ParseVirtualMachineID (hostWith "PowerState/running").ParseAzureResourceID
          noChange.Id = some id →
        (hostWith "PowerState/running").InstanceView = some view →
        resourceLinuxVirtualMachineUpdate noChange (hostWith "PowerState/running") =
          { trace := [.ByName id.Name, .InstanceView, .Read, .UnlockByName id.Name],
            err := if (hostWith "PowerState/running").ReadFails then some .read else none }) :=
  update_no_change_is_noop noChange (hostWith "PowerState/running") (fun _ => rfl)

/-- C27 at a failing input: `max_bid_price` changed and the power-off fails
while it is awaited; the power-off is the only mutating call of the run, and no
update request is attempted after it. -/
theorem update_power_off_alone_counterexample :
    mutatingCalls (resourceLinuxVirtualMachineUpdate bidPriceChange hostPowerOffFails).trace =
        [Event.PowerOff false]
    ∧ (resourceLinuxVirtualMachineUpdate bidPriceChange hostPowerOffFails).trace =
        [.ByName "vm1", .InstanceView, .PowerOff false, .WaitForCompletionRef .PowerOff,
         .UnlockByName "vm1"]
    ∧ (resourceLinuxVirtualMachineUpdate bidPriceChange hostPowerOffFails).err =
        some .waitingForPowerOff := by
  refine ⟨by decide, by decide, by decide⟩

/-- C27, amended. In every run of update the mutating calls are an optional
PowerOff, then an optional Update, then an optional Start, each at most once
and in that order. A plan that requires a shutdown requires an update too, so
a PowerOff that completes is followed next by the Update request; a PowerOff
that fails is followed by nothing. Start is issued only when PowerOff and
Update were both issued and both completed. -/
theorem update_call_order (d : ResourceData) (env : Env) :
    ∃ (off upd start : Bool) (u : VirtualMachineUpdate),
      mutatingCalls (resourceLinuxVirtualMachineUpdate d env).trace =
        (if off then [Event.PowerOff false] else [])
          ++ (if upd then [Event.Update u] else [])
          ++ (if start then [Event.Start] else [])
      ∧ (off = true → env.PowerOff = .ok → upd = true)
      ∧ (off = true → env.PowerOff ≠ .ok → upd = false ∧ start = false)
      ∧ (start = true →
          off = true ∧ upd = true ∧ env.PowerOff = .ok ∧ env.Update = .ok)
      ∧ (∀ calls p, buildUpdate d env = (calls, .ok p) →
          p.shouldShutDown = true → p.shouldUpdate = true) := by
  have hflags : ∀ calls p, buildUpdate d env = (calls, .ok p) →
      p.shouldShutDown = true → p.shouldUpdate = true :=
    fun calls p hb => (buildUpdate_ok_flags d env calls p hb).2.2.1
  rcases mutatingCalls_update_cases d env with h | ⟨calls, p, hb, h⟩
  · exact ⟨false, false, false, {}, by rw [h]; rfl, by simp, by simp, by simp, hflags⟩
  · refine ⟨p.shouldShutDown,
      (!p.shouldShutDown || env.PowerOff == .ok) && p.shouldUpdate,
      (env.PowerOff == .ok) && (!p.shouldUpdate || env.Update == .ok) && true
        && p.shouldShutDown,
      p.update, ?_, ?_, ?_, ?_, hflags⟩
    · rw [h, mutatingCalls_applyUpdate]
    · intro hoff hok
      simp [hoff, hok, hflags calls p hb hoff]
    · intro hoff hfail
      simp [hoff, hfail]
    · intro hstart
      simp only [Bool.and_eq_true, Bool.or_eq_true, beq_iff_eq, Bool.not_eq_true',
        Bool.and_true] at hstart
      obtain ⟨⟨hok, hupd⟩, hsd⟩ := hstart
      have hsu := hflags calls p hb hsd
      rw [hsu] at hupd
      simp at hupd
      simp [hsd, hok, hsu, hupd]

/-! ## Auxiliary facts: schedules of two operations -/

theorem schedulePart_cons_same (who : Bool) (e : Event) (s : List (Bool × Event)) :
    schedulePart who ((who, e) :: s) = e :: schedulePart who s := by
  simp [schedulePart]

theorem schedulePart_cons_other (who : Bool) (e : Event) (s : List (Bool × Event)) :
    schedulePart who ((!who, e) :: s) = schedulePart who s := by
  cases who <;> simp [schedulePart]

theorem schedulePart_not_cons (who : Bool) (e : Event) (s : List (Bool × Event)) :
    schedulePart (!who) ((who, e) :: s) = schedulePart (!who) s := by
  cases who <;> simp [schedulePart]

/-- A schedule in which one operation takes no step is the other operation
alone. -/
theorem schedule_of_one_side (who : Bool) :
    ∀ s : List (Bool × Event), schedulePart (!who) s = [] →
      s = tagged who (schedulePart who s) := by
  intro s
  induction s with
  | nil => intro _; rfl
  | cons step s ih =>
    obtain ⟨w, e⟩ := step
    intro h
    have hw : w = who ∨ w = !who := by cases w <;> cases who <;> simp
    rcases hw with hw | hw
    · subst hw
      rw [schedulePart_not_cons] at h
      rw [schedulePart_cons_same]
      show (w, e) :: s = (w, e) :: tagged w (schedulePart w s)
      rw [← ih h]
    · subst hw
      rw [schedulePart_cons_same] at h
      cases h

theorem admissible_cons_of_not_lock (held : List String) (w : Bool) (e : Event)
    (s : List (Bool × Event)) (he : e.isLock = false) :
    admissible held ((w, e) :: s) = admissible held s := by
  cases e <;> first | rfl | cases he

theorem admissible_tagged_append (w : Bool) (s : List (Bool × Event)) (held : List String) :
    ∀ body : List Event, (∀ x ∈ body, x.isLock = false) →
      admissible held (tagged w body ++ s) = admissible held s := by
  intro body
  induction body with
  | nil => intro _; rfl
  | cons x body ih =>
    intro hbody
    show admissible held ((w, x) :: (tagged w body ++ s)) = admissible held s
    rw [admissible_cons_of_not_lock held w x _ (hbody x (List.mem_cons_self _ _))]
    exact ih fun y hy => hbody y (List.mem_cons_of_mem _ hy)

/-- One whole operation at the head of a schedule, from no held name, leaves no
held name. -/
theorem admissible_serial (w : Bool) (name : String) (body : List Event)
    (s : List (Bool × Event)) (hbody : ∀ x ∈ body, x.isLock = false) :
    admissible [] (tagged w (Event.ByName name :: body ++ [Event.UnlockByName name]) ++ s) =
      admissible [] s := by
  have hshape : tagged w (Event.ByName name :: body ++ [Event.UnlockByName name]) ++ s =
      (w, Event.ByName name) :: (tagged w body ++ ((w, Event.UnlockByName name) :: s)) := by
    simp [tagged]
  rw [hshape]
  simp only [admissible, List.contains_nil, Bool.not_false, Bool.true_and]
  rw [admissible_tagged_append w _ [name] body hbody]
  simp [admissible]

/-- While a name is held by one operation, the other, which starts by
acquiring the same name, takes no step before the release. -/
theorem blocked_until_release (who : Bool) (name : String) (rest : List Event) :
    ∀ (s : List (Bool × Event)) (held : List String) (body : List Event),
      name ∈ held → admissible held s = true →
      (∀ x ∈ body, x.isLock = false) →
      schedulePart who s = body ++ [Event.UnlockByName name] →
      schedulePart (!who) s = Event.ByName name :: rest →
      s = tagged who (body ++ [Event.UnlockByName name])
            ++ tagged (!who) (Event.ByName name :: rest) := by
  intro s
  induction s with
  | nil =>
    intro held body _ _ _ h _
    cases body <;> cases h
  | cons step s ih =>
    obtain ⟨w, e⟩ := step
    intro held body hheld hadm hbody hmine hother
    have hw : w = who ∨ w = !who := by cases w <;> cases who <;> simp
    rcases hw with hw | hw
    · subst hw
      rw [schedulePart_cons_same] at hmine
      rw [schedulePart_not_cons] at hother
      cases body with
      | nil =>
        simp only [List.nil_append, List.cons.injEq] at hmine
        obtain ⟨he, hnil⟩ := hmine
        have hs := schedule_of_one_side (!w) s (by rw [Bool.not_not]; exact hnil)
        rw [hother] at hs
        rw [he, hs]
        rfl
      | cons x body =>
        simp only [List.cons_append, List.cons.injEq] at hmine
        obtain ⟨he, htail⟩ := hmine
        subst he
        rw [admissible_cons_of_not_lock held w e s (hbody e (List.mem_cons_self _ _))] at hadm
        rw [ih held body hheld hadm (fun y hy => hbody y (List.mem_cons_of_mem _ hy))
          htail hother]
        rfl
    · subst hw
      rw [schedulePart_cons_same] at hother
      simp only [List.cons.injEq] at hother
      rw [hother.1] at hadm
      simp [admissible, hheld] at hadm

theorem lockReady_tail (name : String) (held : List String) (e : Event) (r : List Event)
    (h : lockReady name held (e :: r)) (he : ∀ m, e ≠ Event.ByName m)
    (other : List String) : lockReady name other r := by
  rcases h with h | ⟨tail, h, _⟩
  · exact Or.inl fun x hx => h x (List.mem_cons_of_mem _ hx)
  · simp only [List.cons.injEq] at h
    exact absurd h.1 (he name)

theorem lockReady_acquire (name : String) (held : List String) (m : String) (r : List Event)
    (h : lockReady name held (Event.ByName m :: r)) :
    m = name ∧ name ∉ held ∧ ∀ other : List String, lockReady name other r := by
  rcases h with h | ⟨tail, h, htail, hheld⟩
  · exact absurd rfl (h _ (List.mem_cons_self _ _) m)
  · simp only [List.cons.injEq, Event.ByName.injEq] at h
    obtain ⟨hm, hr⟩ := h
    rw [hr]
    exact ⟨hm, hheld, fun _ => Or.inl htail⟩

theorem lockReady_mono (name : String) (held other : List String) (r : List Event)
    (h : lockReady name held r) (hh : name ∉ held → name ∉ other) :
    lockReady name other r := by
  rcases h with h | ⟨tail, h, htail, hheld⟩
  · exact Or.inl h
  · exact Or.inr ⟨tail, h, htail, hh hheld⟩

theorem lockReady_of_shape (name : String) (body : List Event)
    (hbody : ∀ x ∈ body, x.isLock = false) :
    lockReady name [] (Event.ByName name :: body ++ [Event.UnlockByName name]) := by
  refine Or.inr ⟨body ++ [Event.UnlockByName name], rfl, ?_, by simp⟩
  intro x hx m hm
  rw [List.mem_append] at hx
  rcases hx with hx | hx
  · have := hbody x hx
    rw [hm] at this
    cases this
  · rw [List.mem_singleton] at hx
    rw [hx] at hm
    cases hm

/-- Two operations that acquire different names never wait for each other:
every interleaving of their steps is admissible. -/
theorem admissible_of_distinct_names (a b : String) (hab : a ≠ b) :
    ∀ (s : List (Bool × Event)) (held : List String),
      lockReady a held (schedulePart true s) → lockReady b held (schedulePart false s) →
      admissible held s = true := by
  intro s
  induction s with
  | nil => intro _ _ _; rfl
  | cons step s ih =>
    obtain ⟨w, e⟩ := step
    intro held h1 h2
    cases w with
    | true =>
      rw [schedulePart_cons_same] at h1
      rw [show schedulePart false ((true, e) :: s) = schedulePart false s from
        schedulePart_not_cons true e s] at h2
      cases e with
      | ByName m =>
        obtain ⟨hm, hheld, hrest⟩ := lockReady_acquire a held m _ h1
        have hstep : admissible held ((true, Event.ByName m) :: s) =
            (!held.contains m && admissible (m :: held) s) := rfl
        have hb : lockReady b (m :: held) (schedulePart false s) :=
          lockReady_mono b held _ _ h2 (by
            intro hnot hmem
            rw [List.mem_cons] at hmem
            rcases hmem with hmem | hmem
            · exact hab (hm.symm.trans hmem.symm)
            · exact hnot hmem)
        rw [hstep, ih (m :: held) (hrest _) hb, hm]
        simp [hheld]
      | UnlockByName m =>
        have hstep : admissible held ((true, Event.UnlockByName m) :: s) =
            admissible (held.filter fun other => other != m) s := rfl
        rw [hstep]
        exact ih _ (lockReady_tail a held _ _ h1 (by intro m h; cases h) _)
          (lockReady_mono b held _ _ h2 fun hnot hmem => hnot (List.mem_of_mem_filter hmem))
      | _ =>
        show admissible held s = true
        exact ih held (lockReady_tail a held _ _ h1 (by intro m h; cases h) held) h2
    | false =>
      rw [schedulePart_cons_same] at h2
      rw [show schedulePart true ((false, e) :: s) = schedulePart true s from
        schedulePart_cons_other true e s] at h1
      cases e with
      | ByName m =>
        obtain ⟨hm, hheld, hrest⟩ := lockReady_acquire b held m _ h2
        have hstep : admissible held ((false, Event.ByName m) :: s) =
            (!held.contains m && admissible (m :: held) s) := rfl
        have ha : lockReady a (m :: held) (schedulePart true s) :=
          lockReady_mono a held _ _ h1 (by
            intro hnot hmem
            rw [List.mem_cons] at hmem
            rcases hmem with hmem | hmem
            · exact hab (hmem.trans hm)
            · exact hnot hmem)
        rw [hstep, ih (m :: held) ha (hrest _), hm]
        simp [hheld]
      | UnlockByName m =>
        have hstep : admissible held ((false, Event.UnlockByName m) :: s) =
            admissible (held.filter fun other => other != m) s := rfl
        rw [hstep]
        exact ih _
          (lockReady_mono a held _ _ h1 fun hnot hmem => hnot (List.mem_of_mem_filter hmem))
          (lockReady_tail b held _ _ h2 (by intro m h; cases h) _)
      | _ =>
        show admissible held s = true
        exact ih held h1 (lockReady_tail b held _ _ h2 (by intro m h; cases h) held)

/-- Two operations that acquire the same name run one after the other in every
admissible schedule, whichever acquires first. -/
theorem serial_of_same_name (name : String) (body1 body2 : List Event)
    (hbody1 : ∀ x ∈ body1, x.isLock = false) (hbody2 : ∀ x ∈ body2, x.isLock = false)
    (schedule : List (Bool × Event))
    (hfirst : schedulePart true schedule =
      Event.ByName name :: body1 ++ [Event.UnlockByName name])
    (hsecond : schedulePart false schedule =
      Event.ByName name :: body2 ++ [Event.UnlockByName name])
    (hadm : admissible [] schedule = true) :
    schedule = tagged true (Event.ByName name :: body1 ++ [Event.UnlockByName name])
        ++ tagged false (Event.ByName name :: body2 ++ [Event.UnlockByName name])
    ∨ schedule = tagged false (Event.ByName name :: body2 ++ [Event.UnlockByName name])
        ++ tagged true (Event.ByName name :: body1 ++ [Event.UnlockByName name]) := by
  cases schedule with
  | nil => cases hfirst
  | cons step s =>
    obtain ⟨w, e⟩ := step
    cases w with
    | true =>
      left
      rw [schedulePart_cons_same] at hfirst
      rw [show schedulePart false ((true, e) :: s) = schedulePart false s from
        schedulePart_not_cons true e s] at hsecond
      simp only [List.cons_append, List.cons.injEq] at hfirst
      obtain ⟨he, hrest⟩ := hfirst
      rw [he] at hadm
      have hstep : admissible [] ((true, Event.ByName name) :: s) =
          (!([] : List String).contains name && admissible [name] s) := rfl
      rw [hstep] at hadm
      simp only [Bool.and_eq_true] at hadm
      rw [he, blocked_until_release true name (body2 ++ [Event.UnlockByName name]) s [name]
        body1 (List.mem_singleton.mpr rfl) hadm.2 hbody1 hrest hsecond]
      rfl
    | false =>
      right
      rw [schedulePart_cons_same] at hsecond
      rw [show schedulePart true ((false, e) :: s) = schedulePart true s from
        schedulePart_cons_other true e s] at hfirst
      simp only [List.cons_append, List.cons.injEq] at hsecond
      obtain ⟨he, hrest⟩ := hsecond
      rw [he] at hadm
      have hstep : admissible [] ((false, Event.ByName name) :: s) =
          (!([] : List String).contains name && admissible [name] s) := rfl
      rw [hstep] at hadm
      simp only [Bool.and_eq_true] at hadm
      rw [he, blocked_until_release false name (body1 ++ [Event.UnlockByName name]) s [name]
        body2 (List.mem_singleton.mpr rfl) hadm.2 hbody2 hrest hfirst]
      rfl

/-! ## The claims, continued: serialisation -/

/-- C23. Serialisation by name. Take two runs of create, update or delete that
reach their acquisition, and any schedule of their steps that the lock admits.
When both acquire the same name the schedule is one whole run followed by the
other whole run, in either order, so the mutating calls of the two never
interleave, and both orders are admitted. When they acquire different names,
every interleaving of their steps is admitted. -/
theorem serialisation_by_name (op1 op2 : Operation) (d1 d2 : ResourceData)
    (env1 env2 : Env) (name1 name2 : String)
    (h1 : op1.lockName d1 env1 = some name1) (h2 : op2.lockName d2 env2 = some name2) :
    (name1 = name2 →
      (∀ schedule : List (Bool × Event),
        schedulePart true schedule = (op1.run d1 env1).trace →
        schedulePart false schedule = (op2.run d2 env2).trace →
        admissible [] schedule = true →
        schedule = tagged true (op1.run d1 env1).trace ++ tagged false (op2.run d2 env2).trace
        ∨ schedule =
          tagged false (op2.run d2 env2).trace ++ tagged true (op1.run d1 env1).trace)
      ∧ admissible []
          (tagged true (op1.run d1 env1).trace ++ tagged false (op2.run d2 env2).trace) = true
      ∧ admissible []
          (tagged false (op2.run d2 env2).trace ++ tagged true (op1.run d1 env1).trace) = true)
    ∧ (name1 ≠ name2 →
      ∀ schedule : List (Bool × Event),
        schedulePart true schedule = (op1.run d1 env1).trace →
        schedulePart false schedule = (op2.run d2 env2).trace →
        admissible [] schedule = true) := by
  obtain ⟨body1, ht1, hbody1⟩ : ∃ body, (op1.run d1 env1).trace =
      Event.ByName name1 :: body ++ [Event.UnlockByName name1]
      ∧ ∀ x ∈ body, x.isLock = false := by
    rcases operation_run_shape op1 d1 env1 with ⟨h, _⟩ | ⟨name, body, hname, ht, hbody⟩
    · rw [h1] at h
      cases h
    · rw [h1] at hname
      cases hname
      exact ⟨body, ht, hbody⟩
  obtain ⟨body2, ht2, hbody2⟩ : ∃ body, (op2.run d2 env2).trace =
      Event.ByName name2 :: body ++ [Event.UnlockByName name2]
      ∧ ∀ x ∈ body, x.isLock = false := by
    rcases operation_run_shape op2 d2 env2 with ⟨h, _⟩ | ⟨name, body, hname, ht, hbody⟩
    · rw [h2] at h
      cases h
    · rw [h2] at hname
      cases hname
      exact ⟨body, ht, hbody⟩
  rw [ht1, ht2]
  constructor
  · intro hsame
    subst hsame
    refine ⟨fun schedule hfirst hsecond hadm =>
      serial_of_same_name name1 body1 body2 hbody1 hbody2 schedule hfirst hsecond hadm, ?_, ?_⟩
    · rw [admissible_serial true name1 body1 _ hbody1]
      have h := admissible_serial false name1 body2 [] hbody2
      rw [List.append_nil] at h
      rw [h]
      rfl
    · rw [admissible_serial false name1 body2 _ hbody2]
      have h := admissible_serial true name1 body1 [] hbody1
      rw [List.append_nil] at h
      rw [h]
      rfl
  · intro hne schedule hfirst hsecond
    apply admissible_of_distinct_names name1 name2 hne schedule []
    · rw [hfirst]
      exact lockReady_of_shape name1 body1 hbody1
    · rw [hsecond]
      exact lockReady_of_shape name2 body2 hbody2

/-- Witness for C23: an update and a delete of the same machine `vm1`. -/
theorem serialisation_by_name_witness :
    ("vm1" = "vm1" →
      (∀ schedule : List (Bool × Event),
        schedulePart true schedule =
          (Operation.update.run bidPriceChange (hostWith "PowerState/running")).trace →
        schedulePart false schedule =
          (Operation.delete.run noChange (hostWith "PowerState/running")).trace →
        admissible [] schedule = true →
        schedule =
          tagged true (Operation.update.run bidPriceChange (hostWith "PowerState/running")).trace
            ++ tagged false (Operation.delete.run noChange (hostWith "PowerState/running")).trace
        ∨ schedule =
          tagged false (Operation.delete.run noChange (hostWith "PowerState/running")).trace
            ++ tagged true
              (Operation.update.run bidPriceChange (hostWith "PowerState/running")).trace)
      ∧ admissible []
          (tagged true (Operation.update.run bidPriceChange (hostWith "PowerState/running")).trace
            ++ tagged false
              (Operation.delete.run noChange (hostWith "PowerState/running")).trace) = true
      ∧ admissible []
          (tagged false (Operation.delete.run noChange (hostWith "PowerState/running")).trace
            ++ tagged true
              (Operation.update.run bidPriceChange (hostWith "PowerState/running")).trace)
          = true)
    ∧ ("vm1" ≠ "vm1" →
      ∀ schedule : List (Bool × Event),
        schedulePart true schedule =
          (Operation.update.run bidPriceChange (hostWith "PowerState/running")).trace →
        schedulePart false schedule =
          (Operation.delete.run noChange (hostWith "PowerState/running")).trace →
        admissible [] schedule = true) :=
  serialisation_by_name .update .delete bidPriceChange noChange
    (hostWith "PowerState/running") (hostWith "PowerState/running") "vm1" "vm1"
    (by decide) (by decide)

end AzureRM
